import Mathlib

/-!
# Crop monitoring dashboard: a verification development

A shallow embedding of the two browser scripts of the repository,
`js/dashboard.js` (namespace `Dashboard`) and `js/field-monitor.js`
(namespace `FieldMonitor`), of the map effects of
`src/components/Dashboard.jsx` (namespace `ReactDashboard`) and of the state
updaters of `src/components/Sidebar.jsx` (namespace `Sidebar`), followed by
theorems about them.

Modelling conventions.

* JSON data coming from the backend is a `JSValue`.  Property reads, method
  calls and truthiness follow JavaScript: reading a property of `undefined`
  or `null` throws a `TypeError`, calling a method that the receiver does not
  have throws a `TypeError`.
* A `JSNumber` is the finite decimal that the JSON text carried.  Its Number
  value is the IEEE 754 double nearest to that decimal, ties to even, held
  exactly as a fraction `num / den` (an infinity when the decimal is too
  large).  `toFixed` and `toString` work on that double as ECMAScript
  prescribes: `toFixed(d)` takes the multiple of `10^-d` nearest to the exact
  value of the double, and `toString` prints the shortest decimal that reads
  back as the same double.
* Strings are sequences of characters.  `toUpperCase` maps the letters `a` to
  `z` and leaves every other character as it is, which is what a browser does
  on strings of ASCII characters.
* The document is a finite map from element ids to elements
  (`getElementById`); the nesting of elements is not part of the sources
  (the HTML pages are not in the repository) and is not modelled.
* An `async` function is cut at its `await`s.  The part before the first
  `await fetch(..)` runs when the function is called: it appends the request
  to `requests` and registers a continuation in `pending`.  The event
  `respond k outcome` runs the continuation of request number `k`: the code
  after the `await`s, or the `catch` block, in one atomic step, exactly as
  the single-threaded event loop does.
* A thrown exception keeps the state changes made before the throw
  (`Res.throw e s`).
* The credential requests of `login` and `getDemoToken` are appended to
  `requests` as well; their continuations are run by the session events
  `loginResponse` and `demoTokenResponse`, which are accepted at any time.
* The mapping and charting libraries are outside the sources.  Leaflet is a
  parameter that says which vertex lists it rejects; constructing a chart
  records its configuration.
-/

/-! ## JavaScript values -/

/-- A finite decimal `(-1)^neg * mant / 10^scale`, the text of a JSON number. -/
structure JSNumber where
  neg : Bool
  mant : Nat
  scale : Nat
deriving DecidableEq, Repr

/-- A JavaScript value as produced by `JSON.parse`, plus `undefined`. -/
inductive JSValue where
  | undefined
  | null
  | bool (b : Bool)
  | num (n : JSNumber)
  | str (s : String)
  | arr (items : List JSValue)
  | obj (props : List (String × JSValue))

/-- An exception value; only its `message` is ever read by the scripts. -/
inductive JSError where
  | error (message : String)
  | typeError (message : String)
deriving DecidableEq, Repr

/-- The `message` property of an exception. -/
def JSError.message : JSError → String
  | .error m => m
  | .typeError m => m

/-- Left-pads `s` with `c` up to length `n`. -/
def padLeft (n : Nat) (c : Char) (s : String) : String :=
  String.mk (List.replicate (n - s.length) c ++ s.data)

/-- Removes trailing `0` characters. -/
def stripTrailingZeros (cs : List Char) : List Char :=
  (cs.reverse.dropWhile (fun c => c == '0')).reverse

namespace JSNumber

/-- The number of binary digits of `n` after the leading one. -/
def bits (n : Nat) : Nat := (Nat.toDigits 2 n).length - 1

/-- The integer part of the binary logarithm of `p / q`, for positive `p` and `q`. -/
def floorLog2 (p q : Nat) : Int :=
  if q * 2 ^ bits p ≤ p * 2 ^ bits q then (bits p : Int) - bits q
  else (bits p : Int) - bits q - 1

/-- The exponent `e` of the spacing `2^e` of the doubles around `p / q`: 53
significant bits, and no spacing below `2^-1074`. -/
def ulpExp (p q : Nat) : Int := max (floorLog2 p q - 52) (-1074)

/-- The integer nearest to `n / d`, the even one on a tie. -/
def divRoundEven (n d : Nat) : Nat :=
  if 2 * (n % d) < d then n / d
  else if 2 * (n % d) = d ∧ (n / d) % 2 = 0 then n / d
  else n / d + 1

/-- The numerator of the double nearest to `p / q` (ties to even), over the
denominator `doubleDen p q`. -/
def doubleNum (p q : Nat) : Nat :=
  divRoundEven (p * 2 ^ (-(ulpExp p q)).toNat) (q * 2 ^ (ulpExp p q).toNat) *
    2 ^ (ulpExp p q).toNat

/-- The denominator of the double nearest to `p / q`, a power of two. -/
def doubleDen (p q : Nat) : Nat := 2 ^ (-(ulpExp p q)).toNat

/-- The numerator of the magnitude of the Number value that `JSON.parse` makes
of the decimal. -/
def num (x : JSNumber) : Nat := doubleNum x.mant (10 ^ x.scale)

/-- The denominator of the magnitude of the Number value. -/
def den (x : JSNumber) : Nat := doubleDen x.mant (10 ^ x.scale)

/-- The number is `+0` or `-0`. -/
def isZero (x : JSNumber) : Bool := x.num == 0

/-- The number is not an infinity: its magnitude is below `2^1024`. -/
def isFinite (x : JSNumber) : Bool :=
  decide (x.num < 2 ^ 256 * 2 ^ 256 * 2 ^ 256 * 2 ^ 256 * x.den)

/-- The sign that number formatting prints: `-` for a negative non-zero value. -/
def signStr (x : JSNumber) : String :=
  if x.neg && !x.isZero then "-" else ""

/-- The number of decimal digits of `n`. -/
def digitCount (n : Nat) : Nat := (Nat.toDigits 10 n).length

/-- The integer `n` with `10^(n-1) ≤ a / b < 10^n`, for positive `a` and `b`. -/
def decExp (a b : Nat) : Int :=
  if b ≤ a then (digitCount (a / b) : Int) else 1 - (digitCount ((b - 1) / a) : Int)

/-- The Number value of the decimal `s * 10^u` is `a / b`. -/
def readsBack (a b : Nat) (s : Nat) (u : Int) : Bool :=
  doubleNum (s * 10 ^ u.toNat) (10 ^ (-u).toNat) * b ==
    a * doubleDen (s * 10 ^ u.toNat) (10 ^ (-u).toNat)

/-- A decimal `s * 10^u` of `k` digits whose Number value is `a / b`, if there is
one: the one nearest to `a / b`, the even `s` on a tie. -/
def shortestAt (a b : Nat) (k : Nat) : Option (Nat × Int) :=
  let u : Int := decExp a b - k
  let lo := (a * 10 ^ (-u).toNat) / (b * 10 ^ u.toNat)
  let r := (a * 10 ^ (-u).toNat) % (b * 10 ^ u.toNat)
  let d := b * 10 ^ u.toNat
  if readsBack a b lo u && readsBack a b (lo + 1) u then
    if 2 * r < d then some (lo, u)
    else if 2 * r = d then (if lo % 2 = 0 then some (lo, u) else some (lo + 1, u))
    else some (lo + 1, u)
  else if readsBack a b lo u then some (lo, u)
  else if readsBack a b (lo + 1) u then some (lo + 1, u)
  else none

/-- The decimal with the fewest digits whose Number value is `a / b`; seventeen
digits always suffice for a double. -/
def shortest (a b : Nat) : Nat × Int :=
  ((List.range 17).findSome? (fun i => shortestAt a b (i + 1))).getD (0, 0)

/-- The exponent part of the scientific form: a sign and the digits. -/
def expStr (e : Int) : String :=
  (if 0 ≤ e then "+" else "-") ++ Nat.repr e.natAbs

/-- The layout rules of `Number::toString` for the digits `ds` of a value
`0.ds * 10^n`: positional form for `-6 < n ≤ 21`, scientific form otherwise. -/
def formatDigits (ds : List Char) (n : Int) : String :=
  if (ds.length : Int) ≤ n ∧ n ≤ 21 then
    String.mk (ds ++ List.replicate (n - ds.length).toNat '0')
  else if 0 < n ∧ n ≤ 21 then String.mk (ds.take n.toNat ++ '.' :: ds.drop n.toNat)
  else if -6 < n ∧ n ≤ 0 then String.mk ('0' :: '.' :: List.replicate (-n).toNat '0' ++ ds)
  else if ds.length = 1 then String.mk ds ++ "e" ++ expStr (n - 1)
  else String.mk (ds.take 1 ++ '.' :: ds.drop 1) ++ "e" ++ expStr (n - 1)

/-- `Number::toString`: the shortest decimal that reads back as the same
double, laid out by `formatDigits`. -/
def toStr (x : JSNumber) : String :=
  if x.isZero then "0"
  else if !x.isFinite then x.signStr ++ "Infinity"
  else
    x.signStr ++ formatDigits (stripTrailingZeros (Nat.toDigits 10 (shortest x.num x.den).1))
      ((shortest x.num x.den).2 + (Nat.toDigits 10 (shortest x.num x.den).1).length)

/-- The integer `n` for which `n / 10^d` is closest to the magnitude of the
double, the larger one on a tie. -/
def roundScaled (x : JSNumber) (d : Nat) : Nat :=
  (2 * x.num * 10 ^ d + x.den) / (2 * x.den)

/-- The digits after the decimal point of `toFixed`, exactly `d` of them. -/
def fracDigits (x : JSNumber) (d : Nat) : String :=
  padLeft d '0' (Nat.repr (x.roundScaled d % 10 ^ d))

/-- `Number.prototype.toFixed(d)` for `0 ≤ d ≤ 100`: an infinity and a magnitude
of `10^21` or more print as `toString` prints them. -/
def toFixed (x : JSNumber) (d : Nat) : String :=
  if !x.isFinite || decide (10 ^ 21 * x.den ≤ x.num) then x.toStr
  else x.signStr ++ Nat.repr (x.roundScaled d / 10 ^ d) ++
    (if d = 0 then "" else "." ++ x.fracDigits d)

end JSNumber

/-- `String.prototype.toUpperCase` on strings of ASCII characters: the letters
`a` to `z` are mapped, every other character is left as it is. -/
def toUpperCase (s : String) : String := String.mk (s.data.map Char.toUpper)

/-- `s.charAt(0)`: the first character, or the empty string. -/
def charAt0 (s : String) : String := String.mk (s.data.take 1)

/-- `s.slice(1)`: everything after the first character. -/
def slice1 (s : String) : String := String.mk (s.data.drop 1)

/-- The idiom `s.charAt(0).toUpperCase() + s.slice(1)`. -/
def capitalize (s : String) : String := toUpperCase (charAt0 s) ++ slice1 s

namespace JSValue

/-- The result of `ToBoolean`. -/
def truthy : JSValue → Bool
  | undefined => false
  | null => false
  | bool b => b
  | num n => !n.isZero
  | str s => s != ""
  | arr _ => true
  | obj _ => true

/-- The test `v !== undefined`. -/
def isDefined : JSValue → Bool
  | undefined => false
  | _ => true

/-- Looks a key up in the property list of an object. -/
def lookup (k : String) : List (String × JSValue) → JSValue
  | [] => undefined
  | (k', v) :: rest => if k' = k then v else lookup k rest

/-- The property read `v.k` for the property names the scripts use (own JSON
properties and `length`). -/
def get (v : JSValue) (k : String) : Except JSError JSValue :=
  match v with
  | undefined =>
    .error (.typeError ("Cannot read properties of undefined (reading " ++ k ++ ")"))
  | null =>
    .error (.typeError ("Cannot read properties of null (reading " ++ k ++ ")"))
  | obj props => .ok (lookup k props)
  | arr items => .ok (if k = "length" then num ⟨false, items.length, 0⟩ else undefined)
  | str s => .ok (if k = "length" then num ⟨false, s.length, 0⟩ else undefined)
  | _ => .ok undefined

/-- The indexed read `v[i]`. -/
def index (v : JSValue) (i : Nat) : Except JSError JSValue :=
  match v with
  | undefined =>
    .error (.typeError ("Cannot read properties of undefined (reading " ++ Nat.repr i ++ ")"))
  | null =>
    .error (.typeError ("Cannot read properties of null (reading " ++ Nat.repr i ++ ")"))
  | arr items => .ok (items.getD i undefined)
  | str s => .ok (match s.data.get? i with
      | some c => str (String.mk [c])
      | none => undefined)
  | obj props => .ok (lookup (Nat.repr i) props)
  | _ => .ok undefined

mutual
/-- The `ToString` conversion used by template literals and `+`. -/
def toStr : JSValue → String
  | undefined => "undefined"
  | null => "null"
  | bool b => if b then "true" else "false"
  | num n => n.toStr
  | str s => s
  | arr items => joinItems items
  | obj _ => "[object Object]"
termination_by structural v => v
/-- The helper `Array.prototype.join(",")`: `null` and `undefined` print as nothing. -/
def joinItems : List JSValue → String
  | [] => ""
  | [undefined] => ""
  | [null] => ""
  | [x] => toStr x
  | undefined :: rest => "," ++ joinItems rest
  | null :: rest => "," ++ joinItems rest
  | x :: rest => toStr x ++ "," ++ joinItems rest
termination_by structural l => l
end

/-- The expression `v || d` with a string default. -/
def orElse (v : JSValue) (d : String) : JSValue :=
  if v.truthy then v else str d

/-- The call `v.toFixed(d)`. -/
def callToFixed (v : JSValue) (d : Nat) : Except JSError String :=
  match v with
  | undefined => .error (.typeError "Cannot read properties of undefined (reading toFixed)")
  | null => .error (.typeError "Cannot read properties of null (reading toFixed)")
  | num n => .ok (n.toFixed d)
  | _ => .error (.typeError "toFixed is not a function")

/-- The call `v.toUpperCase()`. -/
def callToUpperCase (v : JSValue) : Except JSError String :=
  match v with
  | undefined => .error (.typeError "Cannot read properties of undefined (reading toUpperCase)")
  | null => .error (.typeError "Cannot read properties of null (reading toUpperCase)")
  | str s => .ok (toUpperCase s)
  | _ => .error (.typeError "toUpperCase is not a function")

/-- The expression `v.charAt(0).toUpperCase() + v.slice(1)`. -/
def callCapitalize (v : JSValue) : Except JSError String :=
  match v with
  | undefined => .error (.typeError "Cannot read properties of undefined (reading charAt)")
  | null => .error (.typeError "Cannot read properties of null (reading charAt)")
  | str s => .ok (capitalize s)
  | _ => .error (.typeError "charAt is not a function")

/-- The receiver of `v.forEach(..)` or `v.map(..)`: the items of an array. -/
def asArray (v : JSValue) (method : String) : Except JSError (List JSValue) :=
  match v with
  | undefined =>
    .error (.typeError ("Cannot read properties of undefined (reading " ++ method ++ ")"))
  | null =>
    .error (.typeError ("Cannot read properties of null (reading " ++ method ++ ")"))
  | arr items => .ok items
  | _ => .error (.typeError (method ++ " is not a function"))

end JSValue

/-- The expression `field.area_hectares ? field.area_hectares.toFixed(2) + " ha" : "Unknown"`. -/
def areaText (area : JSValue) : Except JSError String :=
  if area.truthy then (area.callToFixed 2).map (fun t => t ++ " ha") else .ok "Unknown"

/-! ## Control flow with exceptions -/

/-- The outcome of running a statement list: normal completion, or an
exception together with the state reached when it was thrown. -/
inductive Res (σ : Type) where
  | ok (s : σ)
  | throw (e : JSError) (s : σ)

namespace Res

/-- The state reached, whether or not an exception was thrown. -/
def state {σ : Type} : Res σ → σ
  | ok s => s
  | throw _ s => s

/-- The exception thrown, if any. -/
def thrown {σ : Type} : Res σ → Option JSError
  | ok _ => none
  | throw e _ => some e

/-- Normal completion. -/
def isOk {σ : Type} : Res σ → Bool
  | ok _ => true
  | throw _ _ => false

/-- Sequencing: the second statement list runs only after normal completion. -/
def bind {σ : Type} (r : Res σ) (k : σ → Res σ) : Res σ :=
  match r with
  | ok s => k s
  | throw e s => throw e s

end Res

/-- Evaluates an expression that may throw and passes its value on. -/
def evalThen {σ α : Type} (e : Except JSError α) (k : α → σ → Res σ) (s : σ) : Res σ :=
  match e with
  | .ok a => k a s
  | .error err => .throw err s

/-! ## The document -/

/-- What an element shows. -/
inductive Content where
  | html (markup : String)
  | text (t : String)
  | child (tag : String) (classes : List String) (t : String)
deriving DecidableEq, Repr

/-- The properties of an element that the scripts read or write. -/
structure Element where
  content : Content
  display : String
  classes : List String
  value : String
deriving DecidableEq, Repr

/-- The document: `getElementById`. -/
abbrev Dom := String → Option Element

namespace Dom

/-- Replaces the element with the given id. -/
def set (d : Dom) (id : String) (e : Element) : Dom :=
  fun i => if i = id then some e else d i

end Dom

/-- `classList.add`. -/
def classListAdd (cs : List String) (c : String) : List String :=
  if c ∈ cs then cs else cs ++ [c]

/-- `classList.remove`. -/
def classListRemove (cs : List String) (c : String) : List String :=
  cs.filter (fun x => x != c)

/-! ## The network -/

/-- A call of `fetch`. -/
structure Request where
  method : String
  url : String
  headers : List (String × String)
  body : Option String
deriving DecidableEq, Repr

/-- A response as the scripts see it: `ok`, `statusText`, and what
`response.json()` settles to (the parsed body, or the message of its rejection). -/
structure Response where
  status : Nat
  ok : Bool
  statusText : String
  json : Except String JSValue

/-- How a `fetch` promise settles. -/
inductive Outcome where
  | rejected (message : String)
  | resolved (r : Response)

/-- The common shape `const response = await fetch(..); if (!response.ok) throw
new Error(msg); const data = await response.json(); k(data)`. -/
def awaitJson {σ : Type} (notOk : Response → String) (o : Outcome)
    (k : JSValue → σ → Res σ) (s : σ) : Res σ :=
  match o with
  | .rejected m => .throw (.typeError m) s
  | .resolved r =>
    if !r.ok then .throw (.error (notOk r)) s
    else match r.json with
      | .error m => .throw (.error m) s
      | .ok data => k data s

/-! ## The Leaflet capability -/

/-- A map layer. A polygon remembers its vertices, its popup and the field
identifier that its click handler passes to `loadFieldDetails`; the last two
are absent when the code threw before attaching them. -/
inductive Layer where
  | tile (url : String)
  | polygon (latLngs : List (JSValue × JSValue)) (popup : Option String)
      (click : Option JSValue)

/-- The test `layer instanceof L.Polygon`. -/
def Layer.isPolygon : Layer → Bool
  | .tile _ => false
  | .polygon _ _ _ => true

/-- The map object. -/
structure LeafletMap where
  layers : List Layer
  fitted : Option (List (JSValue × JSValue))

/-- The mapping library as a capability: which vertex lists `L.polygon(..).addTo(map)`
and `map.fitBounds(..)` reject with an exception. -/
structure Leaflet where
  polygon : List (JSValue × JSValue) → Option JSError
  fitBounds : List (JSValue × JSValue) → Option JSError

/-! ## `js/dashboard.js` -/

namespace Dashboard

/-- The code that waits for a response. -/
inductive Continuation where
  | loadFields
  | loadFieldDetails (fieldId : JSValue)
  | loadFieldAnalysis

/-- The module variables `map`, `selectedField`, `token`, the document, the
browser storage, and the observable traces (requests, alerts, console,
exceptions that no handler caught). -/
structure State where
  map : Option LeafletMap
  selectedField : JSValue
  token : JSValue
  dom : Dom
  localStorage : String → Option String
  requests : List Request
  pending : List (Nat × Continuation)
  alerts : List String
  console : List String
  uncaught : List JSError

/-- The statement `document.getElementById(id).innerHTML = markup`. -/
def setInnerHTML (id markup : String) (s : State) : Res State :=
  match s.dom id with
  | none => .throw (.typeError "Cannot set properties of null (setting innerHTML)") s
  | some el => .ok { s with dom := s.dom.set id { el with content := .html markup } }

/-- The guarded statement `if (el) el.innerHTML = markup` on an element known to exist. -/
def putHtml (id : String) (el : Element) (markup : String) (s : State) : State :=
  { s with dom := s.dom.set id { el with content := .html markup } }

/-- The guarded statement `const el = document.getElementById(id); if (el) el.innerHTML = markup`. -/
def writeHtml (id markup : String) (s : State) : State :=
  match s.dom id with
  | none => s
  | some el => putHtml id el markup s

/-- The pattern `const el = document.getElementById(id); if (!el) return;`
followed by `el.innerHTML = markup`, where computing the markup may throw:
nothing is computed when the element is missing. -/
def renderInto (id : String) (markup : Except JSError String) (s : State) : Res State :=
  match s.dom id with
  | none => .ok s
  | some el => evalThen markup (fun m s => .ok (putHtml id el m s)) s

/-- The guarded statement `const el = document.getElementById(id); if (el) el.textContent = t`. -/
def setTextIfPresent (id : String) (t : String) (s : State) : State :=
  match s.dom id with
  | none => s
  | some el => { s with dom := s.dom.set id { el with content := .text t } }

/-- The guarded statement `if (el) el.style.display = v`. -/
def setDisplay (id : String) (el : Element) (v : String) (s : State) : State :=
  { s with dom := s.dom.set id { el with display := v } }

/-- The call `console.error(label, error)`. -/
def consoleError (label : String) (e : JSError) (s : State) : State :=
  { s with console := s.console ++ [label ++ " " ++ e.message] }

/-- The call `fetch(url, { headers: { Authorization: "Bearer " + token } })`
followed by `await`: the request goes out and the continuation waits for it. -/
def fetchWithToken (url : String) (c : Continuation) (s : State) : State :=
  { s with
    requests := s.requests ++
      [{ method := "GET", url := url,
         headers := [("Authorization", "Bearer " ++ s.token.toStr)], body := none }]
    pending := s.pending ++ [(s.requests.length, c)] }

/-- How an async function ends: an exception that left its `catch` block
rejects a promise that nobody awaits. -/
def settle (r : Res State) : State :=
  match r with
  | .ok s => s
  | .throw e s => { s with uncaught := s.uncaught ++ [e] }

/-! ### `displayFields` -/

/-- The card markup that `displayFields` appends for one field. -/
def fieldCard (field : JSValue) : Except JSError String := do
  let fieldId ← field.get "field_id"
  let name ← field.get "name"
  let area ← (field.get "area_hectares").bind areaText
  let crop ← field.get "crop_type"
  let soil ← field.get "soil_type"
  pure ("\n" ++ "            <div class=\"card mb-3 field-card\" data-field-id=\"" ++ fieldId.toStr ++
    "\">\n" ++ "                <div class=\"card-body\">\n" ++
    "                    <h5 class=\"card-title\">" ++ name.toStr ++ "</h5>\n" ++
    "                    <p class=\"card-text\">\n" ++
    "                        <strong>Area:</strong> " ++ area ++ "<br>\n" ++
    "                        <strong>Crop:</strong> " ++ (crop.orElse "Unknown").toStr ++ "<br>\n" ++
    "                        <strong>Soil:</strong> " ++ (soil.orElse "Unknown").toStr ++ "\n" ++
    "                    </p>\n" ++
    "                    <button class=\"btn btn-primary btn-sm view-field-btn\" data-field-id=\"" ++
    fieldId.toStr ++ "\">\n" ++ "                        View Details\n" ++
    "                    </button>\n" ++ "                </div>\n" ++ "            </div>\n" ++
    "        ")

/-- The string `html` after the `forEach` of `displayFields`. -/
def fieldCards : List JSValue → Except JSError String
  | [] => .ok ""
  | field :: rest => do
    let card ← fieldCard field
    let more ← fieldCards rest
    pure (card ++ more)

/-- The test `v === 0`. -/
def isNumberZero : JSValue → Bool
  | .num n => n.isZero
  | _ => false

/-- The function `displayFields(fields)`. -/
def displayFields (fields : JSValue) (s : State) : Res State :=
  match s.dom "fields-list" with
  | none => .ok s
  | some fieldsList =>
    evalThen (fields.get "length") (fun len s =>
      if isNumberZero len then
        .ok (putHtml "fields-list" fieldsList
          "<div class=\"alert alert-info\">No fields found</div>" s)
      else
        evalThen (fields.asArray "forEach") (fun items s =>
          evalThen (fieldCards items) (fun html s =>
            .ok (putHtml "fields-list" fieldsList html s)) s) s) s

/-! ### `addFieldsToMap` -/

/-- The condition `field.geometry && field.geometry.coordinates`. -/
def hasGeometry (field : JSValue) : Except JSError Bool := do
  let geometry ← field.get "geometry"
  if geometry.truthy then
    let coordinates ← geometry.get "coordinates"
    pure coordinates.truthy
  else pure false

/-- The expression `field.geometry.coordinates[0]`. -/
def firstRing (field : JSValue) : Except JSError JSValue := do
  let geometry ← field.get "geometry"
  let coordinates ← geometry.get "coordinates"
  coordinates.index 0

/-- The arrow function `coord => [coord[1], coord[0]]`. -/
def swapCoord (coord : JSValue) : Except JSError (JSValue × JSValue) := do
  let lat ← coord.index 1
  let lon ← coord.index 0
  pure (lat, lon)

/-- Applies `swapCoord` to each vertex in order, stopping at the first exception. -/
def swapCoords : List JSValue → Except JSError (List (JSValue × JSValue))
  | [] => .ok []
  | coord :: rest => do
    let p ← swapCoord coord
    let ps ← swapCoords rest
    pure (p :: ps)

/-- The expression `coordinates.map(coord => [coord[1], coord[0]])` of the first loop. -/
def ringLatLngs (field : JSValue) : Except JSError (List (JSValue × JSValue)) := do
  let coordinates ← firstRing field
  let items ← coordinates.asArray "map"
  swapCoords items

/-- The popup markup of a polygon. -/
def popupText (field : JSValue) : Except JSError String := do
  let name ← field.get "name"
  let area ← (field.get "area_hectares").bind areaText
  let crop ← field.get "crop_type"
  pure ("\n" ++ "                        <strong>" ++ name.toStr ++ "</strong><br>\n" ++
    "                        Area: " ++ area ++ "<br>\n" ++ "                        Crop: " ++
    (crop.orElse "Unknown").toStr ++ "\n" ++ "                    ")

/-- The call `layer.addTo(map)`. -/
def addLayer (l : Layer) (s : State) : State :=
  { s with map := s.map.map (fun m => { m with layers := m.layers ++ [l] }) }

/-- The `try` block of the first loop of `addFieldsToMap`.  The polygon is on
the map as soon as `addTo` returns; an exception while building the popup
leaves it there without popup and click handler. -/
def drawField (L : Leaflet) (field : JSValue) (s : State) : Res State :=
  evalThen (ringLatLngs field) (fun latLngs s =>
    match L.polygon latLngs with
    | some e => .throw e s
    | none =>
      match popupText field with
      | .error e => .throw e (addLayer (.polygon latLngs none none) s)
      | .ok popup => .ok (addLayer (.polygon latLngs (some popup) (some field)) s)) s

/-- The first `fields.forEach` of `addFieldsToMap`: the geometry test is
outside the `try`, the drawing inside it. -/
def drawFields (L : Leaflet) : List JSValue → State → Res State
  | [], s => .ok s
  | field :: rest, s =>
    match hasGeometry field with
    | .error e => .throw e s
    | .ok false => drawFields L rest s
    | .ok true =>
      match drawField L field s with
      | .ok s1 => drawFields L rest s1
      | .throw e s1 => drawFields L rest (consoleError "Error adding field to map:" e s1)

/-- What one field pushes onto `bounds` in the second loop (no `try` there). -/
def fieldBounds (field : JSValue) : Except JSError (List (JSValue × JSValue)) := do
  let has ← hasGeometry field
  if has then
    let coordinates ← firstRing field
    let items ← coordinates.asArray "forEach"
    swapCoords items
  else pure []

/-- The array `bounds` after the second loop. -/
def allBounds : List JSValue → Except JSError (List (JSValue × JSValue))
  | [] => .ok []
  | field :: rest => do
    let b ← fieldBounds field
    let bs ← allBounds rest
    pure (b ++ bs)

/-- The call `map.fitBounds(bounds)`. -/
def fitBounds (L : Leaflet) (bounds : List (JSValue × JSValue)) (s : State) : Res State :=
  match L.fitBounds bounds with
  | some e => .throw e s
  | none => .ok { s with map := s.map.map (fun m => { m with fitted := some bounds }) }

/-- The function `addFieldsToMap(fields)`. -/
def addFieldsToMap (L : Leaflet) (fields : JSValue) (s : State) : Res State :=
  match s.map with
  | none => .ok s
  | some m =>
    evalThen (fields.asArray "forEach") (fun items s =>
      (drawFields L items s).bind (fun s =>
        if items.length > 0 then
          evalThen (allBounds items) (fun bounds s =>
            if bounds.length > 0 then fitBounds L bounds s else .ok s) s
        else .ok s))
      { s with map := some { m with layers := m.layers.filter (fun l => !l.isPolygon) } }

/-! ### Field details -/

/-- The value written by `el.textContent = v`: `null` and `undefined` clear the text. -/
def textOf : JSValue → String
  | .undefined => ""
  | .null => ""
  | v => v.toStr

/-- The block `const el = document.getElementById(id); if (el) { el.textContent = value; }`
where computing the value may throw: nothing is computed when the element is missing. -/
def setTextGuarded (id : String) (value : Except JSError String) (s : State) : Res State :=
  match s.dom id with
  | none => .ok s
  | some _ => evalThen value (fun t s => .ok (setTextIfPresent id t s)) s

/-- The function `displayFieldDetails(field)`; each element is written only if
it exists, and a property read on a `null` field throws at the first element
that exists. -/
def displayFieldDetails (field : JSValue) (s : State) : Res State :=
  match s.dom "field-details-container" with
  | none => .ok s
  | some _ =>
    ((((setTextGuarded "field-name" ((field.get "name").map textOf) s).bind
      (setTextGuarded "field-area" ((field.get "area_hectares").bind areaText))).bind
      (setTextGuarded "field-crop"
        ((field.get "crop_type").map (fun v => (v.orElse "Unknown").toStr)))).bind
      (setTextGuarded "field-soil"
        ((field.get "soil_type").map (fun v => (v.orElse "Unknown").toStr)))).bind
      (setTextGuarded "field-stage"
        ((field.get "growth_stage").map (fun v => (v.orElse "Unknown").toStr)))

/-- The function `showFieldDetails()`. -/
def showFieldDetails (s : State) : State :=
  match s.dom "fields-list-view", s.dom "field-details-view" with
  | some listView, some detailsView =>
    setDisplay "field-details-view" detailsView "block"
      (setDisplay "fields-list-view" listView "none" s)
  | _, _ => s

/-- The function `backToList()`. -/
def backToList (s : State) : State :=
  let s1 :=
    match s.dom "fields-list-view", s.dom "field-details-view" with
    | some listView, some detailsView =>
      setDisplay "field-details-view" detailsView "none"
        (setDisplay "fields-list-view" listView "block" s)
    | _, _ => s
  { s1 with selectedField := .null }

/-! ### Rendering an analysis -/

/-- The `switch (status)` of `updateAnalysisUI`. -/
def badgeClass : JSValue → String
  | .str s =>
    if s = "excellent" then "bg-success"
    else if s = "good" then "bg-primary"
    else if s = "average" then "bg-info"
    else if s = "poor" then "bg-warning"
    else if s = "critical" then "bg-danger"
    else "bg-secondary"
  | _ => "bg-secondary"

/-- The badge markup of the first block of `updateAnalysisUI`. -/
def healthBadgeHtml (analysis : JSValue) : Except JSError String := do
  let hs ← analysis.get "health_status"
  let upper ← (hs.orElse "unknown").callToUpperCase
  pure ("<span class=\"badge " ++ badgeClass (hs.orElse "unknown") ++ "\">" ++ upper ++ "</span>")

/-- The first block of `updateAnalysisUI`: the health badge, inside `if (healthStatus)`. -/
def updateHealthBadge (analysis : JSValue) (s : State) : Res State :=
  renderInto "health-status" (healthBadgeHtml analysis) s

/-- One card of `updateIndices`, or nothing when the index is `undefined`. -/
def indexCard (title : String) (v : JSValue) : Except JSError String :=
  if v.isDefined then
    (v.callToFixed 2).map (fun value =>
      "\n" ++ "                <div class=\"col-md-4\">\n" ++
      "                    <div class=\"card\">\n" ++
      "                        <div class=\"card-body\">\n" ++
      "                            <h5 class=\"card-title\">" ++ title ++ "</h5>\n" ++
      "                            <p class=\"card-text display-6 text-center\">" ++ value ++
      "</p>\n" ++ "                        </div>\n" ++ "                    </div>\n" ++
      "                </div>\n" ++ "            ")
  else .ok ""

/-- The string `html` that `updateIndices` builds. -/
def indicesHtml (analysis : JSValue) : Except JSError String := do
  let indices ← analysis.get "indices"
  if indices.truthy then
    let ndvi ← (indices.get "ndvi").bind (indexCard "NDVI")
    let evi ← (indices.get "evi").bind (indexCard "EVI")
    let moisture ← (indices.get "moisture").bind (indexCard "Moisture")
    pure ("<div class=\"row\">" ++ ndvi ++ evi ++ moisture ++ "</div>")
  else pure ("<div class=\"row\">" ++ "</div>")

/-- The function `updateIndices(analysis)`. -/
def updateIndices (analysis : JSValue) (s : State) : Res State :=
  renderInto "vegetation-indices" (indicesHtml analysis) s

/-- The markup of the no-stress state of `updateStressInfo`. -/
def noStressHtml : String :=
  "\n" ++ "            <div class=\"alert alert-success\">\n" ++
  "                <h5><i class=\"fas fa-check-circle\"></i> No Stress Detected</h5>\n" ++
  "                <p>Your field appears healthy with no significant stress indicators.</p>\n" ++
  "            </div>\n" ++ "        "

/-- The markup of the stress-detected state of `updateStressInfo`. -/
def stressHtml (stressType percentage : String) : String :=
  "\n" ++ "            <div class=\"alert alert-warning\">\n" ++
  "                <h5><i class=\"fas fa-exclamation-triangle\"></i> Stress Detected</h5>\n" ++
  "                <p>\n" ++ "                    <strong>Type:</strong> " ++ stressType ++
  "<br>\n" ++ "                    <strong>Affected Area:</strong> " ++ percentage ++ "%\n" ++
  "                </p>\n" ++ "            </div>\n" ++ "        "

/-- The markup that `updateStressInfo` writes. -/
def stressInfoHtml (analysis : JSValue) : Except JSError String := do
  let stress ← analysis.get "stress"
  if stress.truthy then
    let detected ← stress.get "stress_detected"
    if detected.truthy then
      let stressType ← stress.get "stress_type"
      let percentage ← (stress.get "stress_percentage").bind (fun p => p.callToFixed 1)
      pure (stressHtml (stressType.orElse "Unknown").toStr percentage)
    else pure noStressHtml
  else pure noStressHtml

/-- The function `updateStressInfo(analysis)`. -/
def updateStressInfo (analysis : JSValue) (s : State) : Res State :=
  renderInto "stress-info" (stressInfoHtml analysis) s

/-- The placeholder markup of `updateSatelliteImage`. -/
def satelliteHtml (provider resolution date : String) : String :=
  "\n" ++ "        <div class=\"card\">\n" ++ "            <div class=\"card-body\">\n" ++
  "                <h5 class=\"card-title\">Satellite Image</h5>\n" ++
  "                <div class=\"placeholder-image\" style=\"height: 200px; background-color: #e9ecef; display: flex; align-items: center; justify-content: center;\">\n" ++
  "                    <div class=\"text-center\">\n" ++
  "                        <div><i class=\"fas fa-satellite fa-3x mb-3\"></i></div>\n" ++
  "                        <div>Satellite Image Visualization</div>\n" ++
  "                    </div>\n" ++ "                </div>\n" ++
  "                <div class=\"mt-3\">\n" ++
  "                    <small class=\"text-muted\">\n" ++
  "                        <strong>Provider:</strong> " ++ provider ++ "<br>\n" ++
  "                        <strong>Resolution:</strong> " ++ resolution ++ "<br>\n" ++
  "                        <strong>Date:</strong> " ++ date ++ "\n" ++
  "                    </small>\n" ++ "                </div>\n" ++ "            </div>\n" ++
  "        </div>\n" ++ "    "

/-- The three labels `provider`, `resolution`, `date` of `updateSatelliteImage`. -/
def imageLabels (analysis : JSValue) : Except JSError (String × String × String) := do
  let metadata ← analysis.get "metadata"
  if metadata.truthy then
    let image ← metadata.get "image"
    if image.truthy then
      let provider ← image.get "provider"
      let resolution ← image.get "resolution"
      let date ← image.get "acquisition_date"
      pure ((provider.orElse "Unknown").toStr,
        (if resolution.truthy then resolution.toStr ++ "m" else "Unknown"),
        (date.orElse "Unknown").toStr)
    else pure ("Unknown", "Unknown", "Unknown")
  else pure ("Unknown", "Unknown", "Unknown")

/-- The function `updateSatelliteImage(analysis)`. -/
def updateSatelliteImage (analysis : JSValue) (s : State) : Res State :=
  renderInto "satellite-image"
    ((imageLabels analysis).map (fun labels =>
      satelliteHtml labels.1 labels.2.1 labels.2.2)) s

/-- The function `updateAnalysisUI(analysis)`. -/
def updateAnalysisUI (analysis : JSValue) (s : State) : Res State :=
  (((updateHealthBadge analysis s).bind (updateIndices analysis)).bind
    (updateStressInfo analysis)).bind (updateSatelliteImage analysis)

/-! ### The asynchronous functions -/

/-- The request URL that `loadFieldAnalysis(fieldId, provider)` builds. -/
def analyzeUrl (fieldId provider : JSValue) : String :=
  "/api/fields/" ++ fieldId.toStr ++ "/analyze" ++
    (if provider.truthy then "?provider=" ++ provider.toStr else "")

/-- The function `loadFieldAnalysis(fieldId, provider)` up to its `await fetch(..)`;
an omitted `provider` is `null`. -/
def loadFieldAnalysis (fieldId provider : JSValue) (s : State) : State :=
  fetchWithToken (analyzeUrl fieldId provider) .loadFieldAnalysis s

/-- The `catch` block of `loadFieldAnalysis`. -/
def catchLoadFieldAnalysis (e : JSError) (s : State) : Res State :=
  setInnerHTML "analysis-container"
    ("<div class=\"alert alert-danger\">Analysis failed: " ++ e.message ++ "</div>")
    (consoleError "Error analyzing field:" e s)

/-- The function `loadFieldAnalysis` from the arrival of its response on. -/
def resumeLoadFieldAnalysis (o : Outcome) (s : State) : State :=
  settle (match awaitJson (fun _ => "Failed to analyze field") o updateAnalysisUI s with
    | .ok s1 => .ok s1
    | .throw e s1 => catchLoadFieldAnalysis e s1)

/-- The function `filterSatelliteProvider(provider)`. -/
def filterSatelliteProvider (provider : JSValue) (s : State) : Res State :=
  if s.selectedField.truthy then
    evalThen (s.selectedField.get "field_id") (fun fieldId s =>
      .ok (loadFieldAnalysis fieldId provider s)) s
  else .ok s

/-- The function `loadFieldDetails(fieldId)` up to its `await fetch(..)`. -/
def loadFieldDetails (fieldId : JSValue) (s : State) : State :=
  fetchWithToken ("/api/fields/" ++ fieldId.toStr) (.loadFieldDetails fieldId) s

/-- The `catch` block of `loadFieldDetails`. -/
def catchLoadFieldDetails (e : JSError) (s : State) : State :=
  let s1 := consoleError "Error loading field details:" e s
  { s1 with alerts := s1.alerts ++ ["Failed to load field details: " ++ e.message] }

/-- The function `loadFieldDetails` from the arrival of its response on. -/
def resumeLoadFieldDetails (fieldId : JSValue) (o : Outcome) (s : State) : State :=
  match awaitJson (fun _ => "Failed to load field details") o
      (fun field s =>
        (displayFieldDetails field { s with selectedField := field }).bind (fun s =>
          .ok (showFieldDetails (loadFieldAnalysis fieldId .null s)))) s with
  | .ok s1 => s1
  | .throw e s1 => catchLoadFieldDetails e s1

/-- The function `loadFields()` up to its `await fetch(..)`. -/
def loadFields (s : State) : State :=
  fetchWithToken "/api/fields" .loadFields s

/-- The `catch` block of `loadFields`. -/
def catchLoadFields (e : JSError) (s : State) : Res State :=
  setInnerHTML "fields-list"
    ("<div class=\"alert alert-danger\">Failed to load fields: " ++ e.message ++ "</div>")
    (consoleError "Error loading fields:" e s)

/-- The function `loadFields` from the arrival of its response on. -/
def resumeLoadFields (L : Leaflet) (o : Outcome) (s : State) : State :=
  settle (match awaitJson (fun _ => "Failed to load fields") o
      (fun fields s => (displayFields fields s).bind (addFieldsToMap L fields)) s with
    | .ok s1 => .ok s1
    | .throw e s1 => catchLoadFields e s1)

/-! ### The event loop -/

/-- What can happen to the page: a call made by an event handler, or the arrival
of the response to the request with the given number. -/
inductive Event where
  | loadFields
  | loadFieldDetails (fieldId : JSValue)
  | filterSatelliteProvider (provider : JSValue)
  | backToList
  | respond (k : Nat) (o : Outcome)

/-- Runs the continuation that waits for the response. -/
def resume (L : Leaflet) (c : Continuation) (o : Outcome) (s : State) : State :=
  match c with
  | .loadFields => resumeLoadFields L o s
  | .loadFieldDetails fieldId => resumeLoadFieldDetails fieldId o s
  | .loadFieldAnalysis => resumeLoadFieldAnalysis o s

/-- One turn of the event loop.  A response for a request that is not waiting
(any more) has no effect. -/
def step (L : Leaflet) (s : State) : Event → State
  | .loadFields => loadFields s
  | .loadFieldDetails fieldId => loadFieldDetails fieldId s
  | .filterSatelliteProvider provider => settle (filterSatelliteProvider provider s)
  | .backToList => backToList s
  | .respond k o =>
    match s.pending.find? (fun p => p.1 == k) with
    | none => s
    | some p =>
      resume L p.2 o { s with pending := s.pending.filter (fun p => p.1 != k) }

/-- Runs a sequence of events. -/
def run (L : Leaflet) (s : State) (events : List Event) : State :=
  events.foldl (step L) s

end Dashboard

/-! ## `js/field-monitor.js` -/

/-- A hexadecimal digit. -/
def hexDigit (n : Nat) : Char := "0123456789ABCDEF".data.getD n '0'

/-- The UTF-8 bytes of a character. -/
def utf8Bytes (c : Char) : List Nat :=
  let n := c.toNat
  if n < 128 then [n]
  else if n < 2048 then [192 + n / 64, 128 + n % 64]
  else if n < 65536 then [224 + n / 4096, 128 + n / 64 % 64, 128 + n % 64]
  else [240 + n / 262144, 128 + n / 4096 % 64, 128 + n / 64 % 64, 128 + n % 64]

/-- The form encoding of one character as `URLSearchParams` serialises it. -/
def formEncodeChar (c : Char) : List Char :=
  if c.isAlphanum || c == '*' || c == '-' || c == '.' || c == '_' then [c]
  else if c == ' ' then ['+']
  else (utf8Bytes c).flatMap (fun b => ['%', hexDigit (b / 16), hexDigit (b % 16)])

/-- The form encoding of a string. -/
def formEncode (s : String) : String := String.mk (s.data.flatMap formEncodeChar)

namespace FieldMonitor

/-- One dataset of the trend chart. -/
structure Dataset where
  label : String
  data : JSValue
  borderColor : String
  backgroundColor : String
  yAxisID : String
  tension : Option JSNumber
  chartType : Option String

/-- The options of one axis of the trend chart.  An option that the code does
not set is `none`: without `min` the lower end of the axis is not fixed, without
`max` the upper end is not fixed. -/
structure Axis where
  position : Option String
  beginAtZero : Bool
  title : String
  min : Option Nat
  max : Option Nat
  drawOnChartArea : Bool

/-- The configuration object passed to `new Chart(ctx, ..)`. -/
structure ChartConfig where
  chartType : String
  labels : JSValue
  datasets : List Dataset
  scales : List (String × Axis)

/-- The code that waits for a response.  For `loadFieldAnalysis`, `awaitedBy`
is the `fieldId` of the `loadField` call that awaits it, if any. -/
inductive Continuation where
  | loadField (fieldId : JSValue)
  | loadFieldAnalysis (awaitedBy : Option JSValue)
  | loadFieldTrend

/-- The module variables `currentField` and `activeIndex` (`ndviLayer` and
`fieldBoundary` are never read or written), the document, the charts
constructed so far, and the observable traces. -/
structure State where
  currentField : JSValue
  activeIndex : String
  dom : Dom
  charts : List ChartConfig
  requests : List Request
  pending : List (Nat × Continuation)
  console : List String
  uncaught : List JSError

/-- The statement `document.getElementById(id).innerHTML = markup`. -/
def setInnerHTML (id markup : String) (s : State) : Res State :=
  match s.dom id with
  | none => .throw (.typeError "Cannot set properties of null (setting innerHTML)") s
  | some el => .ok { s with dom := s.dom.set id { el with content := .html markup } }

/-- The statement `document.getElementById(id).textContent = t`. -/
def setTextContent (id t : String) (s : State) : Res State :=
  match s.dom id with
  | none => .throw (.typeError "Cannot set properties of null (setting textContent)") s
  | some el => .ok { s with dom := s.dom.set id { el with content := .text t } }

/-- The statement `document.getElementById(id).classList.add(c)`. -/
def classAdd (id c : String) (s : State) : Res State :=
  match s.dom id with
  | none => .throw (.typeError "Cannot read properties of null (reading classList)") s
  | some el => .ok { s with dom := s.dom.set id { el with classes := classListAdd el.classes c } }

/-- The statement `document.getElementById(id).classList.remove(c)`. -/
def classRemove (id c : String) (s : State) : Res State :=
  match s.dom id with
  | none => .throw (.typeError "Cannot read properties of null (reading classList)") s
  | some el =>
    .ok { s with dom := s.dom.set id { el with classes := classListRemove el.classes c } }

/-- The expression `document.getElementById(id).value`. -/
def inputValue (id : String) (s : State) : Except JSError String :=
  match s.dom id with
  | none => .error (.typeError "Cannot read properties of null (reading value)")
  | some el => .ok el.value

/-- The call `console.error(label, error)`. -/
def consoleError (label : String) (e : JSError) (s : State) : State :=
  { s with console := s.console ++ [label ++ " " ++ e.message] }

/-- The call `fetch(url)` followed by `await`. -/
def fetchPlain (url : String) (c : Continuation) (s : State) : State :=
  { s with
    requests := s.requests ++ [{ method := "GET", url := url, headers := [], body := none }]
    pending := s.pending ++ [(s.requests.length, c)] }

/-- How an async function that nobody awaits ends. -/
def settle (r : Res State) : State :=
  match r with
  | .ok s => s
  | .throw e s => { s with uncaught := s.uncaught ++ [e] }

/-- How the synchronous part of an awaited async call ends: its request is
out and its promise pending, or its promise is already settled. -/
inductive Start where
  | waiting (s : State)
  | settled (r : Res State)

/-! ### The index selector -/

/-- The function `updateFieldVisualization(fieldId, index)`: an async function
without `await`, so an exception only rejects its promise. -/
def updateFieldVisualization (_fieldId : JSValue) (index : String) (s : State) : State :=
  settle (setInnerHTML "field-map"
    ("\n" ++ "        <div class=\"alert alert-info\">\n" ++
      "            <strong>Visualization:</strong> " ++ toUpperCase index ++
      " index visualization would be displayed here\n" ++ "        </div>\n" ++ "    ") s)

/-- The click handler that `setupIndexSelector` attaches to an option whose
`data-index` attribute is `index`. -/
def indexOptionClick (index : String) (s : State) : Res State :=
  (setTextContent "indexDropdown" (toUpperCase index) s).bind (fun s =>
    if s.currentField.truthy then
      evalThen (s.currentField.get "field_id") (fun fieldId s =>
        .ok (updateFieldVisualization fieldId index s)) { s with activeIndex := index }
    else .ok { s with activeIndex := index })

/-! ### Field details -/

/-- The statement `document.getElementById(id).textContent = value` where
computing the value may throw. -/
def putText (id : String) (value : Except JSError String) (s : State) : Res State :=
  evalThen value (fun t s => setTextContent id t s) s

/-- The function `displayFieldDetails(field)` of this script: no element is guarded. -/
def displayFieldDetails (field : JSValue) (s : State) : Res State :=
  ((((putText "field-name"
      ((field.get "name").map (fun v => (v.orElse "Unnamed Field").toStr)) s).bind
    (putText "field-area" ((field.get "area_hectares").bind areaText))).bind
    (putText "field-crop" ((field.get "crop_type").map (fun v => (v.orElse "Unknown").toStr)))).bind
    (putText "field-soil" ((field.get "soil_type").map (fun v => (v.orElse "Unknown").toStr)))).bind
    (putText "field-stage" ((field.get "growth_stage").map (fun v => (v.orElse "Unknown").toStr)))

/-! ### Rendering an analysis -/

/-- The `switch (healthStatus)` of `updateHealthStatus`. -/
def healthBadgeClass : JSValue → String
  | .str s =>
    if s = "excellent" then "bg-success"
    else if s = "good" then "bg-primary"
    else if s = "average" then "bg-warning"
    else if s = "poor" then "bg-danger"
    else if s = "critical" then "bg-danger"
    else "bg-secondary"
  | _ => "bg-secondary"

/-- The function `updateHealthStatus(analysis)`: the element is emptied, then
the badge is built and appended. -/
def updateHealthStatus (analysis : JSValue) (s : State) : Res State :=
  evalThen (analysis.get "health_status") (fun hs s =>
    (setInnerHTML "health-status" "" s).bind (fun s =>
      evalThen (hs.orElse "unknown").callCapitalize (fun label s =>
        match s.dom "health-status" with
        | none => .throw (.typeError "Cannot read properties of null (reading appendChild)") s
        | some el =>
          .ok { s with dom := s.dom.set "health-status" { el with content :=
            (Content.child "span"
              ("badge" :: "fs-6" :: healthBadgeClass (hs.orElse "unknown") :: []) label) } })
        s)) s

/-- The statement `document.getElementById(id).textContent = group.k.toFixed(2)`. -/
def setStat (id : String) (group : JSValue) (k : String) (s : State) : Res State :=
  putText id ((group.get k).bind (fun v => v.callToFixed 2)) s

/-- The block `// Update NDVI` of `updateIndicesPanel`. -/
def ndviBlock (analysis : JSValue) (s : State) : Res State :=
  evalThen (analysis.get "ndvi") (fun ndvi s =>
    if ndvi.truthy then
      ((setStat "ndvi-mean" ndvi "mean" s).bind (setStat "ndvi-min" ndvi "min")).bind
        (setStat "ndvi-max" ndvi "max")
    else .ok s) s

/-- The block `// Update EVI if available` of `updateIndicesPanel`. -/
def eviBlock (analysis : JSValue) (s : State) : Res State :=
  evalThen (analysis.get "evi") (fun evi s =>
    if evi.truthy then
      (((classRemove "evi-container" "d-none" s).bind (setStat "evi-mean" evi "mean")).bind
        (setStat "evi-min" evi "min")).bind (setStat "evi-max" evi "max")
    else classAdd "evi-container" "d-none" s) s

/-- The block `// Update moisture if available` of `updateIndicesPanel`. -/
def moistureBlock (analysis : JSValue) (s : State) : Res State :=
  evalThen (analysis.get "moisture") (fun moisture s =>
    if moisture.truthy then
      ((((classRemove "moisture-container" "d-none" s).bind
        (setStat "moisture-mean" moisture "mean")).bind
        (setStat "moisture-min" moisture "min")).bind
        (setStat "moisture-max" moisture "max")).bind (fun s =>
        evalThen (analysis.get "moisture_status") (fun status s =>
          setTextContent "moisture-status" (status.orElse "Unknown").toStr s) s)
    else classAdd "moisture-container" "d-none" s) s

/-- The function `updateIndicesPanel(analysis)`: its three blocks in order. -/
def updateIndicesPanel (analysis : JSValue) (s : State) : Res State :=
  ((ndviBlock analysis s).bind (eviBlock analysis)).bind (moistureBlock analysis)

/-- The markup of the no-stress state of `updateStressPanel`. -/
def noStressHtml : String :=
  "\n" ++ "            <div class=\"alert alert-success mb-0\">\n" ++
  "                No significant stress detected\n" ++ "            </div>\n" ++ "        "

/-- The markup of the stress-detected state of `updateStressPanel`. -/
def stressHtml (stressType percentage : String) : String :=
  "\n" ++ "            <div class=\"alert alert-warning mb-0\">\n" ++
  "                <strong>Stress Detected:</strong> " ++ stressType ++ " stress<br>\n" ++
  "                <strong>Affected Area:</strong> " ++ percentage ++ "% of field\n" ++
  "            </div>\n" ++ "        "

/-- The expression `analysis.stress.stress_percentage || 0`. -/
def orZero (v : JSValue) : JSValue :=
  if v.truthy then v else .num ⟨false, 0, 0⟩

/-- The markup that `updateStressPanel` writes. -/
def stressPanelHtml (analysis : JSValue) : Except JSError String := do
  let stress ← analysis.get "stress"
  if stress.truthy then
    let detected ← stress.get "stress_detected"
    if detected.truthy then
      let stressPercentage ← (stress.get "stress_percentage").map orZero
      let stressType ← (stress.get "stress_type").map (fun t => t.orElse "unknown")
      let label ← stressType.callCapitalize
      let percentage ← stressPercentage.callToFixed 1
      pure (stressHtml label percentage)
    else pure noStressHtml
  else pure noStressHtml

/-- The function `updateStressPanel(analysis)`. -/
def updateStressPanel (analysis : JSValue) (s : State) : Res State :=
  evalThen (stressPanelHtml analysis) (fun html s => setInnerHTML "stress-info" html s) s

/-- The comparison `v > 0` for numbers and booleans; the numeric conversion of
strings and objects is not modelled and compares as not greater. -/
def greaterThanZero : JSValue → Bool
  | .num n => !n.neg && !n.isZero
  | .bool b => b
  | _ => false

/-- The list items that the `forEach` of `updateRecommendations` appends. -/
def listItems : List JSValue → String
  | [] => ""
  | rec :: rest => "<li class=\"list-group-item\">" ++ rec.toStr ++ "</li>" ++ listItems rest

/-- The markup that `updateRecommendations` writes. -/
def recommendationsHtml (analysis : JSValue) : Except JSError String := do
  let recommendations ← analysis.get "recommendations"
  if recommendations.truthy then
    let length ← recommendations.get "length"
    if greaterThanZero length then
      let items ← recommendations.asArray "forEach"
      pure ("<ul class=\"list-group list-group-flush\">" ++ listItems items ++ "</ul>")
    else pure "<p class=\"text-muted\">No recommendations available</p>"
  else pure "<p class=\"text-muted\">No recommendations available</p>"

/-- The function `updateRecommendations(analysis)`. -/
def updateRecommendations (analysis : JSValue) (s : State) : Res State :=
  evalThen (recommendationsHtml analysis) (fun html s => setInnerHTML "recommendations" html s) s

/-- The four update calls of `loadFieldAnalysis` after the response has been parsed. -/
def renderAnalysis (analysis : JSValue) (s : State) : Res State :=
  (((updateHealthStatus analysis s).bind (updateIndicesPanel analysis)).bind
    (updateStressPanel analysis)).bind (updateRecommendations analysis)

/-! ### The asynchronous functions -/

/-- The string `params.toString()` for the two date inputs: an empty value is left out. -/
def queryString (startDate endDate : String) : String :=
  String.intercalate "&"
    ((if startDate != "" then ["start_date=" ++ formEncode startDate] else []) ++
      (if endDate != "" then ["end_date=" ++ formEncode endDate] else []))

/-- The loading indicator that `loadFieldAnalysis` shows before its request. -/
def loadingHtml : String :=
  "<div class=\"spinner-border spinner-border-sm text-primary\" role=\"status\"></div> Loading..."

/-- The `catch` block of `loadFieldAnalysis`. -/
def catchLoadFieldAnalysis (e : JSError) (s : State) : Res State :=
  setInnerHTML "health-status" "<span class=\"text-danger\">Analysis failed</span>"
    (consoleError "Error analyzing field:" e s)

/-- The function `loadFieldAnalysis(fieldId)` up to its `await fetch(..)`. -/
def loadFieldAnalysis (fieldId : JSValue) (awaitedBy : Option JSValue) (s : State) : Start :=
  match inputValue "start-date" s with
  | .error e => .settled (catchLoadFieldAnalysis e s)
  | .ok startDate =>
    match inputValue "end-date" s with
    | .error e => .settled (catchLoadFieldAnalysis e s)
    | .ok endDate =>
      match setInnerHTML "health-status" loadingHtml s with
      | .throw e s1 => .settled (catchLoadFieldAnalysis e s1)
      | .ok s1 =>
        .waiting (fetchPlain
          ("/api/fields/" ++ fieldId.toStr ++ "/analyze?" ++ queryString startDate endDate)
          (.loadFieldAnalysis awaitedBy) s1)

/-- The chart configuration that `displayTrendChart` builds from the trend data. -/
def chartConfig (data : JSValue) : Except JSError ChartConfig := do
  let dates ← data.get "dates"
  let ndvi ← data.get "ndvi"
  let precipitation ← data.get "precipitation"
  pure {
    chartType := "line"
    labels := dates
    datasets := [
      { label := "NDVI", data := ndvi, borderColor := "rgb(75, 192, 192)",
        backgroundColor := "rgba(75, 192, 192, 0.2)", yAxisID := "y",
        tension := some ⟨false, 4, 1⟩, chartType := none },
      { label := "Precipitation (mm)", data := precipitation,
        borderColor := "rgb(54, 162, 235)", backgroundColor := "rgba(54, 162, 235, 0.2)",
        yAxisID := "y1", tension := none, chartType := some "bar" }]
    scales := [
      ("y", { position := none, beginAtZero := true, title := "NDVI", min := none,
              max := some 1, drawOnChartArea := true }),
      ("y1", { position := some "right", beginAtZero := true, title := "Precipitation (mm)",
               min := none, max := none, drawOnChartArea := false })] }

/-- The function `displayTrendChart(data)`.  The canvas that it looks up is
the one created by the assignment just before. -/
def displayTrendChart (data : JSValue) (s : State) : Res State :=
  (setInnerHTML "trend-chart" "<canvas id=\"trend-canvas\"></canvas>" s).bind (fun s =>
    evalThen (chartConfig data) (fun config s =>
      .ok { s with charts := s.charts ++ [config] }) s)

/-- The `catch` block of `loadFieldTrend`. -/
def catchLoadFieldTrend (e : JSError) (s : State) : Res State :=
  setInnerHTML "trend-chart" "<div class=\"alert alert-danger\">Failed to load trend data</div>"
    (consoleError "Error loading field trend:" e s)

/-- The function `loadFieldTrend(fieldId)` up to its `await fetch(..)`; nobody awaits it. -/
def loadFieldTrend (fieldId : JSValue) (s : State) : State :=
  match inputValue "start-date" s with
  | .error e => settle (catchLoadFieldTrend e s)
  | .ok startDate =>
    match inputValue "end-date" s with
    | .error e => settle (catchLoadFieldTrend e s)
    | .ok endDate =>
      fetchPlain ("/api/fields/" ++ fieldId.toStr ++ "/trend?" ++ queryString startDate endDate)
        .loadFieldTrend s

/-- The function `loadFieldTrend` from the arrival of its response on. -/
def resumeLoadFieldTrend (o : Outcome) (s : State) : State :=
  settle (match awaitJson (fun r => "Failed to fetch trend data: " ++ r.statusText) o
      displayTrendChart s with
    | .ok s1 => .ok s1
    | .throw e s1 => catchLoadFieldTrend e s1)

/-- The `catch` block of `loadField`, with `showError` inlined. -/
def catchLoadField (e : JSError) (s : State) : State :=
  let s1 := consoleError "Error loading field:" e s
  { s1 with console := s1.console ++ ["Failed to load field details"] }

/-- The function `loadField` from the point where the awaited `loadFieldAnalysis`
call has settled: `addFieldToMap` (empty), `updateFieldVisualization`,
`loadFieldTrend`. -/
def loadFieldRest (fieldId : JSValue) (r : Res State) : State :=
  match r with
  | .ok s => loadFieldTrend fieldId (updateFieldVisualization fieldId s.activeIndex s)
  | .throw e s => catchLoadField e s

/-- The function `loadField(fieldId)` up to its `await fetch(..)`. -/
def loadField (fieldId : JSValue) (s : State) : State :=
  fetchPlain ("/api/fields/" ++ fieldId.toStr) (.loadField fieldId) s

/-- The function `loadField` from the arrival of its response up to the next `await`. -/
def resumeLoadField (fieldId : JSValue) (o : Outcome) (s : State) : State :=
  match awaitJson (fun r => "Failed to fetch field: " ++ r.statusText) o
      (fun field s => displayFieldDetails field { s with currentField := field }) s with
  | .throw e s1 => catchLoadField e s1
  | .ok s1 =>
    match loadFieldAnalysis fieldId (some fieldId) s1 with
    | .waiting s2 => s2
    | .settled r => loadFieldRest fieldId r

/-- The function `loadFieldAnalysis` from the arrival of its response on,
followed by the rest of the `loadField` call that awaits it, if any. -/
def resumeLoadFieldAnalysis (awaitedBy : Option JSValue) (o : Outcome) (s : State) : State :=
  let r : Res State :=
    match awaitJson (fun r => "Failed to analyze field: " ++ r.statusText) o renderAnalysis s with
    | .ok s1 => .ok s1
    | .throw e s1 => catchLoadFieldAnalysis e s1
  match awaitedBy with
  | none => settle r
  | some fieldId => loadFieldRest fieldId r

/-! ### The event loop -/

/-- What can happen to the page. -/
inductive Event where
  | indexOptionClick (index : String)
  | loadField (fieldId : JSValue)
  | respond (k : Nat) (o : Outcome)

/-- Runs the continuation that waits for the response. -/
def resume (c : Continuation) (o : Outcome) (s : State) : State :=
  match c with
  | .loadField fieldId => resumeLoadField fieldId o s
  | .loadFieldAnalysis awaitedBy => resumeLoadFieldAnalysis awaitedBy o s
  | .loadFieldTrend => resumeLoadFieldTrend o s

/-- One turn of the event loop. -/
def step (s : State) : Event → State
  | .indexOptionClick index => settle (indexOptionClick index s)
  | .loadField fieldId => loadField fieldId s
  | .respond k o =>
    match s.pending.find? (fun p => p.1 == k) with
    | none => s
    | some p => resume p.2 o { s with pending := s.pending.filter (fun p => p.1 != k) }

/-- Runs a sequence of events. -/
def run (s : State) (events : List Event) : State :=
  events.foldl step s

end FieldMonitor

/-! ## Sample pages and data -/

/-- An element with no content. -/
def blankElement : Element := { content := .html "", display := "", classes := [], value := "" }

/-- A document that has exactly the listed ids, each blank. -/
def pageOf (ids : List String) : Dom := fun id => if id ∈ ids then some blankElement else none

/-- A mapping library that accepts every vertex list. -/
def Leaflet.lenient : Leaflet := { polygon := fun _ => none, fitBounds := fun _ => none }

/-- A successful response with the given JSON body. -/
def okResponse (body : JSValue) : Outcome :=
  .resolved { status := 200, ok := true, statusText := "OK", json := .ok body }

/-- A response with a non-success status. -/
def failResponse (status : Nat) (statusText : String) : Outcome :=
  .resolved { status := status, ok := false, statusText := statusText, json := .ok .null }

/-- The non-negative decimal `m / 10^scale` as a value. -/
def decimal (m scale : Nat) : JSValue := .num ⟨false, m, scale⟩

namespace Dashboard

/-- The ids that `dashboard.js` looks up on its page. -/
def samplePage : Dom :=
  pageOf ["map", "fields-list", "field-details-container", "field-name", "field-area",
    "field-crop", "field-soil", "field-stage", "fields-list-view", "field-details-view",
    "analysis-container", "health-status", "vegetation-indices", "stress-info",
    "satellite-image"]

/-- The field of the example in the specification. -/
def fieldF1 : JSValue :=
  .obj [("field_id", .str "f1"), ("name", .str "North Plot"), ("area_hectares", decimal 125 1)]

/-- A second field, with a boundary. -/
def fieldF2 : JSValue :=
  .obj [("field_id", .str "f2"), ("name", .str "South Plot"),
    ("geometry", .obj [("coordinates",
      .arr [.arr [.arr [decimal 78 0, decimal 20 0], .arr [decimal 79 0, decimal 20 0],
        .arr [decimal 79 0, decimal 21 0]]])])]

/-- A page on which `f1` is the selected field and the map shows its base layer. -/
def sampleState : State :=
  { map := some { layers := [.tile "osm"], fitted := none }
    selectedField := fieldF1
    token := .str "tok"
    dom := samplePage
    localStorage := fun k => if k = "token" then some "tok" else none
    requests := []
    pending := []
    alerts := []
    console := []
    uncaught := [] }

/-- An analysis result tagged with the provider it was computed for. -/
def analysisOf (provider health : String) : JSValue :=
  .obj [("health_status", .str health), ("indices", .obj [("ndvi", decimal 62 2)]),
    ("metadata", .obj [("image", .obj [("provider", .str provider)])])]

end Dashboard

/-! ## Observations used by the theorems -/

namespace Dashboard

/-- The four elements of the metrics panel that `updateAnalysisUI` writes. -/
def panel (s : State) : List (Option Element) :=
  [s.dom "health-status", s.dom "vegetation-indices", s.dom "stress-info",
    s.dom "satellite-image"]

/-- Every waiting continuation belongs to a request that has been issued. -/
def WellFormed (s : State) : Prop := ∀ p ∈ s.pending, p.1 < s.requests.length

/-- The analysis has the shape that the four blocks of `updateAnalysisUI` read:
none of them throws on it. -/
def Renders (analysis : JSValue) : Prop :=
  (healthBadgeHtml analysis).isOk = true ∧ (indicesHtml analysis).isOk = true ∧
    (stressInfoHtml analysis).isOk = true ∧ (imageLabels analysis).isOk = true

end Dashboard

namespace Dashboard

/-- The state `s2` differs from `s1` at most in the document. -/
def OnlyDom (s1 s2 : State) : Prop := s2 = { s1 with dom := s2.dom }

/-- The request that `fetchWithToken` sends. -/
def getRequest (url : String) (s : State) : Request :=
  { method := "GET", url := url,
    headers := [("Authorization", "Bearer " ++ s.token.toStr)], body := none }

end Dashboard

namespace FieldMonitor

/-- The state `s2` differs from `s1` at most in what elements show (content and
classes), the charts, the console and the uncaught exceptions: the module
variables, the requests, the waiting continuations, the set of elements and
the values of the inputs are the same. -/
def KeepsInputs (s1 s2 : State) : Prop :=
  s2.requests = s1.requests ∧ s2.pending = s1.pending ∧ s2.currentField = s1.currentField ∧
    s2.activeIndex = s1.activeIndex ∧
    ∀ id, (s2.dom id).map (fun el => el.value) = (s1.dom id).map (fun el => el.value)

/-- Every waiting continuation belongs to a request that has been issued. -/
def WellFormed (s : State) : Prop := ∀ p ∈ s.pending, p.1 < s.requests.length

/-- The request that `fetchPlain` sends. -/
def plainRequest (url : String) : Request :=
  { method := "GET", url := url, headers := [], body := none }

/-- A page with every id that `field-monitor.js` looks up; the date inputs hold a range. -/
def samplePage : Dom := fun id =>
  if id = "start-date" then some { blankElement with value := "2024-01-01" }
  else if id = "end-date" then some { blankElement with value := "2024-03-31" }
  else pageOf ["indexDropdown", "field-name", "field-area", "field-crop", "field-soil",
    "field-stage", "health-status", "ndvi-mean", "ndvi-min", "ndvi-max", "evi-container",
    "evi-mean", "evi-min", "evi-max", "moisture-container", "moisture-mean", "moisture-min",
    "moisture-max", "moisture-status", "stress-info", "recommendations", "field-map",
    "trend-chart"] id

/-- The field of the example in the specification. -/
def fieldF1 : JSValue :=
  .obj [("field_id", .str "f1"), ("name", .str "North Plot"), ("area_hectares", decimal 125 1)]

/-- The page before any field has been loaded. -/
def sampleState : State :=
  { currentField := .null
    activeIndex := "ndvi"
    dom := samplePage
    charts := []
    requests := []
    pending := []
    console := []
    uncaught := [] }

end FieldMonitor

namespace FieldMonitor

/-- The placeholder that `updateFieldVisualization` writes for an upper-cased index name. -/
def visualizationHtml (upper : String) : String :=
  "\n" ++ "        <div class=\"alert alert-info\">\n" ++
  "            <strong>Visualization:</strong> " ++ upper ++
  " index visualization would be displayed here\n" ++ "        </div>\n" ++ "    "

/-- A page on which field f1 has been loaded. -/
def loadedState : State := { sampleState with currentField := fieldF1 }

end FieldMonitor

/-- The message of the error raised when the backend call does not return
success: the rejection message of `fetch`, or the text thrown for a response
whose `ok` is false.  A successful response has none. -/
def Outcome.failure (notOk : String) : Outcome → Option String
  | .rejected m => some m
  | .resolved r => if r.ok then none else some notOk

namespace Dashboard

/-- The state after the field list `[f2, f1]` has been loaded and drawn. -/
def listedState : State :=
  run Leaflet.lenient sampleState [.loadFields, .respond 0 (okResponse (.arr [fieldF2, fieldF1]))]

/-- The alert that the `catch` block of `loadFields` writes. -/
def loadFieldsAlert (message : String) : String :=
  "<div class=\"alert alert-danger\">Failed to load fields: " ++ message ++ "</div>"

/-- The number of polygon layers on the map. -/
def polygonCount (s : State) : Nat :=
  match s.map with
  | none => 0
  | some m => (m.layers.filter Layer.isPolygon).length

end Dashboard

namespace Dashboard

/-- The field f1 as the backend returns it in the detail request: the list
entry plus the crop type, which the list entry lacks. -/
def detailF1 : JSValue :=
  .obj [("field_id", .str "f1"), ("name", .str "North Plot"), ("area_hectares", decimal 125 1),
    ("crop_type", .str "wheat")]

/-- A field that is not in the loaded list `[f2, f1]`. -/
def fieldF9 : JSValue := .obj [("field_id", .str "f9"), ("name", .str "New Plot")]

/-- The crop type of the selected field, as a string. -/
def selectedCrop (s : State) : String :=
  match s.selectedField.get "crop_type" with
  | .ok v => v.toStr
  | .error _ => "error"

/-- The identifier of the selected field, as a string. -/
def selectedId (s : State) : String :=
  match s.selectedField.get "field_id" with
  | .ok v => v.toStr
  | .error _ => "error"

end Dashboard

/-- The value is a number. -/
def JSValue.isNumber : JSValue → Bool
  | .num _ => true
  | _ => false

namespace Dashboard

/-- The shape of the index mapping that `updateIndices` reads without
throwing: the analysis is an object (or any value other than `null` and
`undefined`), and `indices` is falsy or has each of ndvi, evi and moisture either
`undefined` or a number. -/
def scalarIndices (analysis : JSValue) : Bool :=
  match analysis.get "indices" with
  | .error _ => false
  | .ok indices =>
    !indices.truthy ||
      ["ndvi", "evi", "moisture"].all (fun k =>
        match indices.get k with
        | .ok v => !v.isDefined || v.isNumber
        | .error _ => false)

end Dashboard

namespace FieldMonitor

/-- The value is an object whose mean, min and max are numbers. -/
def isStats (v : JSValue) : Bool :=
  ["mean", "min", "max"].all (fun k =>
    match v.get k with
    | .ok x => x.isNumber
    | .error _ => false)

/-- The shape of the index mapping that `updateIndicesPanel` reads without
throwing: the analysis is not `null` or `undefined`, and each of ndvi, evi and
moisture is falsy (absent) or has numeric mean, min and max. -/
def statIndices (analysis : JSValue) : Bool :=
  ["ndvi", "evi", "moisture"].all (fun k =>
    match analysis.get k with
    | .ok v => !v.truthy || isStats v
    | .error _ => false)

/-- The elements that `updateIndicesPanel` looks up. -/
def indexElements : List String :=
  ["ndvi-mean", "ndvi-min", "ndvi-max", "evi-container", "evi-mean", "evi-min", "evi-max",
    "moisture-container", "moisture-mean", "moisture-min", "moisture-max", "moisture-status"]

/-- The statement list completes normally and changes only what elements show. -/
def Succeeds (s : State) (r : Res State) : Prop := ∃ s1, r = .ok s1 ∧ KeepsInputs s s1

/-- Three statistics of one index. -/
def stats (mean min max : JSValue) : JSValue :=
  .obj [("mean", mean), ("min", min), ("max", max)]

/-- An analysis result as `field-monitor.js` reads it, with every index present. -/
def fullAnalysis : JSValue :=
  .obj [("health_status", .str "good"),
    ("ndvi", stats (decimal 62 2) (decimal 31 2) (decimal 88 2)),
    ("evi", stats (decimal 41 2) (decimal 20 2) (decimal 55 2)),
    ("moisture", stats (decimal 30 2) (decimal 12 2) (decimal 47 2)),
    ("moisture_status", .str "adequate"),
    ("stress", .obj [("stress_detected", .bool true), ("stress_type", .str "water"),
      ("stress_percentage", decimal 234 1)]),
    ("recommendations", .arr [.str "Irrigate the north corner", .str "Check for pests"])]

end FieldMonitor

/-- An analysis result with stress detected whose optional percentage is absent. -/
def stressWithoutPercentage : JSValue :=
  .obj [("health_status", .str "poor"),
    ("stress", .obj [("stress_detected", .bool true), ("stress_type", .str "water")])]

/-- An analysis result with stress detected, type and percentage present. -/
def stressWithPercentage : JSValue :=
  .obj [("health_status", .str "poor"),
    ("stress", .obj [("stress_detected", .bool true), ("stress_type", .str "water"),
      ("stress_percentage", decimal 234 1)])]

namespace Dashboard

/-- The alert that the `catch` block of `loadFieldAnalysis` writes. -/
def analysisAlert (message : String) : String :=
  "<div class=\"alert alert-danger\">Analysis failed: " ++ message ++ "</div>"

end Dashboard

namespace FieldMonitor

/-- What the element with the given id shows, if it exists. -/
def shown (s : State) (id : String) : Option Content :=
  (s.dom id).map (fun el => el.content)

/-- The element with the given id exists and carries the class. -/
def hasClass (s : State) (id c : String) : Bool :=
  match s.dom id with
  | some el => decide (c ∈ el.classes)
  | none => false

/-- The badge that `updateHealthStatus` builds from the analysis. -/
def healthBadge (analysis : JSValue) : Except JSError Content := do
  let hs ← analysis.get "health_status"
  let label ← (hs.orElse "unknown").callCapitalize
  pure (.child "span" ["badge", "fs-6", healthBadgeClass (hs.orElse "unknown")] label)

/-- The text `analysis[index][k].toFixed(2)` of one statistic. -/
def statText (analysis : JSValue) (index k : String) : Except JSError String := do
  let group ← analysis.get index
  let v ← group.get k
  v.callToFixed 2

/-- The analysis carries the index: `analysis[index]` is truthy. -/
def indexPresent (analysis : JSValue) (index : String) : Bool :=
  match analysis.get index with
  | .ok group => group.truthy
  | .error _ => false

/-- The statistic `k` of `index` of the analysis is what its element shows. -/
def StatShown (analysis : JSValue) (s : State) (index k : String) : Prop :=
  ∃ t, statText analysis index k = .ok t ∧ shown s (index ++ "-" ++ k) = some (.text t)

/-- The markup of the failure state of `loadFieldAnalysis`. -/
def failedHtml : String := "<span class=\"text-danger\">Analysis failed</span>"

/-- The state after the analysis `fullAnalysis` has been rendered on the sample page. -/
def renderedState : State :=
  resumeLoadFieldAnalysis none (okResponse fullAnalysis) sampleState

/-- A later analysis result that carries only a health status. -/
def bareAnalysis : JSValue := .obj [("health_status", .str "poor")]

/-- A later analysis result whose NDVI is a single scalar. -/
def scalarAnalysis : JSValue :=
  .obj [("health_status", .str "poor"), ("ndvi", decimal 5 1)]

end FieldMonitor

/-- The text `needle` occurs somewhere in `hay`. -/
def occursIn (needle hay : String) : Bool :=
  hay.data.tails.any (fun rest => needle.data.isPrefixOf rest)

/-- The five health statuses that have a badge style of their own. -/
def knownStatuses : List String := ["excellent", "good", "average", "poor", "critical"]

/-- The analysis result of the example in the specification. -/
def exampleAnalysis : JSValue :=
  .obj [("health_status", .str "good"), ("indices", .obj [("ndvi", decimal 62 2)])]

namespace FieldMonitor

/-- The list item that the `forEach` of `updateRecommendations` appends for one recommendation. -/
def recommendationItem (rec : JSValue) : String :=
  "<li class=\"list-group-item\">" ++ rec.toStr ++ "</li>"

/-- The markup of the empty state of `updateRecommendations`. -/
def noRecommendationsHtml : String := "<p class=\"text-muted\">No recommendations available</p>"

end FieldMonitor

namespace Dashboard

/-- A vertex as the backend sends it: an array (of longitude and latitude). -/
def isCoord : JSValue → Bool
  | .arr _ => true
  | _ => false

/-- A ring: an array of vertices. -/
def isRing : JSValue → Bool
  | .arr coords => coords.all isCoord
  | _ => false

/-- The field has the shape of the data model: an object whose `geometry`, when it
is present and has `coordinates`, holds a ring as the first element of `coordinates`. -/
def wellFormedField (field : JSValue) : Bool :=
  match field with
  | .obj props =>
    !(JSValue.lookup "geometry" props).truthy ||
      (match (JSValue.lookup "geometry" props).get "coordinates" with
        | .ok coordinates =>
          !coordinates.truthy ||
            (match coordinates.index 0 with
              | .ok ring => isRing ring
              | .error _ => false)
        | .error _ => false)
  | _ => false

/-- The field has geometry coordinates: the condition of `addFieldsToMap` holds for it. -/
def drawable (field : JSValue) : Bool :=
  match hasGeometry field with
  | .ok b => b
  | .error _ => false

/-- The vertices of the polygon of a field, in the order of the map library. -/
def ringOf (field : JSValue) : List (JSValue × JSValue) :=
  match ringLatLngs field with
  | .ok latLngs => latLngs
  | .error _ => []

/-- The polygon that the `try` block of `addFieldsToMap` leaves on the map for a field. -/
def drawnPolygon (field : JSValue) : Layer :=
  match popupText field with
  | .ok popup => .polygon (ringOf field) (some popup) (some field)
  | .error _ => .polygon (ringOf field) none none

/-- One polygon per field with geometry, in the order of the list. -/
def drawnLayers (fields : List JSValue) : List Layer :=
  (fields.filter drawable).map drawnPolygon

/-- The layers on the map; none when there is no map. -/
def layersOf (s : State) : List Layer :=
  match s.map with
  | none => []
  | some m => m.layers

/-- The vertices of a polygon layer; a tile layer has none. -/
def Layer.ring : Layer → Option (List (JSValue × JSValue))
  | .tile _ => none
  | .polygon latLngs _ _ => some latLngs

/-- The vertex lists of the polygons on the map, in the order they were added. -/
def polygonRings (s : State) : List (List (JSValue × JSValue)) :=
  (layersOf s).filterMap Layer.ring

end Dashboard

namespace Dashboard

/-- A field outside the data model: its `coordinates` array holds no ring. -/
def fieldNoRing : JSValue :=
  .obj [("field_id", .str "f3"), ("name", .str "Odd Plot"),
    ("geometry", .obj [("coordinates", .arr [])])]

end Dashboard

namespace Dashboard

/-- The field has the shape that a card of `displayFields` reads: an object
whose area is absent or a number. -/
def cardField : JSValue → Bool
  | .obj props =>
    !(JSValue.lookup "area_hectares" props).truthy ||
      (JSValue.lookup "area_hectares" props).isNumber
  | _ => false

/-- The card of a field; empty when building the card throws. -/
def cardOf (field : JSValue) : String :=
  match fieldCard field with
  | .ok card => card
  | .error _ => ""

/-- The markup of the empty state of `displayFields`. -/
def noFieldsHtml : String := "<div class=\"alert alert-info\">No fields found</div>"

end Dashboard

namespace Dashboard

/-- The state `s2` has the same requests, waiting continuations, credential and
browser storage as `s1`. -/
def SameSession (s1 s2 : State) : Prop :=
  s2.requests = s1.requests ∧ s2.pending = s1.pending ∧ s2.token = s1.token ∧
    s2.localStorage = s1.localStorage

/-- The request carries the header `Authorization: Bearer <credential>` and no other. -/
def carriesBearer (credential : JSValue) (r : Request) : Prop :=
  r.headers = [("Authorization", "Bearer " ++ credential.toStr)]

end Dashboard

/-! ## The session functions of `js/dashboard.js` -/

namespace Dashboard

/-- The call `localStorage.getItem(key)`: the stored string, or `null`. -/
def getItem (key : String) (s : State) : JSValue :=
  match s.localStorage key with
  | some v => .str v
  | none => .null

/-- The call `localStorage.setItem(key, value)`: the value is stored as a string. -/
def setItem (key : String) (value : JSValue) (s : State) : State :=
  { s with localStorage := fun k => if k = key then some value.toStr else s.localStorage k }

/-- The call `localStorage.removeItem(key)`. -/
def removeItem (key : String) (s : State) : State :=
  { s with localStorage := fun k => if k = key then none else s.localStorage k }

/-- The call `alert(message)`. -/
def alert (message : String) (s : State) : State :=
  { s with alerts := s.alerts ++ [message] }

/-- The function `checkAuth()`. -/
def checkAuth (s : State) : Res State :=
  let s1 := { s with token := getItem "token" s }
  if !s1.token.truthy then .throw (.error "Not authenticated") s1 else .ok s1

/-- The guarded statement `const el = document.getElementById(id); if (el) el.style.display = v`. -/
def setDisplayIfPresent (id v : String) (s : State) : State :=
  match s.dom id with
  | some el => setDisplay id el v s
  | none => s

/-- The function `showLoginForm()`. -/
def showLoginForm (s : State) : State :=
  setDisplayIfPresent "login-form" "block" (setDisplayIfPresent "main-content" "none" s)

/-- The function `logout()`. -/
def logout (s : State) : State :=
  showLoginForm { removeItem "token" s with token := .null }

/-- The address of the base tile layer. -/
def baseTileUrl : String :=
  "https://\x7bs\x7d.tile.openstreetmap.org/\x7bz\x7d/\x7bx\x7d/\x7by\x7d.png"

/-- The function `initMap()`: the map is created, with its base tile layer, only
when the variable `map` is empty and the page has the map element. -/
def initMap (s : State) : State :=
  if s.map.isNone && (s.dom "map").isSome then
    { s with map := some { layers := [.tile baseTileUrl], fitted := none } }
  else s

/-- The call `fetch("/token", ..)` with method POST and a form body, followed
by `await`.  The code that waits for it is run by the session events below. -/
def postToken (body : String) (s : State) : State :=
  { s with requests := s.requests ++
      [{ method := "POST", url := "/token",
         headers := [("Content-Type", "application/x-www-form-urlencoded")], body := some body }] }

/-- The statements of `getDemoToken` after the response has been parsed:
`token = data.access_token; localStorage.setItem("token", token)`. -/
def storeDemoToken (data : JSValue) (s : State) : Res State :=
  evalThen (data.get "access_token") (fun t s =>
    .ok (setItem "token" t { s with token := t })) s

/-- The `catch` block of `getDemoToken`. -/
def catchGetDemoToken (e : JSError) (s : State) : State :=
  alert ("Failed to authenticate: " ++ e.message) (consoleError "Error getting demo token:" e s)

/-- The function `getDemoToken` from the arrival of its response on. -/
def resumeGetDemoToken (o : Outcome) (s : State) : State :=
  match awaitJson (fun _ => "Failed to get demo token") o storeDemoToken s with
  | .ok s1 => s1
  | .throw e s1 => catchGetDemoToken e s1

/-- The calls `initMap(); setupEventListeners(); loadFields();`.  The listeners
that `setupEventListeners` registers are the events of the model. -/
def startComponents (s : State) : State :=
  loadFields (initMap s)

/-- The function `initApp()` up to the first response it waits for: with a
stored credential the components start; otherwise the demo credential is requested. -/
def initApp (s : State) : State :=
  match checkAuth s with
  | .ok s1 => startComponents s1
  | .throw e s1 =>
    postToken "username=demo&password=demo" (consoleError "Initialization error:" e s1)

/-- The `catch` block of `initApp` from the arrival of the demo credential
response on: `getDemoToken` finishes, then the components start. -/
def resumeInitApp (o : Outcome) (s : State) : State :=
  startComponents (resumeGetDemoToken o s)

/-- The expression `document.getElementById(id).value`. -/
def inputValue (id : String) (s : State) : Except JSError String :=
  match s.dom id with
  | some el => .ok el.value
  | none => .error (.typeError "Cannot read properties of null (reading value)")

/-- The function `login(event)` up to its `await fetch(..)`; the two inputs are
read outside the `try`. -/
def login (s : State) : Res State :=
  evalThen (inputValue "username" s) (fun username s =>
    evalThen (inputValue "password" s) (fun password s =>
      .ok (postToken
        ("username=" ++ formEncode username ++ "&password=" ++ formEncode password) s)) s) s

/-- The statements of `login` after the response has been parsed. -/
def storeLoginToken (data : JSValue) (s : State) : Res State :=
  evalThen (data.get "access_token") (fun t s =>
    .ok (startComponents (setDisplayIfPresent "main-content" "block"
      (setDisplayIfPresent "login-form" "none" { setItem "token" t s with token := t })))) s

/-- The `catch` block of `login`. -/
def catchLogin (e : JSError) (s : State) : State :=
  alert ("Login failed: " ++ e.message) (consoleError "Login error:" e s)

/-- The function `login` from the arrival of its response on. -/
def resumeLogin (o : Outcome) (s : State) : State :=
  match awaitJson (fun _ => "Invalid credentials") o storeLoginToken s with
  | .ok s1 => s1
  | .throw e s1 => catchLogin e s1

/-- What can happen to the session: the start of the page, the arrival of the
response to a credential request, a login or logout, a further call of
`initMap`, or an event of the page. -/
inductive SessionEvent where
  | initApp
  | demoTokenResponse (o : Outcome)
  | login
  | loginResponse (o : Outcome)
  | logout
  | initMap
  | page (ev : Event)

/-- One turn of the event loop with the session events.  A credential response
is accepted at any time, also when no credential request is waiting. -/
def sessionStep (L : Leaflet) (s : State) : SessionEvent → State
  | .initApp => initApp s
  | .demoTokenResponse o => resumeInitApp o s
  | .login => settle (login s)
  | .loginResponse o => resumeLogin o s
  | .logout => logout s
  | .initMap => initMap s
  | .page ev => step L s ev

/-- Runs a sequence of session events. -/
def sessionRun (L : Leaflet) (s : State) (events : List SessionEvent) : State :=
  events.foldl (sessionStep L) s

/-- A page with the elements of the login form and of the dashboard. -/
def sessionPage : Dom := fun id =>
  if id = "username" then some { blankElement with value := "asha" }
  else if id = "password" then some { blankElement with value := "s3cret pw" }
  else if id = "login-form" then some { blankElement with display := "none" }
  else if id = "main-content" then some { blankElement with display := "block" }
  else samplePage id

/-- The page as the browser loads it: no map, no credential in the variable, no
credential stored. -/
def freshState : State :=
  { map := none
    selectedField := .null
    token := .null
    dom := sessionPage
    localStorage := fun _ => none
    requests := []
    pending := []
    alerts := []
    console := []
    uncaught := [] }

/-- A response of the credential endpoint with the given access token. -/
def tokenResponse (c : String) : Outcome :=
  okResponse (.obj [("access_token", .str c), ("token_type", .str "bearer")])

/-- The `display` of an element, if it exists. -/
def displayOf (s : State) (id : String) : Option String :=
  (s.dom id).map (fun el => el.display)

/-- The in-memory credential equals what is stored under the key `token`
(`null` when nothing is stored). -/
def Consistent (s : State) : Prop := s.token = getItem "token" s

end Dashboard

namespace Dashboard

/-- The sample state on the page that also has the login form: signed in with credential "tok". -/
def signedInState : State := { sampleState with dom := sessionPage }

end Dashboard

/-! ## `src/components/Dashboard.jsx`: the map effects -/

namespace ReactDashboard

/-- The Leaflet map of the component: its view, the names of the tile layers on
it, and its markers with their popup text. -/
structure MapView where
  center : JSValue
  zoom : Nat
  layers : List String
  markers : List (JSValue × JSValue)

/-- The two refs of the component, `mapRef` and `mapInstance`. -/
structure Refs where
  mapRef : Option MapView
  mapInstance : Option MapView

/-- The refs at the first render: `useRef(null)` twice. -/
def initialRefs : Refs := { mapRef := none, mapInstance := none }

/-- The map that `L.map("map").setView([20.5937, 78.9629], 5)` creates, with the
imagery layer and the labels added to it. -/
def createdMap : MapView :=
  { center := .arr [.num ⟨false, 205937, 4⟩, .num ⟨false, 789629, 4⟩], zoom := 5,
    layers := ["Landsat 8/9", "Labels"], markers := [] }

/-- The effect that runs after the first render: it creates the map in
`mapRef.current` when that ref is empty. -/
def mountEffect (r : Refs) : Refs :=
  if r.mapRef.isNone then { r with mapRef := some createdMap } else r

/-- The calls `map.setView(coordinates, 13)` and
`L.marker(coordinates).addTo(map).bindPopup(name)`. -/
def recentre (m : MapView) (coordinates name : JSValue) : MapView :=
  { m with center := coordinates, zoom := 13, markers := m.markers ++ [(coordinates, name)] }

/-- The effect on `selectedField`: inside `if (selectedField && mapInstance.current)`
the map in `mapInstance.current` is centred on the coordinates of the field at
zoom 13 and gets a marker with the name of the field as popup. -/
def selectedFieldEffect (selectedField : JSValue) (r : Refs) : Except JSError Refs :=
  if selectedField.truthy then
    match r.mapInstance with
    | some m => do
      let coordinates ← selectedField.get "coordinates"
      let name ← selectedField.get "name"
      pure { r with mapInstance := some (recentre m coordinates name) }
    | none => .ok r
  else .ok r

/-- A field as the sidebar lists it, with a representative coordinate. -/
def fieldNearNagpur : JSValue :=
  .obj [("id", .num ⟨false, 7, 0⟩), ("name", .str "Field 7"),
    ("coordinates", .arr [.num ⟨false, 2115, 2⟩, .num ⟨false, 7909, 2⟩])]

/-- The zoom of the map in `mapRef.current`. -/
def Refs.zoom (r : Refs) : Option Nat := r.mapRef.map (fun m => m.zoom)

/-- The centre of the map in `mapRef.current`, as text. -/
def Refs.center (r : Refs) : Option String := r.mapRef.map (fun m => m.center.toStr)

/-- The number of markers on the map in `mapRef.current`. -/
def Refs.markerCount (r : Refs) : Option Nat := r.mapRef.map (fun m => m.markers.length)

end ReactDashboard

namespace Dashboard

/-- The state `s2` has a map exactly when `s1` has one. -/
def SameMapPresence (s1 s2 : State) : Prop := s2.map.isSome = s1.map.isSome

/-- A map instance is created between the two states: the variable `map` was
empty and holds a map afterwards. -/
def createsMap (before after : State) : Bool := before.map.isNone && after.map.isSome

/-- The number of map instances created in a run of session events. -/
def mapCreations (L : Leaflet) : State → List SessionEvent → Nat
  | _, [] => 0
  | s, ev :: rest =>
    (if createsMap s (sessionStep L s ev) then 1 else 0) +
      mapCreations L (sessionStep L s ev) rest

end Dashboard

/-- The number of items of an array; 0 for every other value. -/
def JSValue.arrayLength : JSValue → Nat
  | .arr items => items.length
  | _ => 0

namespace FieldMonitor

/-- The lengths of the labels and of the data of each dataset of a chart. -/
def seriesLengths (config : ChartConfig) : List Nat :=
  config.labels.arrayLength :: config.datasets.map (fun d => d.data.arrayLength)

/-- A trend series of three days. -/
def sampleTrend : JSValue :=
  .obj [("dates", .arr [.str "2024-01-01", .str "2024-01-02", .str "2024-01-03"]),
    ("ndvi", .arr [decimal 41 2, decimal 45 2, decimal 52 2]),
    ("precipitation", .arr [decimal 0 0, decimal 125 1, decimal 3 0])]

/-- The empty trend series. -/
def emptyTrend : JSValue :=
  .obj [("dates", .arr []), ("ndvi", .arr []), ("precipitation", .arr [])]

end FieldMonitor

namespace Dashboard

/-- The label that `v || "Unknown"` and `v ? v + unit : "Unknown"` compute: the
text of the value followed by its unit, or "Unknown" for a value that counts as
false (missing, `null`, the empty string, zero). -/
def labelOf (v : JSValue) (unit : String) : String :=
  if v.truthy then v.toStr ++ unit else "Unknown"

/-- An analysis result whose image metadata has a provider and a resolution but no date. -/
def partialImageAnalysis : JSValue :=
  .obj [("health_status", .str "good"),
    ("metadata", .obj [("image", .obj [("provider", .str "liss_iv"),
      ("resolution", decimal 58 1)])])]

end Dashboard

namespace Dashboard

/-- The response to a credential request has a string as `access_token` whenever
it is a success whose body can be read and has that property. -/
def stringToken : Outcome → Bool
  | .rejected _ => true
  | .resolved r =>
    !r.ok ||
      (match r.json with
        | .error _ => true
        | .ok data =>
          match data.get "access_token" with
          | .ok (.str _) => true
          | .ok _ => false
          | .error _ => true)

/-- The credential responses among the session events carry string tokens. -/
def SessionEvent.typed : SessionEvent → Bool
  | .demoTokenResponse o => stringToken o
  | .loginResponse o => stringToken o
  | _ => true

end Dashboard

namespace Dashboard

/-- The vertex `[lat, lon]` of the map library for the GeoJSON pair `[lon, lat]`:
the second item, then the first. -/
def swapPair : JSValue → JSValue × JSValue
  | .arr items => (items.getD 1 .undefined, items.getD 0 .undefined)
  | _ => (.undefined, .undefined)

/-- The vertices that the fields with geometry contribute to the bounds, in order. -/
def boundsOf (fields : List JSValue) : List (JSValue × JSValue) :=
  (fields.filter drawable).flatMap ringOf

end Dashboard

/-! ## `src/components/Sidebar.jsx` and `src/App.jsx`: the filter state -/

namespace Sidebar

/-- The object `{ ...prev, [key]: value }`: a key that `prev` has keeps its
place and gets the new value, a new key is added at the end. -/
def setProp (key : String) (value : JSValue) :
    List (String × JSValue) → List (String × JSValue)
  | [] => [(key, value)]
  | (k, v) :: rest => if k = key then (k, value) :: rest else (k, v) :: setProp key value rest

/-- The updater that `handleSatelliteSourceChange(source)` passes to
`setSatelliteSources`: `prev => ({ ...prev, [source]: !prev[source] })`. -/
def handleSatelliteSourceChange (source : String) (prev : List (String × JSValue)) :
    List (String × JSValue) :=
  setProp source (.bool (!(JSValue.lookup source prev).truthy)) prev

/-- The updater that `handleDateChange(type, value)` passes to `setDateRange`:
`prev => ({ ...prev, [type]: value })`. -/
def handleDateChange (type : String) (value : JSValue) (prev : List (String × JSValue)) :
    List (String × JSValue) :=
  setProp type value prev

/-- The initial `satelliteSources` of `App`. -/
def initialSources : List (String × JSValue) :=
  [("landsat", .bool true), ("sentinel", .bool true), ("modis", .bool true),
    ("viirs", .bool true), ("smap", .bool true)]

/-- The initial `dateRange` of `App`. -/
def initialDateRange : List (String × JSValue) :=
  [("startDate", .str ""), ("endDate", .str "")]

end Sidebar

namespace Dashboard

/-- The boundary of a field in the words of the data model: the first ring of
the polygon coordinates of its geometry, a sequence of `[lon, lat]` vertices.
A field without geometry, or whose geometry has no coordinates, has none. -/
def boundary : JSValue → Option (List JSValue)
  | .obj props =>
    match JSValue.lookup "geometry" props with
    | .obj g =>
      match JSValue.lookup "coordinates" g with
      | .arr (.arr ring :: _) => some ring
      | _ => none
    | _ => none
  | _ => none

/-- A field of the data model: an object whose geometry is absent, or is an
object whose coordinates are absent or are polygon coordinates, a sequence that
starts with a ring of vertex arrays. -/
def modelField : JSValue → Bool
  | .obj props =>
    match JSValue.lookup "geometry" props with
    | .undefined => true
    | .null => true
    | .obj g =>
      match JSValue.lookup "coordinates" g with
      | .undefined => true
      | .null => true
      | .arr (.arr ring :: _) => ring.all isCoord
      | _ => false
    | _ => false
  | _ => false

/-- The vertices `[lat, lon]` of the polygon that a field with a boundary is
drawn as: every vertex of the boundary, swapped, in the same order. -/
def vertices (field : JSValue) : Option (List (JSValue × JSValue)) :=
  (boundary field).map (fun ring => ring.map swapPair)

/-- The state after the call of `addFieldsToMap`, whether or not it threw. -/
def redrawn (L : Leaflet) (fields : List JSValue) (s : State) : State :=
  (addFieldsToMap L (.arr fields) s).state

/-- The vertex lists of the polygons on the map, with every number printed. -/
def ringTexts (s : State) : List (List (String × String)) :=
  (polygonRings s).map (fun ring => ring.map (fun v => (v.1.toStr, v.2.toStr)))

/-- The tile layers on the map. -/
def tileUrls (s : State) : List String :=
  (layersOf s).filterMap (fun l => match l with
    | .tile url => some url
    | .polygon _ _ _ => none)

/-- A map that still shows the polygon of a field that is no longer listed. -/
def staleMapState : State :=
  { sampleState with
    map := some ⟨[.tile "osm",
      .polygon [(decimal 10 0, decimal 70 0), (decimal 11 0, decimal 70 0),
        (decimal 11 0, decimal 71 0)] none none], none⟩ }

/-- A property of a field of the data model; `undefined` when it is missing. -/
def propOf (field : JSValue) (k : String) : JSValue :=
  match field with
  | .obj props => JSValue.lookup k props
  | _ => .undefined

/-- The area line of a field card in words: the area with two decimals followed
by " ha", and "Unknown" for a field without an area. -/
def areaLabel : JSValue → String
  | .num n => if n.isZero then "Unknown" else n.toFixed 2 ++ " ha"
  | _ => "Unknown"

/-- The value of an optional property is absent: missing or `null`. -/
def isAbsent : JSValue → Bool
  | .undefined => true
  | .null => true
  | _ => false

/-- An optional label value of the data model: absent, a non-empty string, or a
number other than zero. -/
def labelValue : JSValue → Bool
  | .undefined => true
  | .null => true
  | .str t => t != ""
  | .num n => !n.isZero
  | _ => false

/-- The label of an optional value in the words of the specification: the
value followed by its unit, replaced by "Unknown" exactly when it is absent. -/
def labelText (v : JSValue) (unit : String) : String :=
  if isAbsent v then "Unknown" else v.toStr ++ unit

end Dashboard

namespace FieldMonitor

/-- A trend series with an NDVI value below zero, as over water or snow. -/
def winterTrend : JSValue :=
  .obj [("dates", .arr [.str "2024-01-01", .str "2024-01-02"]),
    ("ndvi", .arr [.num ⟨true, 12, 2⟩, decimal 5 2]),
    ("precipitation", .arr [decimal 4 0, decimal 0 0])]

/-- The data of the datasets of a chart, printed. -/
def dataTexts (config : ChartConfig) : List String :=
  config.datasets.map (fun d => d.data.toStr)

end FieldMonitor

namespace ReactDashboard

/-- The first of the fields that `Sidebar.jsx` lists; clicking it makes it the
selected field of `Dashboard.jsx`. -/
def sidebarField : JSValue :=
  .obj [("id", .num ⟨false, 1, 0⟩), ("name", .str "Field 1"),
    ("coordinates", .arr [.num ⟨false, 205937, 4⟩, .num ⟨false, 789629, 4⟩])]

/-- The zoom, the centre and the number of markers of a map. -/
def MapView.summary (m : MapView) : Nat × String × Nat :=
  (m.zoom, m.center.toStr, m.markers.length)

end ReactDashboard

/-! # Theorems -/

set_option maxRecDepth 100000

/-! ## Control flow lemmas -/

theorem Res.bind_ok {σ : Type} (s : σ) (k : σ → Res σ) : (Res.ok s).bind k = k s := rfl

theorem Res.bind_throw {σ : Type} (e : JSError) (s : σ) (k : σ → Res σ) :
    (Res.throw e s).bind k = Res.throw e s := rfl

theorem evalThen_ok {σ α : Type} (a : α) (k : α → σ → Res σ) (s : σ) :
    evalThen (.ok a) k s = k a s := rfl

theorem Except.isOk_iff {ε α : Type} (e : Except ε α) :
    e.isOk = true ↔ ∃ a, e = .ok a := by
  cases e <;> simp [Except.isOk, Except.toBool]

namespace Dashboard

theorem writeHtml_dom (id m : String) (s : State) (j : String) :
    (writeHtml id m s).dom j =
      if j = id then (s.dom id).map (fun el => { el with content := .html m }) else s.dom j := by
  unfold writeHtml
  cases h : s.dom id with
  | none => by_cases hj : j = id <;> simp [hj, h]
  | some el => simp [putHtml, Dom.set]

theorem writeHtml_pending (id m : String) (s : State) :
    (writeHtml id m s).pending = s.pending := by
  unfold writeHtml
  cases s.dom id <;> rfl

theorem renderInto_ok (id m : String) (s : State) :
    renderInto id (.ok m) s = .ok (writeHtml id m s) := by
  unfold renderInto writeHtml
  cases s.dom id <;> rfl

/-- On an analysis that renders, `updateAnalysisUI` completes and writes the
four blocks, each where its element exists. -/
theorem updateAnalysisUI_of_renders (a : JSValue) (h : Renders a) :
    ∃ m1 m2 m3 m4, ∀ s : State, updateAnalysisUI a s =
      .ok (writeHtml "satellite-image" m4 (writeHtml "stress-info" m3
        (writeHtml "vegetation-indices" m2 (writeHtml "health-status" m1 s)))) := by
  obtain ⟨h1, h2, h3, h4⟩ := h
  obtain ⟨m1, e1⟩ := (Except.isOk_iff _).1 h1
  obtain ⟨m2, e2⟩ := (Except.isOk_iff _).1 h2
  obtain ⟨m3, e3⟩ := (Except.isOk_iff _).1 h3
  obtain ⟨l, e4⟩ := (Except.isOk_iff _).1 h4
  refine ⟨m1, m2, m3, satelliteHtml l.1 l.2.1 l.2.2, fun s => ?_⟩
  simp only [updateAnalysisUI, updateHealthBadge, updateIndices, updateStressInfo,
    updateSatelliteImage, e1, e2, e3, e4, renderInto_ok, Res.bind_ok, Except.map]

/-- The continuation of `loadFieldAnalysis` on a successful response whose body renders. -/
theorem resumeLoadFieldAnalysis_ok (a : JSValue) (s : State) :
    resumeLoadFieldAnalysis (okResponse a) s = settle
      (match updateAnalysisUI a s with
        | .ok s1 => .ok s1
        | .throw e s1 => catchLoadFieldAnalysis e s1) := rfl

theorem find_fresh (k : Nat) (l : List (Nat × Continuation)) (h : ∀ p ∈ l, p.1 ≠ k) :
    l.find? (fun p => p.1 == k) = none := by
  rw [List.find?_eq_none]
  intro p hp
  simpa using h p hp

theorem filter_fresh (k : Nat) (l : List (Nat × Continuation)) (h : ∀ p ∈ l, p.1 ≠ k) :
    l.filter (fun p => p.1 != k) = l := by
  rw [List.filter_eq_self]
  intro p hp
  simpa using h p hp

/-- C1 (amended): after two overlapping analysis calls whose responses both
render, the metrics panel shows the result of the response that arrived last:
the later call's result when the responses arrive in call order, the earlier
(superseded) call's result when they arrive in the opposite order.  No response
is discarded. -/
theorem last_arrival_wins (L : Leaflet) (s : State) (f1 p1 f2 p2 a1 a2 : JSValue)
    (hwf : WellFormed s) (h1 : Renders a1) (h2 : Renders a2) :
    panel (run L (loadFieldAnalysis f2 p2 (loadFieldAnalysis f1 p1 s))
        [.respond s.requests.length (okResponse a1),
         .respond (s.requests.length + 1) (okResponse a2)])
      = panel (updateAnalysisUI a2 s).state ∧
    panel (run L (loadFieldAnalysis f2 p2 (loadFieldAnalysis f1 p1 s))
        [.respond (s.requests.length + 1) (okResponse a2),
         .respond s.requests.length (okResponse a1)])
      = panel (updateAnalysisUI a1 s).state := by
  obtain ⟨x1, x2, x3, x4, hx⟩ := updateAnalysisUI_of_renders a1 h1
  obtain ⟨y1, y2, y3, y4, hy⟩ := updateAnalysisUI_of_renders a2 h2
  have hn : ∀ p ∈ s.pending, p.1 ≠ s.requests.length := fun p hp => Nat.ne_of_lt (hwf p hp)
  have hn1 : ∀ p ∈ s.pending, p.1 ≠ s.requests.length + 1 :=
    fun p hp => Nat.ne_of_lt (Nat.lt_succ_of_lt (hwf p hp))
  constructor
  · simp [run, step, loadFieldAnalysis, fetchWithToken, List.find?_append, find_fresh _ _ hn,
      find_fresh _ _ hn1, filter_fresh _ _ hn, filter_fresh _ _ hn1, resume,
      resumeLoadFieldAnalysis_ok, hx, hy, settle, panel, writeHtml_dom, writeHtml_pending,
      Res.state]
    exact ⟨rfl, rfl, rfl, rfl⟩
  · simp [run, step, loadFieldAnalysis, fetchWithToken, List.find?_append, find_fresh _ _ hn,
      find_fresh _ _ hn1, filter_fresh _ _ hn, filter_fresh _ _ hn1, resume,
      resumeLoadFieldAnalysis_ok, hx, hy, settle, panel, writeHtml_dom, writeHtml_pending,
      Res.state]
    exact ⟨rfl, rfl, rfl, rfl⟩

/-- C1, witness: the two orders on the sample page. -/
theorem last_arrival_wins_witness :
    panel (run Leaflet.lenient
        (loadFieldAnalysis (.str "f1") (.str "hr_data")
          (loadFieldAnalysis (.str "f1") (.str "liss_iv") sampleState))
        [.respond 0 (okResponse (analysisOf "liss_iv" "poor")),
         .respond 1 (okResponse (analysisOf "hr_data" "good"))])
      = panel (updateAnalysisUI (analysisOf "hr_data" "good") sampleState).state ∧
    panel (run Leaflet.lenient
        (loadFieldAnalysis (.str "f1") (.str "hr_data")
          (loadFieldAnalysis (.str "f1") (.str "liss_iv") sampleState))
        [.respond 1 (okResponse (analysisOf "hr_data" "good")),
         .respond 0 (okResponse (analysisOf "liss_iv" "poor"))])
      = panel (updateAnalysisUI (analysisOf "liss_iv" "poor") sampleState).state :=
  last_arrival_wins Leaflet.lenient sampleState (.str "f1") (.str "liss_iv") (.str "f1")
    (.str "hr_data") (analysisOf "liss_iv" "poor") (analysisOf "hr_data" "good")
    (by intro p hp; cases hp) ⟨rfl, rfl, rfl, rfl⟩ ⟨rfl, rfl, rfl, rfl⟩

/-- C1, counterexample: the provider is switched liss_iv, hr_data, eos_04 before
any response returns, and the responses arrive in the opposite order.  The panel
ends up showing the liss_iv result, not the result of the latest trigger. -/
theorem stale_response_overrides_latest_trigger :
    panel (run Leaflet.lenient sampleState
        [.filterSatelliteProvider (.str "liss_iv"), .filterSatelliteProvider (.str "hr_data"),
         .filterSatelliteProvider (.str "eos_04"),
         .respond 2 (okResponse (analysisOf "eos_04" "good")),
         .respond 1 (okResponse (analysisOf "hr_data" "average")),
         .respond 0 (okResponse (analysisOf "liss_iv" "poor"))])
      = panel (updateAnalysisUI (analysisOf "liss_iv" "poor") sampleState).state ∧
    panel (run Leaflet.lenient sampleState
        [.filterSatelliteProvider (.str "liss_iv"), .filterSatelliteProvider (.str "hr_data"),
         .filterSatelliteProvider (.str "eos_04"),
         .respond 2 (okResponse (analysisOf "eos_04" "good")),
         .respond 1 (okResponse (analysisOf "hr_data" "average")),
         .respond 0 (okResponse (analysisOf "liss_iv" "poor"))])
      ≠ panel (updateAnalysisUI (analysisOf "eos_04" "good") sampleState).state := by
  decide

end Dashboard

namespace Dashboard

theorem OnlyDom.same (s : State) : OnlyDom s s := rfl

theorem OnlyDom.followedBy {s1 s2 s3 : State} (h12 : OnlyDom s1 s2) (h23 : OnlyDom s2 s3) :
    OnlyDom s1 s3 := by
  unfold OnlyDom at *
  rw [h23, h12]

theorem OnlyDom.requests_eq {s1 s2 : State} (h : OnlyDom s1 s2) : s2.requests = s1.requests := by
  rw [h]

theorem OnlyDom.token_eq {s1 s2 : State} (h : OnlyDom s1 s2) : s2.token = s1.token := by
  rw [h]

theorem OnlyDom.selectedField_eq {s1 s2 : State} (h : OnlyDom s1 s2) :
    s2.selectedField = s1.selectedField := by
  rw [h]

theorem OnlyDom.map_eq {s1 s2 : State} (h : OnlyDom s1 s2) : s2.map = s1.map := by
  rw [h]

theorem OnlyDom.pending_eq {s1 s2 : State} (h : OnlyDom s1 s2) : s2.pending = s1.pending := by
  rw [h]

theorem OnlyDom.alerts_eq {s1 s2 : State} (h : OnlyDom s1 s2) : s2.alerts = s1.alerts := by
  rw [h]

theorem onlyDom_bind {s : State} {r : Res State} {k : State → Res State}
    (hr : OnlyDom s r.state) (hk : ∀ s1, OnlyDom s1 (k s1).state) :
    OnlyDom s (r.bind k).state := by
  cases r with
  | ok s1 => exact hr.followedBy (hk s1)
  | throw e s1 => exact hr

theorem onlyDom_setTextGuarded (id : String) (v : Except JSError String) (s : State) :
    OnlyDom s (setTextGuarded id v s).state := by
  unfold setTextGuarded
  cases s.dom id with
  | none => exact OnlyDom.same s
  | some el =>
    cases v with
    | error e => exact OnlyDom.same s
    | ok t =>
      simp only [evalThen, setTextIfPresent, Res.state]
      cases s.dom id <;> rfl

theorem onlyDom_displayFieldDetails (field : JSValue) (s : State) :
    OnlyDom s (displayFieldDetails field s).state := by
  unfold displayFieldDetails
  cases s.dom "field-details-container" with
  | none => exact OnlyDom.same s
  | some el =>
    exact onlyDom_bind (onlyDom_bind (onlyDom_bind (onlyDom_bind
      (onlyDom_setTextGuarded _ _ _) (onlyDom_setTextGuarded _ _))
      (onlyDom_setTextGuarded _ _)) (onlyDom_setTextGuarded _ _)) (onlyDom_setTextGuarded _ _)

theorem onlyDom_showFieldDetails (s : State) : OnlyDom s (showFieldDetails s) := by
  unfold showFieldDetails
  split <;> rfl

/-- The single request of `filterSatelliteProvider` while a field is selected. -/
theorem requests_filterSatelliteProvider (provider : JSValue) (s : State)
    (ht : s.selectedField.truthy = true) :
    ∃ id, s.selectedField.get "field_id" = .ok id ∧
      (filterSatelliteProvider provider s).state.requests = s.requests ++
        [getRequest (analyzeUrl id provider) s] := by
  have hget : ∃ id, s.selectedField.get "field_id" = .ok id := by
    cases hsf : s.selectedField <;> simp [hsf, JSValue.truthy, JSValue.get] at ht ⊢
  obtain ⟨id, hid⟩ := hget
  refine ⟨id, hid, ?_⟩
  simp [filterSatelliteProvider, ht, hid, evalThen, Res.state, loadFieldAnalysis,
    fetchWithToken, getRequest]

/-- The single request of `loadFieldDetails` once the field has arrived and been displayed. -/
theorem requests_resumeLoadFieldDetails (fieldId field : JSValue) (s : State)
    (hok : (displayFieldDetails field { s with selectedField := field }).isOk = true) :
    (resumeLoadFieldDetails fieldId (okResponse field) s).requests = s.requests ++
      [getRequest ("/api/fields/" ++ fieldId.toStr ++ "/analyze") s] := by
  have hframe := onlyDom_displayFieldDetails field { s with selectedField := field }
  cases hd : displayFieldDetails field { s with selectedField := field } with
  | throw e s1 => rw [hd] at hok; cases hok
  | ok s1 =>
    rw [hd] at hframe
    have hreq : s1.requests = s.requests := hframe.requests_eq
    have htok : s1.token = s.token := hframe.token_eq
    have hsh := (onlyDom_showFieldDetails (loadFieldAnalysis fieldId .null s1)).requests_eq
    simp only [resumeLoadFieldDetails, okResponse, awaitJson, hd, Res.bind_ok]
    simp only [Bool.not_true, Bool.false_eq_true, if_false]
    rw [hsh]
    simp [loadFieldAnalysis, fetchWithToken, getRequest, analyzeUrl, hreq, htok,
      JSValue.truthy]

/-- C2 (amended): the analysis request of `filterSatelliteProvider(p)`, issued
while a field is selected, is for the selected field and carries `provider=p`
(no query at all when `p` is empty or `null`) and no dates.  The analysis request
issued on selecting a field, that is by `loadFieldDetails` once the field has
arrived and been displayed, carries no query at all, in every state: a provider
chosen earlier is not remembered anywhere. -/
theorem analysis_request_query (s : State) (provider fieldId field : JSValue) :
    (s.selectedField.truthy = true →
      ∃ id, s.selectedField.get "field_id" = .ok id ∧
        (filterSatelliteProvider provider s).state.requests = s.requests ++
          [getRequest ("/api/fields/" ++ id.toStr ++ "/analyze" ++
            (if provider.truthy then "?provider=" ++ provider.toStr else "")) s]) ∧
    ((displayFieldDetails field { s with selectedField := field }).isOk = true →
      (resumeLoadFieldDetails fieldId (okResponse field) s).requests = s.requests ++
        [getRequest ("/api/fields/" ++ fieldId.toStr ++ "/analyze") s]) :=
  ⟨fun ht => requests_filterSatelliteProvider provider s ht,
   fun hok => requests_resumeLoadFieldDetails fieldId field s hok⟩

/-- C2, witness: on the sample page with `f1` selected. -/
theorem analysis_request_query_witness :
    (∃ id, sampleState.selectedField.get "field_id" = .ok id ∧
        (filterSatelliteProvider (.str "hr_data") sampleState).state.requests =
          sampleState.requests ++
          [getRequest ("/api/fields/" ++ id.toStr ++ "/analyze" ++
            (if (JSValue.str "hr_data").truthy then "?provider=" ++ (JSValue.str "hr_data").toStr
              else "")) sampleState]) ∧
    (resumeLoadFieldDetails (.str "f2") (okResponse fieldF2) sampleState).requests =
      sampleState.requests ++ [getRequest ("/api/fields/" ++ (JSValue.str "f2").toStr ++ "/analyze")
        sampleState] :=
  ⟨(analysis_request_query sampleState (.str "hr_data") (.str "f2") fieldF2).1 rfl,
   (analysis_request_query sampleState (.str "hr_data") (.str "f2") fieldF2).2 rfl⟩

/-- C2, counterexample: the provider filter is set to hr_data and field f2 is
then selected; the analysis request issued for f2 has no provider in its query. -/
theorem selection_forgets_provider :
    (run Leaflet.lenient sampleState
        [.filterSatelliteProvider (.str "hr_data"), .loadFieldDetails (.str "f2"),
         .respond 1 (okResponse fieldF2)]).requests.map (fun r => r.url)
      = ["/api/fields/f1/analyze?provider=hr_data", "/api/fields/f2", "/api/fields/f2/analyze"] := by
  decide

end Dashboard

namespace FieldMonitor

theorem KeepsInputs.unchanged (s : State) : KeepsInputs s s := ⟨rfl, rfl, rfl, rfl, fun _ => rfl⟩

theorem KeepsInputs.andThen {s1 s2 s3 : State} (h12 : KeepsInputs s1 s2)
    (h23 : KeepsInputs s2 s3) : KeepsInputs s1 s3 :=
  ⟨h23.1.trans h12.1, h23.2.1.trans h12.2.1, h23.2.2.1.trans h12.2.2.1,
    h23.2.2.2.1.trans h12.2.2.2.1, fun id => (h23.2.2.2.2 id).trans (h12.2.2.2.2 id)⟩

theorem KeepsInputs.dom_some {s1 s2 : State} (h : KeepsInputs s1 s2) {id : String}
    {el : Element} (hel : s1.dom id = some el) :
    ∃ el2, s2.dom id = some el2 ∧ el2.value = el.value := by
  have hv := h.2.2.2.2 id
  rw [hel] at hv
  cases h2 : s2.dom id with
  | none => rw [h2] at hv; cases hv
  | some el2 => rw [h2] at hv; exact ⟨el2, rfl, by simpa using hv⟩

theorem keeps_bind {s : State} {r : Res State} {k : State → Res State}
    (hr : KeepsInputs s r.state) (hk : ∀ s1, KeepsInputs s1 (k s1).state) :
    KeepsInputs s (r.bind k).state := by
  cases r with
  | ok s1 => exact hr.andThen (hk s1)
  | throw e s1 => exact hr

theorem keeps_evalThen {α : Type} {s : State} {e : Except JSError α}
    {k : α → State → Res State} (hk : ∀ a s1, KeepsInputs s1 (k a s1).state) :
    KeepsInputs s (evalThen e k s).state := by
  cases e with
  | error err => exact KeepsInputs.unchanged s
  | ok a => exact hk a s

theorem keeps_set_dom (s : State) (id : String) (el el2 : Element) (hel : s.dom id = some el)
    (hv : el2.value = el.value) : KeepsInputs s { s with dom := s.dom.set id el2 } := by
  refine ⟨rfl, rfl, rfl, rfl, fun j => ?_⟩
  by_cases hj : j = id
  · subst hj; simp [Dom.set, hel, hv]
  · simp [Dom.set, hj]

theorem keeps_setInnerHTML (id m : String) (s : State) :
    KeepsInputs s (setInnerHTML id m s).state := by
  unfold setInnerHTML
  cases h : s.dom id with
  | none => exact KeepsInputs.unchanged s
  | some el => exact keeps_set_dom s id el _ h rfl

theorem keeps_setTextContent (id t : String) (s : State) :
    KeepsInputs s (setTextContent id t s).state := by
  unfold setTextContent
  cases h : s.dom id with
  | none => exact KeepsInputs.unchanged s
  | some el => exact keeps_set_dom s id el _ h rfl

theorem keeps_classAdd (id c : String) (s : State) :
    KeepsInputs s (classAdd id c s).state := by
  unfold classAdd
  cases h : s.dom id with
  | none => exact KeepsInputs.unchanged s
  | some el => exact keeps_set_dom s id el _ h rfl

theorem keeps_classRemove (id c : String) (s : State) :
    KeepsInputs s (classRemove id c s).state := by
  unfold classRemove
  cases h : s.dom id with
  | none => exact KeepsInputs.unchanged s
  | some el => exact keeps_set_dom s id el _ h rfl

theorem keeps_consoleError (label : String) (e : JSError) (s : State) :
    KeepsInputs s (consoleError label e s) := ⟨rfl, rfl, rfl, rfl, fun _ => rfl⟩

theorem keeps_settle {s : State} {r : Res State} (h : KeepsInputs s r.state) :
    KeepsInputs s (settle r) := by
  cases r with
  | ok s1 => exact h
  | throw e s1 => exact h.andThen ⟨rfl, rfl, rfl, rfl, fun _ => rfl⟩

theorem keeps_putText (id : String) (v : Except JSError String) (s : State) :
    KeepsInputs s (putText id v s).state :=
  keeps_evalThen (fun _ _ => keeps_setTextContent _ _ _)

theorem keeps_setStat (id : String) (g : JSValue) (k : String) (s : State) :
    KeepsInputs s (setStat id g k s).state := keeps_putText _ _ _

theorem keeps_displayFieldDetails (field : JSValue) (s : State) :
    KeepsInputs s (displayFieldDetails field s).state :=
  keeps_bind (keeps_bind (keeps_bind (keeps_bind (keeps_putText _ _ _)
    (keeps_putText _ _)) (keeps_putText _ _)) (keeps_putText _ _)) (keeps_putText _ _)

theorem keeps_updateHealthStatus (a : JSValue) (s : State) :
    KeepsInputs s (updateHealthStatus a s).state := by
  unfold updateHealthStatus
  refine keeps_evalThen (fun hs s1 => keeps_bind (keeps_setInnerHTML _ _ _) (fun s2 =>
    keeps_evalThen (fun label s3 => ?_)))
  cases h : s3.dom "health-status" with
  | none => exact KeepsInputs.unchanged s3
  | some el => exact keeps_set_dom s3 _ el _ h rfl

theorem keeps_ndviBlock (a : JSValue) (s : State) : KeepsInputs s (ndviBlock a s).state := by
  unfold ndviBlock
  refine keeps_evalThen (fun ndvi s1 => ?_)
  split
  · exact keeps_bind (keeps_bind (keeps_setStat _ _ _ _) (keeps_setStat _ _ _))
      (keeps_setStat _ _ _)
  · exact KeepsInputs.unchanged _

theorem keeps_eviBlock (a : JSValue) (s : State) : KeepsInputs s (eviBlock a s).state := by
  unfold eviBlock
  refine keeps_evalThen (fun evi s1 => ?_)
  split
  · exact keeps_bind (keeps_bind (keeps_bind (keeps_classRemove _ _ _) (keeps_setStat _ _ _))
      (keeps_setStat _ _ _)) (keeps_setStat _ _ _)
  · exact keeps_classAdd _ _ _

theorem keeps_moistureBlock (a : JSValue) (s : State) :
    KeepsInputs s (moistureBlock a s).state := by
  unfold moistureBlock
  refine keeps_evalThen (fun moisture s1 => ?_)
  split
  · exact keeps_bind (keeps_bind (keeps_bind (keeps_bind (keeps_classRemove _ _ _)
      (keeps_setStat _ _ _)) (keeps_setStat _ _ _)) (keeps_setStat _ _ _))
      (fun s6 => keeps_evalThen (fun _ _ => keeps_setTextContent _ _ _))
  · exact keeps_classAdd _ _ _

theorem keeps_updateIndicesPanel (a : JSValue) (s : State) :
    KeepsInputs s (updateIndicesPanel a s).state :=
  keeps_bind (keeps_bind (keeps_ndviBlock a s) (keeps_eviBlock a)) (keeps_moistureBlock a)

theorem keeps_updateStressPanel (a : JSValue) (s : State) :
    KeepsInputs s (updateStressPanel a s).state :=
  keeps_evalThen (fun _ _ => keeps_setInnerHTML _ _ _)

theorem keeps_updateRecommendations (a : JSValue) (s : State) :
    KeepsInputs s (updateRecommendations a s).state :=
  keeps_evalThen (fun _ _ => keeps_setInnerHTML _ _ _)

theorem keeps_renderAnalysis (a : JSValue) (s : State) :
    KeepsInputs s (renderAnalysis a s).state :=
  keeps_bind (keeps_bind (keeps_bind (keeps_updateHealthStatus a s)
    (keeps_updateIndicesPanel a)) (keeps_updateStressPanel a)) (keeps_updateRecommendations a)

theorem keeps_updateFieldVisualization (f : JSValue) (i : String) (s : State) :
    KeepsInputs s (updateFieldVisualization f i s) :=
  keeps_settle (keeps_setInnerHTML _ _ _)

end FieldMonitor

namespace FieldMonitor

theorem keeps_awaitJson (notOk : Response → String) (o : Outcome) (k : JSValue → State → Res State)
    (hk : ∀ a s1, KeepsInputs s1 (k a s1).state) (s : State) :
    KeepsInputs s (awaitJson notOk o k s).state := by
  unfold awaitJson
  cases o with
  | rejected m => exact KeepsInputs.unchanged s
  | resolved r =>
    simp only
    split
    · exact KeepsInputs.unchanged s
    · cases r.json with
      | error m => exact KeepsInputs.unchanged s
      | ok data => exact hk data s

/-- When the health-status element exists, the body of `loadFieldAnalysis` after the
response, together with its `catch` block, always completes normally. -/
theorem analysis_settles (o : Outcome) (s : State) (hs : Element)
    (hhs : s.dom "health-status" = some hs) :
    ∃ s2, (match awaitJson (fun r => "Failed to analyze field: " ++ r.statusText) o
        renderAnalysis s with
      | .ok s1 => Res.ok s1
      | .throw e s1 => catchLoadFieldAnalysis e s1) = .ok s2 ∧ KeepsInputs s s2 := by
  have hk := keeps_awaitJson (fun r => "Failed to analyze field: " ++ r.statusText) o
    renderAnalysis keeps_renderAnalysis s
  cases hr : awaitJson (fun r => "Failed to analyze field: " ++ r.statusText) o
      renderAnalysis s with
  | ok s1 => rw [hr] at hk; exact ⟨s1, rfl, hk⟩
  | throw e s1 =>
    rw [hr] at hk
    have hk1 : KeepsInputs s s1 := hk
    obtain ⟨el2, hel2, _⟩ := hk1.dom_some hhs
    have hc : (consoleError "Error analyzing field:" e s1).dom "health-status" = some el2 := hel2
    have hkc := hk1.andThen ((keeps_consoleError "Error analyzing field:" e s1).andThen
      (keeps_setInnerHTML "health-status" "<span class=\"text-danger\">Analysis failed</span>"
        (consoleError "Error analyzing field:" e s1)))
    refine ⟨_, ?_, hkc⟩
    simp only [catchLoadFieldAnalysis, setInnerHTML, hc, Res.state]

/-- The trend request that follows an awaited analysis call. -/
theorem trend_after_analysis (fieldId : JSValue) (o : Outcome) (s : State) (sd ed hs : Element)
    (hsd : s.dom "start-date" = some sd) (hed : s.dom "end-date" = some ed)
    (hhs : s.dom "health-status" = some hs) :
    (resumeLoadFieldAnalysis (some fieldId) o s).requests = s.requests ++
      [plainRequest ("/api/fields/" ++ fieldId.toStr ++ "/trend?" ++
        queryString sd.value ed.value)] := by
  obtain ⟨s2, hr, hk2⟩ := analysis_settles o s hs hhs
  have hk3 := hk2.andThen (keeps_updateFieldVisualization fieldId s2.activeIndex s2)
  obtain ⟨sd3, hsd3, hsdv⟩ := hk3.dom_some hsd
  obtain ⟨ed3, hed3, hedv⟩ := hk3.dom_some hed
  simp only [resumeLoadFieldAnalysis, hr, loadFieldRest, loadFieldTrend, inputValue, hsd3, hed3,
    fetchPlain, hk3.1, hsdv, hedv, plainRequest]

/-- Once the field has arrived and been displayed, `loadField` is suspended in
its awaited `loadFieldAnalysis` call, whose request is out. -/
theorem resumeLoadField_shape (fieldId field : JSValue) (s : State) (sd ed hs : Element)
    (hsd : s.dom "start-date" = some sd) (hed : s.dom "end-date" = some ed)
    (hhs : s.dom "health-status" = some hs)
    (hdisp : (displayFieldDetails field { s with currentField := field }).isOk = true) :
    ∃ s2, KeepsInputs { s with currentField := field } s2 ∧
      resumeLoadField fieldId (okResponse field) s =
        fetchPlain ("/api/fields/" ++ fieldId.toStr ++ "/analyze?" ++
          queryString sd.value ed.value) (.loadFieldAnalysis (some fieldId)) s2 := by
  have hk := keeps_displayFieldDetails field { s with currentField := field }
  cases hd : displayFieldDetails field { s with currentField := field } with
  | throw e s1 => rw [hd] at hdisp; cases hdisp
  | ok s1 =>
    rw [hd] at hk
    replace hk : KeepsInputs { s with currentField := field } s1 := hk
    obtain ⟨sd1, hsd1, hsdv⟩ := KeepsInputs.dom_some hk hsd
    obtain ⟨ed1, hed1, hedv⟩ := KeepsInputs.dom_some hk hed
    obtain ⟨hs1, hhs1, _⟩ := KeepsInputs.dom_some hk hhs
    refine ⟨(setInnerHTML "health-status" loadingHtml s1).state,
      hk.andThen (keeps_setInnerHTML _ _ _), ?_⟩
    simp [resumeLoadField, okResponse, awaitJson, hd, loadFieldAnalysis, inputValue, hsd1,
      hed1, setInnerHTML, hhs1, hsdv, hedv, Res.state]

/-- C3 (amended): the triggers of dashboard.js issue an analysis request and
no trend request: a provider change while a field is selected
(`filterSatelliteProvider`) issues exactly one request, the analysis request,
and so does a field selection (`loadFieldDetails`) once the field has arrived
and been displayed.  A field selection through `loadField` of field-monitor.js
issues, once the field has arrived and been displayed, the analysis request for
the dates in the date inputs; and when the response to that request arrives,
whatever it is, the trend request for the same field and dates follows. -/
theorem requests_of_triggers (provider fieldId field : JSValue) (o : Outcome)
    (d : Dashboard.State) (s : State) (sd ed hs : Element)
    (hsel : d.selectedField.truthy = true)
    (hdd : (Dashboard.displayFieldDetails field { d with selectedField := field }).isOk = true)
    (hsd : s.dom "start-date" = some sd) (hed : s.dom "end-date" = some ed)
    (hhs : s.dom "health-status" = some hs)
    (hwf : WellFormed s)
    (hdisp : (displayFieldDetails field { s with currentField := field }).isOk = true) :
    (∃ id, d.selectedField.get "field_id" = .ok id ∧
      (Dashboard.filterSatelliteProvider provider d).state.requests = d.requests ++
        [Dashboard.getRequest (Dashboard.analyzeUrl id provider) d]) ∧
    (Dashboard.resumeLoadFieldDetails fieldId (okResponse field) d).requests = d.requests ++
      [Dashboard.getRequest ("/api/fields/" ++ fieldId.toStr ++ "/analyze") d] ∧
    (resumeLoadField fieldId (okResponse field) s).requests = s.requests ++
      [plainRequest ("/api/fields/" ++ fieldId.toStr ++ "/analyze?" ++
        queryString sd.value ed.value)] ∧
    (step (resumeLoadField fieldId (okResponse field) s) (.respond s.requests.length o)).requests
      = s.requests ++
      [plainRequest ("/api/fields/" ++ fieldId.toStr ++ "/analyze?" ++
        queryString sd.value ed.value),
       plainRequest ("/api/fields/" ++ fieldId.toStr ++ "/trend?" ++
        queryString sd.value ed.value)] := by
  refine ⟨Dashboard.requests_filterSatelliteProvider provider d hsel,
    Dashboard.requests_resumeLoadFieldDetails fieldId field d hdd, ?_⟩
  obtain ⟨s2, hk, hshape⟩ := resumeLoadField_shape fieldId field s sd ed hs hsd hed hhs hdisp
  have hreq : s2.requests = s.requests := hk.1
  have hpend : s2.pending = s.pending := hk.2.1
  obtain ⟨sd2, hsd2, hsdv⟩ := KeepsInputs.dom_some hk hsd
  obtain ⟨ed2, hed2, hedv⟩ := KeepsInputs.dom_some hk hed
  obtain ⟨hs2, hhs2, _⟩ := KeepsInputs.dom_some hk hhs
  have hn : ∀ p ∈ s.pending, p.1 ≠ s.requests.length := fun p hp => Nat.ne_of_lt (hwf p hp)
  have hfind : s.pending.find? (fun p => p.1 == s.requests.length) = none := by
    rw [List.find?_eq_none]
    intro p hp
    simpa using hn p hp
  have hfilter : s.pending.filter (fun p => p.1 != s.requests.length) = s.pending := by
    rw [List.filter_eq_self]
    intro p hp
    simpa using hn p hp
  rw [hshape]
  constructor
  · simp [fetchPlain, hreq, plainRequest]
  · have ht := trend_after_analysis fieldId o
      { (fetchPlain ("/api/fields/" ++ fieldId.toStr ++ "/analyze?" ++
          queryString sd.value ed.value) (.loadFieldAnalysis (some fieldId)) s2) with
        pending := s.pending } sd2 ed2 hs2 hsd2 hed2 hhs2
    simp only [step, fetchPlain, hreq, hpend, List.find?_append, hfind, List.filter_append,
      hfilter, resume]
    simp only [fetchPlain, hreq, hsdv, hedv] at ht
    simpa [plainRequest] using ht

/-- C3, witness: on the sample pages; the analysis response is a server error. -/
theorem requests_of_triggers_witness :
    (step (resumeLoadField (.str "f1") (okResponse fieldF1) sampleState)
        (.respond 0 (failResponse 500 "Internal Server Error"))).requests.map (fun r => r.url)
      = ["/api/fields/f1/analyze?start_date=2024-01-01&end_date=2024-03-31",
         "/api/fields/f1/trend?start_date=2024-01-01&end_date=2024-03-31"] := by
  have h := requests_of_triggers (.str "hr_data") (.str "f1") fieldF1
    (failResponse 500 "Internal Server Error") Dashboard.sampleState sampleState
    { blankElement with value := "2024-01-01" } { blankElement with value := "2024-03-31" }
    blankElement rfl rfl rfl rfl rfl (by intro p hp; cases hp) rfl
  refine (congrArg (List.map (fun r => r.url)) h.2.2.2).trans ?_
  decide

/-- C3, counterexample: a provider change while f1 is selected issues the
analysis request only; no trend request goes out, before or after the response. -/
theorem provider_change_issues_no_trend_request :
    (Dashboard.run Leaflet.lenient Dashboard.sampleState
        [.filterSatelliteProvider (.str "hr_data"),
         .respond 0 (okResponse (Dashboard.analysisOf "hr_data" "good"))]).requests.map
        (fun r => r.url)
      = ["/api/fields/f1/analyze?provider=hr_data"] := by
  decide

end FieldMonitor

namespace FieldMonitor

/-- C4: handling an index-selector change issues no backend request in any state
and for any index name.  It leaves the requests, the waiting continuations, the
current field, the charts and every element other than the dropdown label and
the visualization container unchanged, so whatever the last analysis wrote stays
as it was.  Where the dropdown exists it sets the active index and the label to
the upper-cased name, and where a field is loaded and the container exists it
re-renders the placeholder with the upper-cased name. -/
theorem index_change_issues_no_request (index : String) (s : State) :
    (step s (.indexOptionClick index)).requests = s.requests ∧
    (step s (.indexOptionClick index)).pending = s.pending ∧
    (step s (.indexOptionClick index)).currentField = s.currentField ∧
    (step s (.indexOptionClick index)).charts = s.charts ∧
    (∀ id, id ≠ "indexDropdown" → id ≠ "field-map" →
      (step s (.indexOptionClick index)).dom id = s.dom id) ∧
    (∀ el, s.dom "indexDropdown" = some el →
      (step s (.indexOptionClick index)).activeIndex = index ∧
      (step s (.indexOptionClick index)).dom "indexDropdown" =
        some { el with content := .text (toUpperCase index) }) ∧
    (∀ el m, s.dom "indexDropdown" = some el → s.dom "field-map" = some m →
      s.currentField.truthy = true →
      (step s (.indexOptionClick index)).dom "field-map" =
        some { m with content := .html (visualizationHtml (toUpperCase index)) }) := by
  cases hd : s.dom "indexDropdown" with
  | none =>
    simp [step, indexOptionClick, setTextContent, hd, Res.bind, settle]
  | some el =>
    cases ht : s.currentField.truthy with
    | false =>
      simp [step, indexOptionClick, setTextContent, hd, Res.bind, settle, ht, Dom.set]
      intro id h1 _ h3
      exact absurd h3 h1
    | true =>
      have hget : ∃ fid, s.currentField.get "field_id" = .ok fid := by
        cases hcf : s.currentField <;> simp [hcf, JSValue.truthy, JSValue.get] at ht ⊢
      obtain ⟨fid, hfid⟩ := hget
      cases hm : s.dom "field-map" with
      | none =>
        simp [step, indexOptionClick, setTextContent, hd, Res.bind, settle, ht, Dom.set, hfid,
          evalThen, updateFieldVisualization, setInnerHTML, hm]
        intro id h1 _ h3
        exact absurd h3 h1
      | some m =>
        simp [step, indexOptionClick, setTextContent, hd, Res.bind, settle, ht, Dom.set, hfid,
          evalThen, updateFieldVisualization, setInnerHTML, hm, visualizationHtml]
        intro id h1 h2
        simp [h1, h2]

/-- C4, witness: switching to EVI on a page where field f1 is loaded. -/
theorem index_change_issues_no_request_witness :
    (step loadedState (.indexOptionClick "evi")).requests = [] ∧
    (step loadedState (.indexOptionClick "evi")).activeIndex = "evi" ∧
    (step loadedState (.indexOptionClick "evi")).dom "indexDropdown" =
      some { blankElement with content := .text "EVI" } ∧
    (step loadedState (.indexOptionClick "evi")).dom "field-map" =
      some { blankElement with content := .html (visualizationHtml "EVI") } :=
  ⟨(index_change_issues_no_request "evi" loadedState).1,
   ((index_change_issues_no_request "evi" loadedState).2.2.2.2.2.1 blankElement rfl).1,
   ((index_change_issues_no_request "evi" loadedState).2.2.2.2.2.1 blankElement rfl).2,
   (index_change_issues_no_request "evi" loadedState).2.2.2.2.2.2 blankElement blankElement
     rfl rfl rfl⟩

end FieldMonitor

namespace Dashboard

/-- C5: for every provider value, `filterSatelliteProvider` called while no field
is selected (`selectedField` is `null`, as it is after `backToList`, or any
other falsy value) completes normally and leaves the whole state unchanged; while
a field is selected it completes normally and issues exactly one request, the
analysis request for the selected field's identifier with that provider in the
query, changing nothing else but the list of waiting continuations. -/
theorem filterSatelliteProvider_guard (provider : JSValue) (s : State) :
    (s.selectedField.truthy = false → filterSatelliteProvider provider s = .ok s) ∧
    filterSatelliteProvider provider (backToList s) = .ok (backToList s) ∧
    (s.selectedField.truthy = true →
      ∃ id, s.selectedField.get "field_id" = .ok id ∧
        filterSatelliteProvider provider s = .ok
          { s with
            requests := s.requests ++ [getRequest (analyzeUrl id provider) s]
            pending := s.pending ++ [(s.requests.length, .loadFieldAnalysis)] }) ∧
    (∀ id p : String, p ≠ "" →
      analyzeUrl (.str id) (.str p) = "/api/fields/" ++ id ++ "/analyze?provider=" ++ p) := by
  refine ⟨?_, ?_, ?_, ?_⟩
  · intro h
    simp [filterSatelliteProvider, h]
  · simp [filterSatelliteProvider, backToList, JSValue.truthy]
  · intro ht
    have hget : ∃ id, s.selectedField.get "field_id" = .ok id := by
      cases hsf : s.selectedField <;> simp [hsf, JSValue.truthy, JSValue.get] at ht ⊢
    obtain ⟨id, hid⟩ := hget
    refine ⟨id, hid, ?_⟩
    simp [filterSatelliteProvider, ht, hid, evalThen, loadFieldAnalysis, fetchWithToken,
      getRequest]
  · intro id p hp
    have hlit : ("/analyze?provider=" : String) = "/analyze" ++ "?provider=" := by decide
    have hne : (p != "") = true := by simpa using hp
    simp only [analyzeUrl, JSValue.truthy, JSValue.toStr, hne, if_true]
    rw [hlit]
    simp only [String.append_assoc]

/-- C5, witness: hr_data on the sample page, before and after `backToList`. -/
theorem filterSatelliteProvider_guard_witness :
    filterSatelliteProvider (.str "hr_data") (backToList sampleState) =
      .ok (backToList sampleState) ∧
    (∃ id, sampleState.selectedField.get "field_id" = .ok id ∧
        filterSatelliteProvider (.str "hr_data") sampleState = .ok
          { sampleState with
            requests := sampleState.requests ++
              [getRequest (analyzeUrl id (.str "hr_data")) sampleState]
            pending := sampleState.pending ++
              [(sampleState.requests.length, .loadFieldAnalysis)] }) ∧
    analyzeUrl (.str "f1") (.str "hr_data") = "/api/fields/" ++ "f1" ++ "/analyze?provider=" ++
      "hr_data" :=
  ⟨(filterSatelliteProvider_guard (.str "hr_data") sampleState).2.1,
   (filterSatelliteProvider_guard (.str "hr_data") sampleState).2.2.1 rfl,
   (filterSatelliteProvider_guard (.str "hr_data") sampleState).2.2.2 "f1" "hr_data"
     (by decide)⟩

end Dashboard

namespace Dashboard

/-- C7 (amended): when the backend call of `loadFields` does not return success,
the error is surfaced by replacing the content of the fields-list element with
the alert, so the cards displayed before are overwritten; the map with the
boundaries drawn before, the selected field and every other element are
retained unchanged, and no request is issued. -/
theorem loadFields_failure (L : Leaflet) (o : Outcome) (msg : String) (s : State)
    (hfail : o.failure "Failed to load fields" = some msg) :
    (resumeLoadFields L o s).map = s.map ∧
    (resumeLoadFields L o s).selectedField = s.selectedField ∧
    (resumeLoadFields L o s).requests = s.requests ∧
    (resumeLoadFields L o s).console = s.console ++ ["Error loading fields: " ++ msg] ∧
    (∀ id, id ≠ "fields-list" → (resumeLoadFields L o s).dom id = s.dom id) ∧
    (∀ el, s.dom "fields-list" = some el →
      (resumeLoadFields L o s).dom "fields-list" =
        some { el with content := .html (loadFieldsAlert msg) }) := by
  have hthrow : ∃ e, awaitJson (fun _ => "Failed to load fields") o
      (fun fields s => (displayFields fields s).bind (addFieldsToMap L fields)) s = .throw e s ∧
      e.message = msg := by
    cases o with
    | rejected m =>
      refine ⟨.typeError m, rfl, ?_⟩
      simpa [Outcome.failure] using hfail
    | resolved r =>
      cases hok : r.ok with
      | true => simp [Outcome.failure, hok] at hfail
      | false =>
        refine ⟨.error "Failed to load fields", ?_, ?_⟩
        · simp [awaitJson, hok]
        · simpa [Outcome.failure, hok] using hfail
  obtain ⟨e, he, hmsg⟩ := hthrow
  cases hfl : s.dom "fields-list" with
  | none =>
    simp [resumeLoadFields, he, catchLoadFields, setInnerHTML, consoleError, hfl, settle, hmsg]
  | some el =>
    simp [resumeLoadFields, he, catchLoadFields, setInnerHTML, consoleError, hfl, settle, hmsg,
      Dom.set, loadFieldsAlert]
    intro id hid hid2
    exact absurd hid2 hid

/-- C7, witness: a server error on the sample page. -/
theorem loadFields_failure_witness :
    (resumeLoadFields Leaflet.lenient (failResponse 500 "Internal Server Error")
        sampleState).map = sampleState.map ∧
    (resumeLoadFields Leaflet.lenient (failResponse 500 "Internal Server Error")
        sampleState).dom "fields-list" =
      some { blankElement with content := .html (loadFieldsAlert "Failed to load fields") } := by
  have h := loadFields_failure Leaflet.lenient (failResponse 500 "Internal Server Error")
    "Failed to load fields" sampleState rfl
  exact ⟨h.1, h.2.2.2.2.2 blankElement rfl⟩

/-- C7, counterexample: the field list is loaded and displayed, then a refresh
gets a server error.  The fields-list element, which showed the two cards, now
shows the alert only; the drawn boundary is still on the map. -/
theorem failed_refresh_overwrites_list :
    (run Leaflet.lenient listedState
        [.loadFields, .respond 1 (failResponse 500 "Internal Server Error")]).dom "fields-list"
      = some { blankElement with content := .html (loadFieldsAlert "Failed to load fields") } ∧
    (run Leaflet.lenient listedState
        [.loadFields, .respond 1 (failResponse 500 "Internal Server Error")]).dom "fields-list"
      ≠ listedState.dom "fields-list" ∧
    polygonCount listedState = 1 ∧
    polygonCount (run Leaflet.lenient listedState
        [.loadFields, .respond 1 (failResponse 500 "Internal Server Error")]) = 1 := by
  decide

end Dashboard

namespace FieldMonitor

theorem currentField_loadFieldTrend (f : JSValue) (s : State) :
    (loadFieldTrend f s).currentField = s.currentField := by
  have hc : ∀ e, (settle (catchLoadFieldTrend e s)).currentField = s.currentField := fun e =>
    (keeps_settle ((keeps_consoleError "Error loading field trend:" e s).andThen
      (keeps_setInnerHTML _ _ _))).2.2.1
  unfold loadFieldTrend
  cases inputValue "start-date" s with
  | error e => exact hc e
  | ok sd =>
    cases inputValue "end-date" s with
    | error e => exact hc e
    | ok ed => rfl

theorem currentField_loadFieldRest (f : JSValue) (r : Res State) :
    (loadFieldRest f r).currentField = r.state.currentField := by
  cases r with
  | ok s =>
    simp only [loadFieldRest, Res.state]
    rw [currentField_loadFieldTrend]
    exact (keeps_updateFieldVisualization f s.activeIndex s).2.2.1
  | throw e s => rfl

theorem currentField_catchLoadFieldAnalysis (e : JSError) (s : State) :
    (catchLoadFieldAnalysis e s).state.currentField = s.currentField :=
  ((keeps_consoleError "Error analyzing field:" e s).andThen (keeps_setInnerHTML _ _ _)).2.2.1

theorem currentField_resumeLoadField (fieldId field : JSValue) (s : State) :
    (resumeLoadField fieldId (okResponse field) s).currentField = field := by
  have hk := keeps_displayFieldDetails field { s with currentField := field }
  have hcf := hk.2.2.1
  simp only [resumeLoadField, okResponse, awaitJson, Bool.not_true, Bool.false_eq_true, if_false]
  cases hd : displayFieldDetails field { s with currentField := field } with
  | throw e s1 => rw [hd] at hcf; exact hcf
  | ok s1 =>
    rw [hd] at hcf
    replace hcf : s1.currentField = field := hcf
    simp only [loadFieldAnalysis]
    cases inputValue "start-date" s1 with
    | error e =>
      simp only
      rw [currentField_loadFieldRest, currentField_catchLoadFieldAnalysis, hcf]
    | ok sd =>
      cases inputValue "end-date" s1 with
      | error e =>
        simp only
        rw [currentField_loadFieldRest, currentField_catchLoadFieldAnalysis, hcf]
      | ok ed =>
        have hks := keeps_setInnerHTML "health-status" loadingHtml s1
        cases hset : setInnerHTML "health-status" loadingHtml s1 with
        | throw e s2 =>
          rw [hset] at hks
          simp only
          rw [currentField_loadFieldRest, currentField_catchLoadFieldAnalysis]
          exact hks.2.2.1.trans hcf
        | ok s2 =>
          rw [hset] at hks
          exact hks.2.2.1.trans hcf

end FieldMonitor

namespace Dashboard

theorem selectedField_resumeLoadFieldDetails (fieldId field : JSValue) (s : State) :
    (resumeLoadFieldDetails fieldId (okResponse field) s).selectedField = field := by
  have hk := onlyDom_displayFieldDetails field { s with selectedField := field }
  simp only [resumeLoadFieldDetails, okResponse, awaitJson, Bool.not_true, Bool.false_eq_true,
    if_false]
  cases hd : displayFieldDetails field { s with selectedField := field } with
  | throw e s1 =>
    rw [hd] at hk
    exact hk.selectedField_eq
  | ok s1 =>
    rw [hd] at hk
    simp only [Res.bind]
    rw [(onlyDom_showFieldDetails _).selectedField_eq]
    exact hk.selectedField_eq

/-- C8 (amended): selecting a field by identifier does not consult the loaded
list: `loadFieldDetails(id)` requests `/api/fields/{id}` from the backend.  For
every identifier and every successful response the selected field becomes the
response body; when the call does not return success the selection fails with the
alert "Failed to load field details: ..", and the selected field and everything
else but the console and the alerts is left unchanged.  The same holds for
`loadField` of field-monitor.js and its `currentField`. -/
theorem selection_asks_backend (fieldId field : JSValue) (o : Outcome) (msg : String)
    (s : State) (m : FieldMonitor.State)
    (hfail : o.failure "Failed to load field details" = some msg) :
    (loadFieldDetails fieldId s).requests =
      s.requests ++ [getRequest ("/api/fields/" ++ fieldId.toStr) s] ∧
    (resumeLoadFieldDetails fieldId (okResponse field) s).selectedField = field ∧
    resumeLoadFieldDetails fieldId o s =
      { s with
        console := s.console ++ ["Error loading field details: " ++ msg]
        alerts := s.alerts ++ ["Failed to load field details: " ++ msg] } ∧
    (FieldMonitor.resumeLoadField fieldId (okResponse field) m).currentField = field ∧
    ∃ e : JSError, FieldMonitor.resumeLoadField fieldId o m =
      { m with console := m.console ++
          ["Error loading field: " ++ e.message, "Failed to load field details"] } := by
  refine ⟨rfl, selectedField_resumeLoadFieldDetails fieldId field s, ?_,
    FieldMonitor.currentField_resumeLoadField fieldId field m, ?_⟩
  · cases o with
    | rejected r =>
      simp only [Outcome.failure, Option.some.injEq] at hfail
      simp [resumeLoadFieldDetails, awaitJson, catchLoadFieldDetails, consoleError,
        JSError.message, hfail]
    | resolved r =>
      cases hok : r.ok with
      | true => simp [Outcome.failure, hok] at hfail
      | false =>
        simp only [Outcome.failure, hok, Bool.false_eq_true, if_false, Option.some.injEq] at hfail
        simp [resumeLoadFieldDetails, awaitJson, catchLoadFieldDetails, consoleError,
          JSError.message, hfail, hok]
  · cases o with
    | rejected r =>
      exact ⟨JSError.typeError r, by
        simp [FieldMonitor.resumeLoadField, awaitJson, FieldMonitor.catchLoadField,
          FieldMonitor.consoleError]⟩
    | resolved r =>
      cases hok : r.ok with
      | true => simp [Outcome.failure, hok] at hfail
      | false =>
        exact ⟨JSError.error ("Failed to fetch field: " ++ r.statusText), by
          simp [FieldMonitor.resumeLoadField, awaitJson, FieldMonitor.catchLoadField,
            FieldMonitor.consoleError, hok]⟩

/-- C8, witness: a "not found" answer on the sample pages. -/
theorem selection_asks_backend_witness :
    resumeLoadFieldDetails (.str "f9") (failResponse 404 "Not Found") sampleState =
      { sampleState with
        console := sampleState.console ++
          ["Error loading field details: " ++ "Failed to load field details"]
        alerts := sampleState.alerts ++
          ["Failed to load field details: " ++ "Failed to load field details"] } ∧
    (resumeLoadFieldDetails (.str "f9") (okResponse fieldF9) sampleState).selectedField
      = fieldF9 :=
  ⟨(selection_asks_backend (.str "f9") fieldF9 (failResponse 404 "Not Found")
      "Failed to load field details" sampleState FieldMonitor.sampleState rfl).2.2.1,
   (selection_asks_backend (.str "f9") fieldF9 (failResponse 404 "Not Found")
      "Failed to load field details" sampleState FieldMonitor.sampleState rfl).2.1⟩

/-- C8, counterexample: the list `[f2, f1]` is loaded.  Selecting f1, which is
in the list, makes the selected field the body of the detail response (with its
crop type), not the list entry (which has none); selecting f9, which is not in
the list, succeeds when the backend answers: the selected field changes from f1
to f9 and no error is raised. -/
theorem selection_ignores_loaded_list :
    selectedCrop (run Leaflet.lenient listedState
        [.loadFieldDetails (.str "f1"), .respond 1 (okResponse detailF1)]) = "wheat" ∧
    fieldF1.get "crop_type" = .ok .undefined ∧
    selectedId listedState = "f1" ∧
    selectedId (run Leaflet.lenient listedState
        [.loadFieldDetails (.str "f9"), .respond 1 (okResponse fieldF9)]) = "f9" ∧
    (run Leaflet.lenient listedState
        [.loadFieldDetails (.str "f9"), .respond 1 (okResponse fieldF9)]).alerts = [] := by
  refine ⟨by decide, rfl, by decide, by decide, by decide⟩

end Dashboard

namespace Dashboard

theorem renderInto_isOk (id : String) (m : Except JSError String) (s : State) :
    (renderInto id m s).isOk = ((s.dom id).isNone || m.isOk) := by
  unfold renderInto
  cases s.dom id with
  | none => rfl
  | some el => cases m <;> rfl

theorem indexCard_isOk (title : String) (v : JSValue) :
    (indexCard title v).isOk = (!v.isDefined || v.isNumber) := by
  cases v <;> rfl

theorem indicesHtml_isOk (analysis : JSValue) :
    (indicesHtml analysis).isOk = scalarIndices analysis := by
  unfold indicesHtml scalarIndices
  cases hg : analysis.get "indices" with
  | error e => rfl
  | ok indices =>
    cases ht : indices.truthy with
    | false => simp [ht, Except.isOk, Except.toBool, bind, Except.bind, pure, Except.pure]
    | true =>
      have hget : ∀ k, ∃ v, indices.get k = .ok v := by
        intro k
        cases hi : indices <;> simp [hi, JSValue.truthy, JSValue.get] at ht ⊢
      obtain ⟨v1, h1⟩ := hget "ndvi"
      obtain ⟨v2, h2⟩ := hget "evi"
      obtain ⟨v3, h3⟩ := hget "moisture"
      have c1 := indexCard_isOk "NDVI" v1
      have c2 := indexCard_isOk "EVI" v2
      have c3 := indexCard_isOk "Moisture" v3
      simp only [ht, h1, h2, h3, bind, Except.bind, pure, Except.pure, if_true, List.all_cons,
        List.all_nil, Bool.and_true, Bool.not_true, Bool.false_or] 
      cases hc1 : indexCard "NDVI" v1 <;> rw [hc1] at c1 <;>
        cases hc2 : indexCard "EVI" v2 <;> rw [hc2] at c2 <;>
        cases hc3 : indexCard "Moisture" v3 <;> rw [hc3] at c3 <;>
        simp [Except.isOk, Except.toBool] at c1 c2 c3 ⊢ <;> simp [*]

end Dashboard

namespace FieldMonitor

theorem succeeds_bind {s : State} {r : Res State} {k : State → Res State}
    (hr : Succeeds s r) (hk : ∀ s1, KeepsInputs s s1 → Succeeds s1 (k s1)) :
    Succeeds s (r.bind k) := by
  obtain ⟨s1, rfl, h1⟩ := hr
  obtain ⟨s2, h2, h12⟩ := hk s1 h1
  exact ⟨s2, h2, h1.andThen h12⟩

theorem succeeds_of_isOk {s : State} {r : Res State} (h : r.isOk = true)
    (hk : KeepsInputs s r.state) : Succeeds s r := by
  cases r with
  | ok s1 => exact ⟨s1, rfl, hk⟩
  | throw e s1 => cases h

theorem succeeds_setTextContent (id t : String) (s : State) (h : ∃ el, s.dom id = some el) :
    Succeeds s (setTextContent id t s) := by
  obtain ⟨el, hel⟩ := h
  exact succeeds_of_isOk (by simp [setTextContent, hel, Res.isOk]) (keeps_setTextContent id t s)

theorem succeeds_classAdd (id c : String) (s : State) (h : ∃ el, s.dom id = some el) :
    Succeeds s (classAdd id c s) := by
  obtain ⟨el, hel⟩ := h
  exact succeeds_of_isOk (by simp [classAdd, hel, Res.isOk]) (keeps_classAdd id c s)

theorem succeeds_classRemove (id c : String) (s : State) (h : ∃ el, s.dom id = some el) :
    Succeeds s (classRemove id c s) := by
  obtain ⟨el, hel⟩ := h
  exact succeeds_of_isOk (by simp [classRemove, hel, Res.isOk]) (keeps_classRemove id c s)

theorem isStats_get (v : JSValue) (h : isStats v = true) :
    (∃ n, v.get "mean" = .ok (.num n)) ∧ (∃ n, v.get "min" = .ok (.num n)) ∧
      (∃ n, v.get "max" = .ok (.num n)) := by
  simp only [isStats, List.all_cons, List.all_nil, Bool.and_true, Bool.and_eq_true] at h
  obtain ⟨h1, h2, h3⟩ := h
  refine ⟨?_, ?_, ?_⟩
  · cases hg : v.get "mean" with
    | error e => rw [hg] at h1; cases h1
    | ok x => rw [hg] at h1; cases x <;> simp [JSValue.isNumber] at h1 ⊢
  · cases hg : v.get "min" with
    | error e => rw [hg] at h2; cases h2
    | ok x => rw [hg] at h2; cases x <;> simp [JSValue.isNumber] at h2 ⊢
  · cases hg : v.get "max" with
    | error e => rw [hg] at h3; cases h3
    | ok x => rw [hg] at h3; cases x <;> simp [JSValue.isNumber] at h3 ⊢

theorem succeeds_setStat (id : String) (g : JSValue) (k : String) (s : State)
    (h : ∃ el, s.dom id = some el) (hg : ∃ n, g.get k = .ok (.num n)) :
    Succeeds s (setStat id g k s) := by
  obtain ⟨n, hn⟩ := hg
  simp only [setStat, putText, hn, Except.bind, JSValue.callToFixed, evalThen]
  exact succeeds_setTextContent id _ s h

theorem present_of_keeps {s s1 : State} (hk : KeepsInputs s s1) {id : String}
    (h : ∃ el, s.dom id = some el) : ∃ el, s1.dom id = some el := by
  obtain ⟨el, hel⟩ := h
  obtain ⟨el2, h2, _⟩ := hk.dom_some hel
  exact ⟨el2, h2⟩

/-- The three statistics of one index are written without an exception. -/
theorem succeeds_three (a b c : String) (g : JSValue) (s : State) (hg : isStats g = true)
    (ha : ∃ el, s.dom a = some el) (hb : ∃ el, s.dom b = some el)
    (hc : ∃ el, s.dom c = some el) (r : Res State) (hr : Succeeds s r) :
    Succeeds s (((r.bind (setStat a g "mean")).bind (setStat b g "min")).bind
      (setStat c g "max")) := by
  obtain ⟨h1, h2, h3⟩ := isStats_get g hg
  refine succeeds_bind (succeeds_bind (succeeds_bind hr ?_) ?_) ?_
  · intro s1 hk
    exact succeeds_setStat a g "mean" s1 (present_of_keeps hk ha) h1
  · intro s1 hk
    exact succeeds_setStat b g "min" s1 (present_of_keeps hk hb) h2
  · intro s1 hk
    exact succeeds_setStat c g "max" s1 (present_of_keeps hk hc) h3

end FieldMonitor

namespace FieldMonitor

theorem get_ok_of_get_ok {v x : JSValue} {k : String} (h : v.get k = .ok x) (k2 : String) :
    ∃ y, v.get k2 = .ok y := by
  cases v <;> simp [JSValue.get] at h ⊢

theorem statIndices_get (analysis : JSValue) (h : statIndices analysis = true) (k : String)
    (hk : k ∈ ["ndvi", "evi", "moisture"]) :
    ∃ v, analysis.get k = .ok v ∧ (v.truthy = false ∨ isStats v = true) := by
  simp only [statIndices, List.all_eq_true] at h
  have hv := h k hk
  cases hg : analysis.get k with
  | error e => rw [hg] at hv; cases hv
  | ok v =>
    rw [hg] at hv
    refine ⟨v, rfl, ?_⟩
    cases ht : v.truthy with
    | false => exact Or.inl rfl
    | true => simpa [ht] using hv

/-- On an analysis whose indices are absent or carry numeric mean, min and max,
and on a page that has the elements, `updateIndicesPanel` completes normally. -/
theorem updateIndicesPanel_succeeds (analysis : JSValue) (s : State)
    (hshape : statIndices analysis = true)
    (hpres : ∀ id ∈ indexElements, ∃ el, s.dom id = some el) :
    Succeeds s (updateIndicesPanel analysis s) := by
  obtain ⟨ndvi, hn, hnd⟩ := statIndices_get analysis hshape "ndvi" (by simp)
  obtain ⟨evi, he, hev⟩ := statIndices_get analysis hshape "evi" (by simp)
  obtain ⟨moisture, hm, hmo⟩ := statIndices_get analysis hshape "moisture" (by simp)
  obtain ⟨status, hst⟩ := get_ok_of_get_ok hn "moisture_status"
  have hp : ∀ id, id ∈ indexElements → ∀ s1, KeepsInputs s s1 → ∃ el, s1.dom id = some el :=
    fun id hid s1 hk => present_of_keeps hk (hpres id hid)
  simp only [updateIndicesPanel, ndviBlock, eviBlock, moistureBlock, hn, he, hm, hst, evalThen]
  refine succeeds_bind (succeeds_bind ?_ (fun s1 hk1 => ?_)) (fun s2 hk12 => ?_)
  · rcases hnd with hf | hs
    · simp only [hf, Bool.false_eq_true, if_false]
      exact ⟨s, rfl, KeepsInputs.unchanged s⟩
    · obtain ⟨h1, h2, h3⟩ := isStats_get ndvi hs
      cases ht : ndvi.truthy with
      | false =>
        simp only [Bool.false_eq_true, if_false]
        exact ⟨s, rfl, KeepsInputs.unchanged s⟩
      | true =>
        simp only [if_true]
        refine succeeds_bind (succeeds_bind ?_ ?_) ?_
        · exact succeeds_setStat _ _ _ s (hpres _ (by simp [indexElements])) h1
        · intro s3 hk3
          exact succeeds_setStat _ _ _ s3 (hp _ (by simp [indexElements]) s3 hk3) h2
        · intro s3 hk3
          exact succeeds_setStat _ _ _ s3 (hp _ (by simp [indexElements]) s3 hk3) h3
  · cases ht : evi.truthy with
    | false =>
      simp only [eviBlock, he, evalThen, ht, Bool.false_eq_true, if_false]
      exact succeeds_classAdd _ _ s1 (hp _ (by simp [indexElements]) s1 hk1)
    | true =>
      have hs : isStats evi = true := by
        rcases hev with hf | hs
        · rw [ht] at hf; cases hf
        · exact hs
      simp only [eviBlock, he, evalThen, ht, if_true]
      exact succeeds_three _ _ _ evi s1 hs (hp _ (by simp [indexElements]) s1 hk1)
        (hp _ (by simp [indexElements]) s1 hk1) (hp _ (by simp [indexElements]) s1 hk1) _
        (succeeds_classRemove _ _ s1 (hp _ (by simp [indexElements]) s1 hk1))
  · cases ht : moisture.truthy with
    | false =>
      simp only [moistureBlock, hm, hst, evalThen, ht, Bool.false_eq_true, if_false]
      exact succeeds_classAdd _ _ s2 (hp _ (by simp [indexElements]) s2 hk12)
    | true =>
      have hs : isStats moisture = true := by
        rcases hmo with hf | hs
        · rw [ht] at hf; cases hf
        · exact hs
      simp only [moistureBlock, hm, hst, evalThen, ht, if_true]
      refine succeeds_bind (succeeds_three _ _ _ moisture s2 hs
        (hp _ (by simp [indexElements]) s2 hk12) (hp _ (by simp [indexElements]) s2 hk12)
        (hp _ (by simp [indexElements]) s2 hk12) _
        (succeeds_classRemove _ _ s2 (hp _ (by simp [indexElements]) s2 hk12))) ?_
      intro s3 hk3
      exact succeeds_setTextContent _ _ s3 (hp _ (by simp [indexElements]) s3 (hk12.andThen hk3))

end FieldMonitor

namespace FieldMonitor

/-- C9 (amended): the index rendering functions complete without throwing on
the index shape that each of them reads.  `updateIndices` (dashboard.js), when
its element exists, completes exactly when `analysis.indices` is absent or has
each of ndvi, evi and moisture `undefined` or a number, and always completes
when the element is missing; `updateIndicesPanel` (field-monitor.js) completes
when each of `analysis.ndvi`, `analysis.evi` and `analysis.moisture` is absent
or an object with numeric mean, min and max, and its elements exist. -/
theorem index_rendering_on_expected_shapes (a b : JSValue) (d : Dashboard.State) (s : State) :
    ((∃ el, d.dom "vegetation-indices" = some el) →
      ((Dashboard.updateIndices a d).isOk = true ↔ Dashboard.scalarIndices a = true)) ∧
    (d.dom "vegetation-indices" = none → (Dashboard.updateIndices a d).isOk = true) ∧
    (statIndices b = true → (∀ id ∈ indexElements, ∃ el, s.dom id = some el) →
      (updateIndicesPanel b s).isOk = true) := by
  refine ⟨?_, ?_, ?_⟩
  · rintro ⟨el, hel⟩
    simp [Dashboard.updateIndices, Dashboard.renderInto_isOk, hel,
      Dashboard.indicesHtml_isOk]
  · intro hnone
    simp [Dashboard.updateIndices, Dashboard.renderInto_isOk, hnone]
  · intro hshape hpres
    obtain ⟨s1, h1, _⟩ := updateIndicesPanel_succeeds b s hshape hpres
    rw [h1]
    rfl

/-- C9, witness: a scalar NDVI for `updateIndices`, full statistics for
`updateIndicesPanel`, on the sample pages. -/
theorem index_rendering_on_expected_shapes_witness :
    (Dashboard.updateIndices (Dashboard.analysisOf "hr_data" "good")
        Dashboard.sampleState).isOk = true ∧
    (updateIndicesPanel fullAnalysis sampleState).isOk = true :=
  ⟨((index_rendering_on_expected_shapes (Dashboard.analysisOf "hr_data" "good") fullAnalysis
      Dashboard.sampleState sampleState).1 ⟨blankElement, rfl⟩).2 rfl,
   (index_rendering_on_expected_shapes (Dashboard.analysisOf "hr_data" "good") fullAnalysis
      Dashboard.sampleState sampleState).2.2 rfl (by
        intro id hid
        simp only [indexElements, List.mem_cons, List.mem_singleton, List.not_mem_nil,
          or_false] at hid
        rcases hid with h | h | h | h | h | h | h | h | h | h | h | h <;>
          exact ⟨blankElement, by rw [h]; rfl⟩)⟩

/-- C9, counterexample: `updateIndicesPanel` throws on an NDVI given as a single
scalar and on an NDVI object that lacks min and max; `updateIndices` throws on an
NDVI given as an object of statistics. -/
theorem index_rendering_throws_on_other_shapes :
    (updateIndicesPanel (.obj [("ndvi", decimal 62 2)]) sampleState).isOk = false ∧
    (updateIndicesPanel (.obj [("ndvi", .obj [("mean", decimal 62 2)])]) sampleState).isOk
      = false ∧
    (Dashboard.updateIndices
      (.obj [("indices", .obj [("ndvi", stats (decimal 62 2) (decimal 31 2) (decimal 88 2))])])
      Dashboard.sampleState).isOk = false := by
  decide

end FieldMonitor

/-- A positive number is at least the power of two of its bit count. -/
theorem two_pow_bits_le (n : Nat) (h : 0 < n) : 2 ^ JSNumber.bits n ≤ n := by
  by_contra hlt
  push_neg at hlt
  have hpos : 0 < JSNumber.bits n := by
    by_contra h0
    have h1 : JSNumber.bits n = 0 := by omega
    rw [h1] at hlt
    simp at hlt
    omega
  have hlen := Nat.toDigitsCore_length 2 (le_refl 2) (n + 1) n (JSNumber.bits n) hlt hpos
  unfold JSNumber.bits at hpos hlen
  unfold Nat.toDigits at hpos hlen
  omega

/-- Rounding a quotient that is at least one gives at least one. -/
theorem divRoundEven_pos (n d : Nat) (hd : 0 < d) (h : d ≤ n) : 0 < JSNumber.divRoundEven n d := by
  have h1 : 0 < n / d := Nat.div_pos h hd
  unfold JSNumber.divRoundEven
  split
  · exact h1
  · split
    · exact h1
    · omega

/-- A positive integer has a non-zero Number value. -/
theorem doubleNum_pos (m : Nat) (h : 0 < m) : 0 < JSNumber.doubleNum m 1 := by
  have hb := two_pow_bits_le m h
  have hfl : JSNumber.floorLog2 m 1 ≤ (JSNumber.bits m : Int) := by
    have hb1 : JSNumber.bits 1 = 0 := by decide
    unfold JSNumber.floorLog2
    rw [hb1]
    split <;> omega
  unfold JSNumber.doubleNum
  apply Nat.mul_pos
  · apply divRoundEven_pos
    · positivity
    · rw [one_mul]
      by_cases he : JSNumber.ulpExp m 1 ≤ 0
      · have h0 : (JSNumber.ulpExp m 1).toNat = 0 := Int.toNat_eq_zero.mpr he
        rw [h0, pow_zero]
        exact Nat.mul_pos h (by positivity)
      · have h0 : (-(JSNumber.ulpExp m 1)).toNat = 0 := Int.toNat_eq_zero.mpr (by omega)
        rw [h0, pow_zero, mul_one]
        have hle : (JSNumber.ulpExp m 1).toNat ≤ JSNumber.bits m := by
          unfold JSNumber.ulpExp at he ⊢
          omega
        exact le_trans (Nat.pow_le_pow_right (by decide) hle) hb
  · positivity

/-- The length of a non-empty array is not zero. -/
theorem isZero_succ (b : Bool) (n : Nat) : (⟨b, n + 1, 0⟩ : JSNumber).isZero = false := by
  have h := doubleNum_pos (n + 1) (Nat.succ_pos n)
  simp only [JSNumber.isZero, JSNumber.num, pow_zero, beq_eq_false_iff_ne, ne_eq]
  omega

/-- The denominator of a Number value is positive. -/
theorem den_pos (x : JSNumber) : 0 < x.den := by
  unfold JSNumber.den JSNumber.doubleDen
  positivity

/-- A number below ten prints as one digit. -/
theorem repr_digit (k : Nat) (h : k < 10) : Nat.repr k = String.mk [Nat.digitChar k] := by
  interval_cases k <;> decide

/-- Below `10^21` the result of `toFixed(1)` is the sign, the integer digits, a
point and exactly one digit. -/
theorem toFixed_one_decimal (x : JSNumber) (hf : x.isFinite = true)
    (hs : x.num < 10 ^ 21 * x.den) :
    x.toFixed 1 = x.signStr ++ Nat.repr (x.roundScaled 1 / 10) ++ "." ++
      String.mk [Nat.digitChar (x.roundScaled 1 % 10)] := by
  have h := repr_digit (x.roundScaled 1 % 10) (Nat.mod_lt _ (by decide))
  have hs2 : ¬ (10 ^ 21 * x.den ≤ x.num) := by omega
  simp only [JSNumber.toFixed, JSNumber.fracDigits, padLeft, h, Nat.pow_one, hf, hs2]
  simp [String.append_assoc]

/-- A zero prints as `0` followed by `d` zero decimals. -/
theorem toFixed_of_num_zero (p : JSNumber) (d : Nat) (hn : p.num = 0) :
    p.toFixed d = "0" ++ (if d = 0 then "" else "." ++ padLeft d '0' "0") := by
  have hd := den_pos p
  have h0 : (2 * 0 * 10 ^ d + p.den) / (2 * p.den) = 0 := Nat.div_eq_of_lt (by omega)
  have hfin : p.isFinite = true := by
    simp only [JSNumber.isFinite, hn, decide_eq_true_eq]
    positivity
  have hz : p.isZero = true := by simp [JSNumber.isZero, hn]
  have hlt : decide (10 ^ 21 * p.den ≤ p.num) = false := by
    rw [hn, decide_eq_false_iff_not]
    have : 0 < 10 ^ 21 * p.den := by positivity
    omega
  unfold JSNumber.toFixed
  rw [hfin, hlt]
  simp only [Bool.not_true, Bool.or_false, Bool.false_eq_true, if_false, JSNumber.signStr, hz,
    Bool.not_true, Bool.and_false, JSNumber.fracDigits, JSNumber.roundScaled, hn, h0,
    Nat.zero_div, Nat.zero_mod]
  rfl

/-- A zero, whatever its sign and scale, prints like `0`. -/
theorem toFixed_of_zero (p : JSNumber) (d : Nat) (h : p.isZero = true) :
    p.toFixed d = (⟨false, 0, 0⟩ : JSNumber).toFixed d := by
  have hn : p.num = 0 := by simpa [JSNumber.isZero] using h
  rw [toFixed_of_num_zero p d hn, toFixed_of_num_zero ⟨false, 0, 0⟩ d (by decide)]

namespace Dashboard

/-- C10 (defect): with stress detected and the optional percentage absent,
`updateStressInfo` of dashboard.js throws a `TypeError` instead of rendering the
stress block, and `loadFieldAnalysis` turns that into "Analysis failed" while the
stress block keeps its previous content; the sibling `updateStressPanel` of
field-monitor.js renders the block with `0.0`.  With the percentage present both
render it with one decimal. -/
theorem updateStressInfo_throws_without_percentage :
    (updateStressInfo stressWithoutPercentage sampleState).thrown =
      some (.typeError "Cannot read properties of undefined (reading toFixed)") ∧
    (resumeLoadFieldAnalysis (okResponse stressWithoutPercentage) sampleState).dom
        "analysis-container" =
      some { blankElement with content := .html (analysisAlert
        "Cannot read properties of undefined (reading toFixed)") } ∧
    (resumeLoadFieldAnalysis (okResponse stressWithoutPercentage) sampleState).dom "stress-info"
      = sampleState.dom "stress-info" ∧
    (FieldMonitor.updateStressPanel stressWithoutPercentage FieldMonitor.sampleState).state.dom
        "stress-info" =
      some { blankElement with content := .html (FieldMonitor.stressHtml "Water" "0.0") } ∧
    (updateStressInfo stressWithPercentage sampleState).state.dom "stress-info" =
      some { blankElement with content := .html (stressHtml "water" "23.4") } := by
  decide

end Dashboard

namespace FieldMonitor

theorem bind_eq_ok {r : Res State} {k : State → Res State} {s2 : State}
    (h : r.bind k = .ok s2) : ∃ s1, r = .ok s1 ∧ k s1 = .ok s2 := by
  cases r with
  | ok s1 => exact ⟨s1, rfl, h⟩
  | throw e s1 => cases h

theorem evalThen_eq_ok {α : Type} {e : Except JSError α} {k : α → State → Res State}
    {s s2 : State} (h : evalThen e k s = .ok s2) : ∃ a, e = .ok a ∧ k a s = .ok s2 := by
  cases e with
  | error err => cases h
  | ok a => exact ⟨a, rfl, h⟩

theorem shown_congr {s s2 : State} {id : String} (h : s2.dom id = s.dom id) :
    shown s2 id = shown s id := by
  simp [shown, h]

theorem hasClass_congr {s s2 : State} {id : String} (h : s2.dom id = s.dom id) (c : String) :
    hasClass s2 id c = hasClass s id c := by
  simp [hasClass, h]

theorem setTextContent_eq_ok {id t : String} {s s2 : State}
    (h : setTextContent id t s = .ok s2) :
    shown s2 id = some (.text t) ∧ ∀ j, j ≠ id → s2.dom j = s.dom j := by
  unfold setTextContent at h
  cases hel : s.dom id with
  | none => rw [hel] at h; cases h
  | some el =>
    rw [hel] at h
    cases h
    exact ⟨by simp [shown, Dom.set], fun j hj => by simp [Dom.set, hj]⟩

theorem setInnerHTML_eq_ok {id m : String} {s s2 : State}
    (h : setInnerHTML id m s = .ok s2) :
    shown s2 id = some (.html m) ∧ ∀ j, j ≠ id → s2.dom j = s.dom j := by
  unfold setInnerHTML at h
  cases hel : s.dom id with
  | none => rw [hel] at h; cases h
  | some el =>
    rw [hel] at h
    cases h
    exact ⟨by simp [shown, Dom.set], fun j hj => by simp [Dom.set, hj]⟩

theorem classAdd_eq_ok {id c : String} {s s2 : State} (h : classAdd id c s = .ok s2) :
    hasClass s2 id c = true ∧ ∀ j, j ≠ id → s2.dom j = s.dom j := by
  unfold classAdd at h
  cases hel : s.dom id with
  | none => rw [hel] at h; cases h
  | some el =>
    rw [hel] at h
    cases h
    refine ⟨?_, fun j hj => by simp [Dom.set, hj]⟩
    by_cases hc : c ∈ el.classes <;> simp [hasClass, Dom.set, classListAdd, hc]

theorem classRemove_eq_ok {id c : String} {s s2 : State} (h : classRemove id c s = .ok s2) :
    ∀ j, j ≠ id → s2.dom j = s.dom j := by
  unfold classRemove at h
  cases hel : s.dom id with
  | none => rw [hel] at h; cases h
  | some el =>
    rw [hel] at h
    cases h
    exact fun j hj => by simp [Dom.set, hj]

theorem setStat_eq_ok {id k : String} {g : JSValue} {s s2 : State}
    (h : setStat id g k s = .ok s2) :
    ∃ t, (g.get k).bind (fun v => v.callToFixed 2) = .ok t ∧ shown s2 id = some (.text t) ∧
      ∀ j, j ≠ id → s2.dom j = s.dom j := by
  obtain ⟨t, ht, h2⟩ := evalThen_eq_ok h
  exact ⟨t, ht, setTextContent_eq_ok h2⟩

/-- Three statistics written one after the other into three different elements. -/
theorem three_stats {a b c : String} {g : JSValue} {r : Res State} {s2 : State}
    (hab : a ≠ b) (hac : a ≠ c) (hbc : b ≠ c)
    (h : ((r.bind (setStat a g "mean")).bind (setStat b g "min")).bind (setStat c g "max")
      = .ok s2) :
    ∃ s0 t1 t2 t3, r = .ok s0 ∧
      (g.get "mean").bind (fun v => v.callToFixed 2) = .ok t1 ∧
      (g.get "min").bind (fun v => v.callToFixed 2) = .ok t2 ∧
      (g.get "max").bind (fun v => v.callToFixed 2) = .ok t3 ∧
      shown s2 a = some (.text t1) ∧ shown s2 b = some (.text t2) ∧
      shown s2 c = some (.text t3) ∧
      ∀ j, j ≠ a → j ≠ b → j ≠ c → s2.dom j = s0.dom j := by
  obtain ⟨sb, h12, h3⟩ := bind_eq_ok h
  obtain ⟨sa, h1, h2⟩ := bind_eq_ok h12
  obtain ⟨s0, h0, h1⟩ := bind_eq_ok h1
  obtain ⟨t1, e1, w1, f1⟩ := setStat_eq_ok h1
  obtain ⟨t2, e2, w2, f2⟩ := setStat_eq_ok h2
  obtain ⟨t3, e3, w3, f3⟩ := setStat_eq_ok h3
  refine ⟨s0, t1, t2, t3, h0, e1, e2, e3, ?_, ?_, w3, ?_⟩
  · rw [shown_congr (f3 a hac), shown_congr (f2 a hab), w1]
  · rw [shown_congr (f3 b hbc), w2]
  · intro j ja jb jc
    rw [f3 j jc, f2 j jb, f1 j ja]

end FieldMonitor

namespace FieldMonitor

theorem statText_of {analysis g : JSValue} {index k t : String}
    (hg : analysis.get index = .ok g)
    (ht : (g.get k).bind (fun v => v.callToFixed 2) = .ok t) :
    statText analysis index k = .ok t := by
  simp only [statText, hg, bind, Except.bind] at ht ⊢
  exact ht

/-- What the NDVI block has done when it completes normally. -/
theorem ndviBlock_eq_ok {analysis : JSValue} {s s2 : State} (h : ndviBlock analysis s = .ok s2) :
    (indexPresent analysis "ndvi" = true →
      StatShown analysis s2 "ndvi" "mean" ∧ StatShown analysis s2 "ndvi" "min" ∧
        StatShown analysis s2 "ndvi" "max") ∧
    ∀ j, j ≠ "ndvi-mean" → j ≠ "ndvi-min" → j ≠ "ndvi-max" → s2.dom j = s.dom j := by
  obtain ⟨g, hg, h1⟩ := evalThen_eq_ok h
  cases ht : g.truthy with
  | false =>
    rw [ht] at h1
    cases h1
    exact ⟨by simp [indexPresent, hg, ht], fun _ _ _ _ => rfl⟩
  | true =>
    rw [ht] at h1
    obtain ⟨s0, t1, t2, t3, h0, e1, e2, e3, w1, w2, w3, hf⟩ :=
      three_stats (r := Res.ok s) (by decide) (by decide) (by decide) h1
    cases h0
    exact ⟨fun _ => ⟨⟨t1, statText_of hg e1, w1⟩, ⟨t2, statText_of hg e2, w2⟩,
      ⟨t3, statText_of hg e3, w3⟩⟩, hf⟩

/-- What the EVI block has done when it completes normally. -/
theorem eviBlock_eq_ok {analysis : JSValue} {s s2 : State} (h : eviBlock analysis s = .ok s2) :
    (indexPresent analysis "evi" = true →
      StatShown analysis s2 "evi" "mean" ∧ StatShown analysis s2 "evi" "min" ∧
        StatShown analysis s2 "evi" "max") ∧
    (indexPresent analysis "evi" = false → hasClass s2 "evi-container" "d-none" = true) ∧
    ∀ j, j ≠ "evi-container" → j ≠ "evi-mean" → j ≠ "evi-min" → j ≠ "evi-max" →
      s2.dom j = s.dom j := by
  obtain ⟨g, hg, h1⟩ := evalThen_eq_ok h
  cases ht : g.truthy with
  | false =>
    rw [ht] at h1
    obtain ⟨hc, hf⟩ := classAdd_eq_ok h1
    exact ⟨by simp [indexPresent, hg, ht], fun _ => hc, fun j hj _ _ _ => hf j hj⟩
  | true =>
    rw [ht] at h1
    obtain ⟨s0, t1, t2, t3, h0, e1, e2, e3, w1, w2, w3, hf⟩ :=
      three_stats (by decide) (by decide) (by decide) h1
    have hf0 := classRemove_eq_ok h0
    refine ⟨fun _ => ⟨⟨t1, statText_of hg e1, w1⟩, ⟨t2, statText_of hg e2, w2⟩,
      ⟨t3, statText_of hg e3, w3⟩⟩, by simp [indexPresent, hg, ht], ?_⟩
    intro j j0 j1 j2 j3
    rw [hf j j1 j2 j3, hf0 j j0]

/-- What the moisture block has done when it completes normally. -/
theorem moistureBlock_eq_ok {analysis : JSValue} {s s2 : State}
    (h : moistureBlock analysis s = .ok s2) :
    (indexPresent analysis "moisture" = true →
      StatShown analysis s2 "moisture" "mean" ∧ StatShown analysis s2 "moisture" "min" ∧
        StatShown analysis s2 "moisture" "max") ∧
    (indexPresent analysis "moisture" = false →
      hasClass s2 "moisture-container" "d-none" = true) ∧
    ∀ j, j ≠ "moisture-container" → j ≠ "moisture-mean" → j ≠ "moisture-min" →
      j ≠ "moisture-max" → j ≠ "moisture-status" → s2.dom j = s.dom j := by
  obtain ⟨g, hg, h1⟩ := evalThen_eq_ok h
  cases ht : g.truthy with
  | false =>
    rw [ht] at h1
    obtain ⟨hc, hf⟩ := classAdd_eq_ok h1
    exact ⟨by simp [indexPresent, hg, ht], fun _ => hc, fun j hj _ _ _ _ => hf j hj⟩
  | true =>
    rw [ht] at h1
    obtain ⟨s3, h3, h4⟩ := bind_eq_ok h1
    obtain ⟨s0, t1, t2, t3, h0, e1, e2, e3, w1, w2, w3, hf⟩ :=
      three_stats (by decide) (by decide) (by decide) h3
    have hf0 := classRemove_eq_ok h0
    obtain ⟨status, _, h5⟩ := evalThen_eq_ok h4
    obtain ⟨_, hf5⟩ := setTextContent_eq_ok h5
    refine ⟨fun _ => ⟨⟨t1, statText_of hg e1, ?_⟩, ⟨t2, statText_of hg e2, ?_⟩,
      ⟨t3, statText_of hg e3, ?_⟩⟩, by simp [indexPresent, hg, ht], ?_⟩
    · exact (shown_congr (hf5 _ (by decide))).trans w1
    · exact (shown_congr (hf5 _ (by decide))).trans w2
    · exact (shown_congr (hf5 _ (by decide))).trans w3
    · intro j j0 j1 j2 j3 j4
      rw [hf5 j j4, hf j j1 j2 j3, hf0 j j0]

end FieldMonitor

namespace FieldMonitor

/-- What `updateHealthStatus` has done when it completes normally. -/
theorem updateHealthStatus_eq_ok {analysis : JSValue} {s s2 : State}
    (h : updateHealthStatus analysis s = .ok s2) :
    (∃ c, healthBadge analysis = .ok c ∧ shown s2 "health-status" = some c) ∧
    ∀ j, j ≠ "health-status" → s2.dom j = s.dom j := by
  obtain ⟨hs, hhs, h1⟩ := evalThen_eq_ok h
  obtain ⟨s1, hs1, h2⟩ := bind_eq_ok h1
  obtain ⟨label, hl, h3⟩ := evalThen_eq_ok h2
  obtain ⟨_, hf1⟩ := setInnerHTML_eq_ok hs1
  cases hel : s1.dom "health-status" with
  | none => simp only [hel] at h3; cases h3
  | some el =>
    simp only [hel] at h3
    cases h3
    refine ⟨⟨Content.child "span" ["badge", "fs-6", healthBadgeClass (hs.orElse "unknown")]
      label, ?_, by simp [shown, Dom.set]⟩, fun j hj => ?_⟩
    · simp only [healthBadge, hhs, hl, bind, Except.bind, pure, Except.pure]
    · simp only [Dom.set, hj, if_false]
      exact hf1 j hj

/-- What `updateStressPanel` has done when it completes normally. -/
theorem updateStressPanel_eq_ok {analysis : JSValue} {s s2 : State}
    (h : updateStressPanel analysis s = .ok s2) :
    (∃ m, stressPanelHtml analysis = .ok m ∧ shown s2 "stress-info" = some (.html m)) ∧
    ∀ j, j ≠ "stress-info" → s2.dom j = s.dom j := by
  obtain ⟨m, hm, h1⟩ := evalThen_eq_ok h
  obtain ⟨hw, hf⟩ := setInnerHTML_eq_ok h1
  exact ⟨⟨m, hm, hw⟩, hf⟩

/-- What `updateRecommendations` has done when it completes normally. -/
theorem updateRecommendations_eq_ok {analysis : JSValue} {s s2 : State}
    (h : updateRecommendations analysis s = .ok s2) :
    (∃ m, recommendationsHtml analysis = .ok m ∧
      shown s2 "recommendations" = some (.html m)) ∧
    ∀ j, j ≠ "recommendations" → s2.dom j = s.dom j := by
  obtain ⟨m, hm, h1⟩ := evalThen_eq_ok h
  obtain ⟨hw, hf⟩ := setInnerHTML_eq_ok h1
  exact ⟨⟨m, hm, hw⟩, hf⟩

theorem StatShown.congr {analysis : JSValue} {s s2 : State} {index k : String}
    (h : StatShown analysis s index k) (hd : s2.dom (index ++ "-" ++ k) = s.dom (index ++ "-" ++ k)) :
    StatShown analysis s2 index k := by
  obtain ⟨t, ht, hs⟩ := h
  exact ⟨t, ht, (shown_congr hd).trans hs⟩

/-- C6 (amended): when the response carries a result B that renders without an
exception, then, whatever the panel showed before, afterwards the health badge,
the stress block and the recommendations show content computed from B, every
index that B carries shows the mean, min and max of B, and the EVI and moisture
blocks that B lacks are hidden (class d-none).  When the response does not
return success or rendering throws part-way, the health-status element shows
"Analysis failed". -/
theorem analysis_render_outcome (B : JSValue) (o : Outcome) (s : State) :
    (∀ s2, renderAnalysis B s = .ok s2 →
      resumeLoadFieldAnalysis none (okResponse B) s = s2 ∧
      (∃ c, healthBadge B = .ok c ∧ shown s2 "health-status" = some c) ∧
      (∃ m, stressPanelHtml B = .ok m ∧ shown s2 "stress-info" = some (.html m)) ∧
      (∃ m, recommendationsHtml B = .ok m ∧ shown s2 "recommendations" = some (.html m)) ∧
      (∀ index ∈ ["ndvi", "evi", "moisture"], indexPresent B index = true →
        ∀ k ∈ ["mean", "min", "max"], StatShown B s2 index k) ∧
      (∀ index ∈ ["evi", "moisture"], indexPresent B index = false →
        hasClass s2 (index ++ "-container") "d-none" = true)) ∧
    (∀ el, s.dom "health-status" = some el →
      (awaitJson (fun r => "Failed to analyze field: " ++ r.statusText) o renderAnalysis s).isOk
        = false →
      shown (resumeLoadFieldAnalysis none o s) "health-status" = some (.html failedHtml)) := by
  constructor
  · intro s2 h
    refine ⟨by simp [resumeLoadFieldAnalysis, okResponse, awaitJson, h, settle], ?_⟩
    obtain ⟨s3, h123, h4⟩ := bind_eq_ok h
    obtain ⟨sb, h12, h3⟩ := bind_eq_ok h123
    obtain ⟨sa, h1, h2⟩ := bind_eq_ok h12
    obtain ⟨⟨c, hc, wc⟩, _⟩ := updateHealthStatus_eq_ok h1
    obtain ⟨hstress, f3⟩ := updateStressPanel_eq_ok h3
    obtain ⟨hrec, f4⟩ := updateRecommendations_eq_ok h4
    obtain ⟨m3, hm3, w3⟩ := hstress
    obtain ⟨sy, hxy, hz⟩ := bind_eq_ok h2
    obtain ⟨sx, hx, hy⟩ := bind_eq_ok hxy
    obtain ⟨nd, fx⟩ := ndviBlock_eq_ok hx
    obtain ⟨ev, evh, fy⟩ := eviBlock_eq_ok hy
    obtain ⟨mo, moh, fz⟩ := moistureBlock_eq_ok hz
    have frame : ∀ j, j ≠ "stress-info" → j ≠ "recommendations" → s2.dom j = sb.dom j :=
      fun j j3 j4 => (f4 j j4).trans (f3 j j3)
    refine ⟨⟨c, hc, ?_⟩, ⟨m3, hm3, ?_⟩, hrec, ?_, ?_⟩
    · rw [shown_congr (frame _ (by decide) (by decide)),
        shown_congr (fz _ (by decide) (by decide) (by decide) (by decide) (by decide)),
        shown_congr (fy _ (by decide) (by decide) (by decide) (by decide)),
        shown_congr (fx _ (by decide) (by decide) (by decide)), wc]
    · rw [shown_congr (f4 _ (by decide)), w3]
    · intro index hi hp k hk
      simp only [List.mem_cons, List.mem_singleton, List.not_mem_nil, or_false] at hi hk
      rcases hi with rfl | rfl | rfl
      · obtain ⟨a1, a2, a3⟩ := nd hp
        rcases hk with rfl | rfl | rfl
        · exact a1.congr ((frame _ (by decide) (by decide)).trans
            ((fz _ (by decide) (by decide) (by decide) (by decide) (by decide)).trans
              (fy _ (by decide) (by decide) (by decide) (by decide))))
        · exact a2.congr ((frame _ (by decide) (by decide)).trans
            ((fz _ (by decide) (by decide) (by decide) (by decide) (by decide)).trans
              (fy _ (by decide) (by decide) (by decide) (by decide))))
        · exact a3.congr ((frame _ (by decide) (by decide)).trans
            ((fz _ (by decide) (by decide) (by decide) (by decide) (by decide)).trans
              (fy _ (by decide) (by decide) (by decide) (by decide))))
      · obtain ⟨a1, a2, a3⟩ := ev hp
        rcases hk with rfl | rfl | rfl
        · exact a1.congr ((frame _ (by decide) (by decide)).trans
            (fz _ (by decide) (by decide) (by decide) (by decide) (by decide)))
        · exact a2.congr ((frame _ (by decide) (by decide)).trans
            (fz _ (by decide) (by decide) (by decide) (by decide) (by decide)))
        · exact a3.congr ((frame _ (by decide) (by decide)).trans
            (fz _ (by decide) (by decide) (by decide) (by decide) (by decide)))
      · obtain ⟨a1, a2, a3⟩ := mo hp
        rcases hk with rfl | rfl | rfl
        · exact a1.congr (frame _ (by decide) (by decide))
        · exact a2.congr (frame _ (by decide) (by decide))
        · exact a3.congr (frame _ (by decide) (by decide))
    · intro index hi hp
      simp only [List.mem_cons, List.mem_singleton, List.not_mem_nil, or_false] at hi
      rcases hi with rfl | rfl
      · rw [hasClass_congr ((frame _ (by decide) (by decide)).trans
          (fz _ (by decide) (by decide) (by decide) (by decide) (by decide)))]
        exact evh hp
      · rw [hasClass_congr (frame _ (by decide) (by decide))]
        exact moh hp
  · intro el hel hfail
    have hk := keeps_awaitJson (fun r => "Failed to analyze field: " ++ r.statusText) o
      renderAnalysis keeps_renderAnalysis s
    cases hr : awaitJson (fun r => "Failed to analyze field: " ++ r.statusText) o
        renderAnalysis s with
    | ok s1 => rw [hr] at hfail; cases hfail
    | throw e s1 =>
      rw [hr] at hk
      have hk1 : KeepsInputs s s1 := hk
      obtain ⟨el2, hel2, _⟩ := hk1.dom_some hel
      have hc : (consoleError "Error analyzing field:" e s1).dom "health-status" = some el2 :=
        hel2
      simp [resumeLoadFieldAnalysis, hr, catchLoadFieldAnalysis, setInnerHTML, hc, settle, shown,
        Dom.set, failedHtml]

end FieldMonitor

namespace FieldMonitor

/-- C6, witness: the full analysis rendered on the sample page, and a server error. -/
theorem analysis_render_outcome_witness :
    StatShown fullAnalysis (renderAnalysis fullAnalysis sampleState).state "ndvi" "mean" ∧
    shown (resumeLoadFieldAnalysis none (failResponse 500 "Internal Server Error") sampleState)
      "health-status" = some (.html failedHtml) :=
  ⟨((analysis_render_outcome fullAnalysis (failResponse 500 "Internal Server Error")
      sampleState).1 (renderAnalysis fullAnalysis sampleState).state rfl).2.2.2.2.1
      "ndvi" (by simp) rfl "mean" (by simp),
   (analysis_render_outcome fullAnalysis (failResponse 500 "Internal Server Error")
      sampleState).2 blankElement rfl rfl⟩

/-- C6, counterexample: result A (`fullAnalysis`) is on the panel.  A result B
that lacks NDVI renders successfully: the badge shows B ("Poor") while the NDVI
mean still shows the 0.62 of A.  A result B whose NDVI is a scalar fails part-way:
the health status shows "Analysis failed" while the stress block still shows the
water stress of A. -/
theorem stale_values_remain_beside_new_result :
    shown renderedState "ndvi-mean" = some (.text "0.62") ∧
    shown (resumeLoadFieldAnalysis none (okResponse bareAnalysis) renderedState) "health-status"
      = some (.child "span" ["badge", "fs-6", "bg-danger"] "Poor") ∧
    shown (resumeLoadFieldAnalysis none (okResponse bareAnalysis) renderedState) "ndvi-mean"
      = some (.text "0.62") ∧
    shown (resumeLoadFieldAnalysis none (okResponse scalarAnalysis) renderedState)
      "health-status" = some (.html failedHtml) ∧
    shown (resumeLoadFieldAnalysis none (okResponse scalarAnalysis) renderedState) "stress-info"
      = some (.html (stressHtml "Water" "23.4")) ∧
    shown renderedState "stress-info" = some (.html (stressHtml "Water" "23.4")) := by
  decide

end FieldMonitor

/-! ## The stress block of `field-monitor.js` -/

namespace FieldMonitor

/-- C11 (amended): for every analysis result with stress detected, a non-empty
stress type `t` that starts with an ASCII character and a numeric stress
percentage `p`, `updateStressPanel` writes into the stress block the warning
alert whose first line is the label "Stress Detected:" followed by `t` with its
first letter capitalised and " stress", and whose second line, after a line
break, is the label "Affected Area:" followed by `p` formatted to one decimal
and "% of field". -/
theorem stress_block_markup (analysis stress detected : JSValue) (t : String) (p : JSNumber)
    (s : State) (el : Element)
    (hs : analysis.get "stress" = .ok stress) (hst : stress.truthy = true)
    (hd : stress.get "stress_detected" = .ok detected) (hdt : detected.truthy = true)
    (ht : stress.get "stress_type" = .ok (.str t)) (hne : t ≠ "")
    (_hascii : ∀ c ∈ t.data.take 1, c.toNat < 128)
    (hp : stress.get "stress_percentage" = .ok (.num p))
    (hel : s.dom "stress-info" = some el) :
    ∃ s2, updateStressPanel analysis s = .ok s2 ∧
      shown s2 "stress-info" = some (.html
        ("\n            <div class=\"alert alert-warning mb-0\">\n" ++
         "                <strong>Stress Detected:</strong> " ++ capitalize t ++ " stress<br>\n" ++
         "                <strong>Affected Area:</strong> " ++ p.toFixed 1 ++ "% of field\n" ++
         "            </div>\n        ")) := by
  have hfix : (orZero (.num p)).callToFixed 1 = .ok (p.toFixed 1) := by
    unfold orZero
    by_cases hz : p.isZero = true
    · simp [JSValue.truthy, hz, JSValue.callToFixed, toFixed_of_zero p 1 hz]
    · simp [JSValue.truthy, hz, JSValue.callToFixed]
  have hor : (JSValue.str t).orElse "unknown" = .str t := by
    simp [JSValue.orElse, JSValue.truthy, hne]
  have hm : stressPanelHtml analysis = .ok (stressHtml (capitalize t) (p.toFixed 1)) := by
    simp only [stressPanelHtml, bind, Except.bind, hs, hst, hd, hdt, if_true, ht, hp, Except.map,
      hor, JSValue.callCapitalize, hfix, pure, Except.pure]
  have hlit : stressHtml (capitalize t) (p.toFixed 1) =
      "\n            <div class=\"alert alert-warning mb-0\">\n" ++
       "                <strong>Stress Detected:</strong> " ++ capitalize t ++ " stress<br>\n" ++
       "                <strong>Affected Area:</strong> " ++ p.toFixed 1 ++ "% of field\n" ++
       "            </div>\n        " := by
    simp only [stressHtml, String.append_assoc]
    rfl
  rw [← hlit]
  simp [updateStressPanel, hm, evalThen, setInnerHTML, hel, shown, Dom.set]

/-- C11, witness: a water stress of 23.45 percent on the sample page.  The
double nearest to 23.45 lies below it, so one decimal gives 23.4. -/
theorem stress_block_markup_witness :
    capitalize "water" = "Water" ∧ (⟨false, 2345, 2⟩ : JSNumber).toFixed 1 = "23.4" ∧
    (⟨false, 234, 1⟩ : JSNumber).toFixed 1 = "23.4" ∧
    ∃ s2, updateStressPanel
        (.obj [("stress", .obj [("stress_detected", .bool true), ("stress_type", .str "water"),
          ("stress_percentage", decimal 2345 2)])]) sampleState = .ok s2 ∧
      shown s2 "stress-info" = some (.html
        ("\n            <div class=\"alert alert-warning mb-0\">\n" ++
         "                <strong>Stress Detected:</strong> " ++ capitalize "water" ++
         " stress<br>\n" ++
         "                <strong>Affected Area:</strong> " ++
         (⟨false, 2345, 2⟩ : JSNumber).toFixed 1 ++ "% of field\n" ++
         "            </div>\n        ")) :=
  ⟨by decide, by decide, by decide,
    stress_block_markup
      (.obj [("stress", .obj [("stress_detected", .bool true), ("stress_type", .str "water"),
        ("stress_percentage", decimal 2345 2)])])
      (.obj [("stress_detected", .bool true), ("stress_type", .str "water"),
        ("stress_percentage", decimal 2345 2)])
      (.bool true) "water" ⟨false, 2345, 2⟩ sampleState blankElement rfl rfl rfl rfl rfl
      (by decide) (by decide) rfl rfl⟩

/-- C11, counterexample: for the stress of the example (water, 23.4) the stress
block holds two labelled lines, "Stress Detected: Water stress" and
"Affected Area: 23.4% of field", separated by a line break; the text
"Water stress — 23.4% of field" occurs nowhere in it, nor does a dash. -/
theorem stress_block_has_no_dash_line :
    shown (updateStressPanel fullAnalysis sampleState).state "stress-info" = some (.html
      ("\n            <div class=\"alert alert-warning mb-0\">\n" ++
       "                <strong>Stress Detected:</strong> Water stress<br>\n" ++
       "                <strong>Affected Area:</strong> 23.4% of field\n" ++
       "            </div>\n        ")) ∧
    occursIn "Water stress — 23.4% of field" (stressHtml "Water" "23.4") = false ∧
    occursIn " — " (stressHtml "Water" "23.4") = false ∧
    occursIn "Water stress<br>" (stressHtml "Water" "23.4") = true ∧
    occursIn "23.4% of field" (stressHtml "Water" "23.4") = true := by
  decide

end FieldMonitor

/-! ## The health badge and the scalar index cards -/

namespace Dashboard

/-- C12 (amended): for every analysis result whose health status is absent or a
string of ASCII characters, with `status` standing for it ("unknown" when
absent), `updateAnalysisUI` of `dashboard.js` writes a badge whose text is the
upper-cased status ("UNKNOWN" when absent) and whose style is `badgeClass`: the
five known statuses have five different styles, none of them the neutral one,
and every other status has the neutral style; a scalar NDVI `x` is shown in its
card as `x.toFixed(2)`, the double rounded to two decimals.  In
`field-monitor.js` the badge text is the status with only its first letter
capitalised, and every status other than the five known ones has the neutral
style. -/
theorem health_badge_and_scalar_ndvi (analysis hs : JSValue) (status : String)
    (hh : analysis.get "health_status" = .ok hs)
    (hstatus : hs.orElse "unknown" = .str status)
    (_hascii : ∀ c ∈ status.data, c.toNat < 128) :
    healthBadgeHtml analysis = .ok ("<span class=\"badge " ++ badgeClass (.str status) ++ "\">" ++
      toUpperCase status ++ "</span>") ∧
    (∀ s el, s.dom "health-status" = some el →
      updateHealthBadge analysis s = .ok (putHtml "health-status" el
        ("<span class=\"badge " ++ badgeClass (.str status) ++ "\">" ++ toUpperCase status ++
          "</span>") s)) ∧
    (hs.truthy = false → toUpperCase status = "UNKNOWN") ∧
    (∀ a ∈ knownStatuses, ∀ b ∈ knownStatuses, badgeClass (.str a) = badgeClass (.str b) → a = b) ∧
    (∀ a ∈ knownStatuses, badgeClass (.str a) ≠ "bg-secondary") ∧
    (status ∉ knownStatuses → badgeClass (.str status) = "bg-secondary") ∧
    (∀ indices x e m, analysis.get "indices" = .ok indices → indices.truthy = true →
      indices.get "ndvi" = .ok (.num x) →
      (indices.get "evi").bind (indexCard "EVI") = .ok e →
      (indices.get "moisture").bind (indexCard "Moisture") = .ok m →
      indicesHtml analysis = .ok ("<div class=\"row\">" ++
        ("\n" ++ "                <div class=\"col-md-4\">\n" ++
        "                    <div class=\"card\">\n" ++
        "                        <div class=\"card-body\">\n" ++
        "                            <h5 class=\"card-title\">" ++ "NDVI" ++ "</h5>\n" ++
        "                            <p class=\"card-text display-6 text-center\">" ++
        x.toFixed 2 ++
        "</p>\n" ++ "                        </div>\n" ++ "                    </div>\n" ++
        "                </div>\n" ++ "            ") ++ e ++ m ++ "</div>")) ∧
    FieldMonitor.healthBadge analysis = .ok (.child "span"
      ["badge", "fs-6", FieldMonitor.healthBadgeClass (.str status)] (capitalize status)) ∧
    (status ∉ knownStatuses → FieldMonitor.healthBadgeClass (.str status) = "bg-secondary") := by
  have hb : healthBadgeHtml analysis = .ok ("<span class=\"badge " ++ badgeClass (.str status) ++
      "\">" ++ toUpperCase status ++ "</span>") := by
    simp only [healthBadgeHtml, hh, bind, Except.bind, hstatus, JSValue.callToUpperCase, pure,
      Except.pure]
  refine ⟨hb, ?_, ?_, by decide, by decide, ?_, ?_, ?_, ?_⟩
  · intro s el hel
    simp only [updateHealthBadge, renderInto, hel, hb, evalThen]
  · intro hf
    simp only [JSValue.orElse, hf, Bool.false_eq_true, if_false, JSValue.str.injEq] at hstatus
    subst hstatus
    decide
  · intro hn
    simp only [knownStatuses, List.mem_cons, List.mem_singleton, List.not_mem_nil, or_false,
      not_or] at hn
    simp [badgeClass, hn]
  · intro indices x e m hi hit hn he hm
    simp only [Except.bind] at he hm
    simp only [indicesHtml, hi, bind, Except.bind, hit, if_true, hn, he, hm, pure, Except.pure]
    rfl
  · simp only [FieldMonitor.healthBadge, hh, bind, Except.bind, hstatus, JSValue.callCapitalize,
      pure, Except.pure]
  · intro hn
    simp only [knownStatuses, List.mem_cons, List.mem_singleton, List.not_mem_nil, or_false,
      not_or] at hn
    simp [FieldMonitor.healthBadgeClass, hn]

/-- C12, witness: the example of the specification shows badge "GOOD" and NDVI
"0.62"; an NDVI of 0.615, whose double lies below it, shows "0.61". -/
theorem health_badge_and_scalar_ndvi_witness :
    healthBadgeHtml exampleAnalysis = .ok ("<span class=\"badge " ++ badgeClass (.str "good") ++
      "\">" ++ toUpperCase "good" ++ "</span>") ∧
    badgeClass (.str "good") = "bg-primary" ∧ toUpperCase "good" = "GOOD" ∧
    (⟨false, 62, 2⟩ : JSNumber).toFixed 2 = "0.62" ∧
    (⟨false, 615, 3⟩ : JSNumber).toFixed 2 = "0.61" ∧
    (⟨false, 1005, 3⟩ : JSNumber).toFixed 2 = "1.00" ∧
    (updateAnalysisUI exampleAnalysis sampleState).state.dom "health-status" =
      some { blankElement with content := .html "<span class=\"badge bg-primary\">GOOD</span>" } ∧
    occursIn "<p class=\"card-text display-6 text-center\">0.62</p>"
      (match (updateAnalysisUI exampleAnalysis sampleState).state.dom "vegetation-indices" with
        | some ⟨.html markup, _, _, _⟩ => markup
        | _ => "") = true :=
  ⟨(health_badge_and_scalar_ndvi exampleAnalysis (.str "good") "good" rfl rfl (by decide)).1,
    by decide, by decide, by decide, by decide, by decide, by decide, by decide⟩

end Dashboard

namespace FieldMonitor

/-- C12, counterexample: for the example of the specification `updateHealthStatus`
of `field-monitor.js` shows the badge text "Good", not "GOOD", and the statuses
poor and critical share one badge style. -/
theorem field_monitor_badge_is_capitalised :
    shown (updateHealthStatus exampleAnalysis sampleState).state "health-status" =
      some (.child "span" ["badge", "fs-6", "bg-primary"] "Good") ∧
    healthBadgeClass (.str "poor") = "bg-danger" ∧
    healthBadgeClass (.str "critical") = "bg-danger" := by
  decide

end FieldMonitor

/-! ## The recommendation list -/

/-- A string that starts with `p` has the characters of `p` as a prefix. -/
theorem isPrefixOf_of_append_eq {p x y : String} (h : p ++ x = y) :
    p.data.isPrefixOf y.data = true := by
  subst h
  rw [String.data_append]
  exact List.isPrefixOf_iff_prefix.mpr (List.prefix_append _ _)

namespace FieldMonitor

/-- The loop `html += item` builds the concatenation of the items. -/
theorem foldl_items (items : List JSValue) (acc : String) :
    items.foldl (fun html rec => html ++ recommendationItem rec) acc = acc ++ listItems items := by
  induction items generalizing acc with
  | nil => simp [listItems]
  | cons x rest ih =>
    rw [List.foldl_cons, ih]
    simp only [listItems, recommendationItem, String.append_assoc]

/-- The list items are the concatenation of one item per recommendation, in order. -/
theorem join_items (items : List JSValue) :
    String.join (items.map recommendationItem) = listItems items := by
  have h : ∀ acc : String, (items.map recommendationItem).foldl (fun r s => r ++ s) acc
      = acc ++ listItems items := by
    induction items with
    | nil => intro acc; simp [listItems]
    | cons x rest ih =>
      intro acc
      rw [List.map_cons, List.foldl_cons, ih]
      simp only [listItems, recommendationItem, String.append_assoc]
  simpa [String.join] using h ""

/-- C13: for every analysis result whose recommendations are absent or a
sequence, `updateRecommendations` writes the "No recommendations available"
state exactly when the recommendations are absent or the empty sequence;
otherwise it writes the list that the loop builds, which is the list opening
tag, one list item per recommendation in the order of the sequence, and the
closing tag. -/
theorem recommendations_rendering (analysis recs : JSValue) (s : State) (el : Element)
    (h : analysis.get "recommendations" = .ok recs)
    (hshape : recs = .undefined ∨ recs = .null ∨ ∃ items, recs = .arr items)
    (hel : s.dom "recommendations" = some el) :
    ∃ html s2, recommendationsHtml analysis = .ok html ∧
      updateRecommendations analysis s = .ok s2 ∧
      shown s2 "recommendations" = some (.html html) ∧
      (html = noRecommendationsHtml ↔ (recs = .undefined ∨ recs = .null ∨ recs = .arr [])) ∧
      (∀ items, recs = .arr items → items ≠ [] →
        html = "<ul class=\"list-group list-group-flush\">" ++
          String.join (items.map recommendationItem) ++ "</ul>" ∧
        html = items.foldl (fun html rec => html ++ recommendationItem rec)
          "<ul class=\"list-group list-group-flush\">" ++ "</ul>" ∧
        (items.map recommendationItem).length = items.length) := by
  have key : ∀ html, recommendationsHtml analysis = .ok html →
      ∃ s2, updateRecommendations analysis s = .ok s2 ∧
        shown s2 "recommendations" = some (.html html) := by
    intro html hh
    simp [updateRecommendations, hh, evalThen, setInnerHTML, hel, shown, Dom.set]
  have hempty : ∀ v, recs = v → v.truthy = false ∨ v = .arr [] →
      recommendationsHtml analysis = .ok noRecommendationsHtml := by
    intro v hv hc
    subst hv
    rcases hc with hc | hc
    · simp only [recommendationsHtml, h, bind, Except.bind, hc, Bool.false_eq_true, if_false, pure,
        Except.pure, noRecommendationsHtml]
    · subst hc
      simp only [recommendationsHtml, h, bind, Except.bind]
      rfl
  rcases hshape with hu | hn | ⟨items, hi⟩
  · have hm := hempty recs rfl (Or.inl (by rw [hu]; rfl))
    obtain ⟨s2, h1, h2⟩ := key _ hm
    exact ⟨_, s2, hm, h1, h2, ⟨fun _ => Or.inl hu, fun _ => rfl⟩,
      fun items hi _ => by rw [hu] at hi; cases hi⟩
  · have hm := hempty recs rfl (Or.inl (by rw [hn]; rfl))
    obtain ⟨s2, h1, h2⟩ := key _ hm
    exact ⟨_, s2, hm, h1, h2, ⟨fun _ => Or.inr (Or.inl hn), fun _ => rfl⟩,
      fun items hi _ => by rw [hn] at hi; cases hi⟩
  · cases items with
    | nil =>
      have hm := hempty recs rfl (Or.inr hi)
      obtain ⟨s2, h1, h2⟩ := key _ hm
      exact ⟨_, s2, hm, h1, h2, ⟨fun _ => Or.inr (Or.inr hi), fun _ => rfl⟩,
        fun items hi2 hne => by rw [hi] at hi2; cases hi2; exact absurd rfl hne⟩
    | cons x rest =>
      have hm : recommendationsHtml analysis = .ok ("<ul class=\"list-group list-group-flush\">" ++
          listItems (x :: rest) ++ "</ul>") := by
        subst hi
        simp only [recommendationsHtml, h, bind, Except.bind]
        simp [JSValue.truthy, JSValue.get, greaterThanZero, isZero_succ, JSValue.asArray, pure,
          Except.pure]
      obtain ⟨s2, h1, h2⟩ := key _ hm
      refine ⟨_, s2, hm, h1, h2, ⟨fun heq => ?_, fun hc => ?_⟩, fun items hi2 _ => ?_⟩
      · have hp := isPrefixOf_of_append_eq
          (String.append_assoc _ _ _ ▸ heq : "<ul class=\"list-group list-group-flush\">" ++
            (listItems (x :: rest) ++ "</ul>") = noRecommendationsHtml)
        exact absurd hp (by decide)
      · rcases hc with hc | hc | hc <;> rw [hi] at hc <;> cases hc
      · rw [hi] at hi2
        cases hi2
        refine ⟨by rw [join_items], by rw [foldl_items], by simp⟩

/-- C13, witness: the two recommendations of the full analysis on the sample page. -/
theorem recommendations_rendering_witness :
    ∃ html s2, recommendationsHtml fullAnalysis = .ok html ∧
      updateRecommendations fullAnalysis sampleState = .ok s2 ∧
      shown s2 "recommendations" = some (.html html) ∧
      (html = noRecommendationsHtml ↔
        (JSValue.arr [.str "Irrigate the north corner", .str "Check for pests"] = .undefined ∨
          JSValue.arr [.str "Irrigate the north corner", .str "Check for pests"] = .null ∨
          JSValue.arr [.str "Irrigate the north corner", .str "Check for pests"] = .arr [])) ∧
      (∀ items, JSValue.arr [.str "Irrigate the north corner", .str "Check for pests"]
          = .arr items → items ≠ [] →
        html = "<ul class=\"list-group list-group-flush\">" ++
          String.join (items.map recommendationItem) ++ "</ul>" ∧
        html = items.foldl (fun html rec => html ++ recommendationItem rec)
          "<ul class=\"list-group list-group-flush\">" ++ "</ul>" ∧
        (items.map recommendationItem).length = items.length) :=
  recommendations_rendering fullAnalysis
    (.arr [.str "Irrigate the north corner", .str "Check for pests"]) sampleState blankElement
    rfl (Or.inr (Or.inr ⟨_, rfl⟩)) rfl

end FieldMonitor

/-! ## Redrawing the field boundaries -/

namespace Dashboard

/-- On a field of the data model the geometry test of `addFieldsToMap` does not throw. -/
theorem hasGeometry_of_wellFormed {f : JSValue} (h : wellFormedField f = true) :
    hasGeometry f = .ok (drawable f) := by
  cases f with
  | obj props =>
    have hok : ∃ b, hasGeometry (.obj props) = .ok b := by
      simp only [hasGeometry, JSValue.get, bind, Except.bind]
      cases hg : JSValue.lookup "geometry" props <;>
        simp [JSValue.truthy, pure, Except.pure]
    obtain ⟨b, hb⟩ := hok
    simp [drawable, hb]
  | _ => simp [wellFormedField] at h

/-- Swapping the vertices of a ring does not throw. -/
theorem swapCoords_ok (coords : List JSValue) (h : coords.all isCoord = true) :
    ∃ r, swapCoords coords = .ok r := by
  induction coords with
  | nil => exact ⟨[], rfl⟩
  | cons c rest ih =>
    simp only [List.all_cons, Bool.and_eq_true] at h
    obtain ⟨r, hr⟩ := ih h.2
    cases c with
    | arr items =>
      refine ⟨(items.getD 1 .undefined, items.getD 0 .undefined) :: r, ?_⟩
      simp only [swapCoords, swapCoord, JSValue.index, bind, Except.bind, pure, Except.pure, hr]
    | _ => simp [isCoord] at h

/-- A field of the data model with geometry coordinates has a ring that both
loops of `addFieldsToMap` read without an exception. -/
theorem ring_of_wellFormed {f : JSValue} (h : wellFormedField f = true)
    (hd : drawable f = true) :
    ringLatLngs f = .ok (ringOf f) ∧ fieldBounds f = .ok (ringOf f) := by
  have hg := hasGeometry_of_wellFormed h
  rw [hd] at hg
  cases f with
  | obj props =>
    have hget : (JSValue.obj props).get "geometry" = .ok (JSValue.lookup "geometry" props) := rfl
    simp only [wellFormedField, Bool.or_eq_true, Bool.not_eq_true'] at h
    simp only [hasGeometry, hget, bind, Except.bind, pure, Except.pure] at hg
    cases ht : (JSValue.lookup "geometry" props).truthy with
    | false => simp [ht] at hg
    | true =>
      simp only [ht, if_true, Bool.true_eq_false, false_or] at h hg
      cases hc : (JSValue.lookup "geometry" props).get "coordinates" with
      | error e => simp [hc] at h
      | ok coordinates =>
        simp only [hc, Except.ok.injEq] at h hg
        simp only [hg, Bool.not_true, Bool.false_or] at h
        cases hi : coordinates.index 0 with
        | error e => simp [hi] at h
        | ok ring =>
          simp only [hi] at h
          cases ring with
          | arr coords =>
            obtain ⟨r, hr⟩ := swapCoords_ok coords h
            have h1 : ringLatLngs (.obj props) = .ok r := by
              simp only [ringLatLngs, firstRing, hget, bind, Except.bind, hc, hi,
                JSValue.asArray, hr]
            have h2 : hasGeometry (.obj props) = .ok true := by
              simp only [hasGeometry, hget, bind, Except.bind, pure, Except.pure, ht,
                if_true, hc, hg]
            refine ⟨by simp only [ringOf, h1], ?_⟩
            simp only [ringOf, h1]
            simp only [fieldBounds, h2, firstRing, hget, bind, Except.bind, hc, hi,
              JSValue.asArray, hr, if_true]
          | _ => simp [isRing] at h
  | _ => simp [wellFormedField] at h

/-- A field without geometry coordinates adds nothing to the bounds. -/
theorem fieldBounds_of_not_drawable {f : JSValue} (h : hasGeometry f = .ok false) :
    fieldBounds f = .ok [] := by
  simp [fieldBounds, h, bind, Except.bind, pure, Except.pure]

/-- The bounds of a list of fields of the data model are computed without an exception. -/
theorem allBounds_ok (fields : List JSValue) (hwf : ∀ f ∈ fields, wellFormedField f = true) :
    ∃ b, allBounds fields = .ok b := by
  induction fields with
  | nil => exact ⟨[], rfl⟩
  | cons f rest ih =>
    obtain ⟨b, hb⟩ := ih (fun g hg => hwf g (List.mem_cons_of_mem _ hg))
    have hf := hwf f (List.mem_cons_self _ _)
    have hg := hasGeometry_of_wellFormed hf
    cases hd : drawable f with
    | true =>
      exact ⟨ringOf f ++ b, by
        simp only [allBounds, (ring_of_wellFormed hf hd).2, hb, bind, Except.bind, pure,
          Except.pure]⟩
    | false =>
      rw [hd] at hg
      exact ⟨[] ++ b, by
        simp only [allBounds, fieldBounds_of_not_drawable hg, hb, bind, Except.bind, pure,
          Except.pure]⟩

/-- The first loop of `addFieldsToMap` on fields of the data model: it
completes, and the map gains one polygon per field with geometry, in order. -/
theorem drawFields_layers (L : Leaflet) (fields : List JSValue)
    (hwf : ∀ f ∈ fields, wellFormedField f = true)
    (hL : ∀ f ∈ fields, drawable f = true → L.polygon (ringOf f) = none) (s : State) :
    ∃ s2, drawFields L fields s = .ok s2 ∧
      s2.map = s.map.map (fun m => { m with layers := m.layers ++ drawnLayers fields }) := by
  induction fields generalizing s with
  | nil =>
    refine ⟨s, rfl, ?_⟩
    cases s.map <;> simp [drawnLayers]
  | cons f rest ih =>
    have hf := hwf f (List.mem_cons_self _ _)
    have hg := hasGeometry_of_wellFormed hf
    have ih2 := ih (fun g hg => hwf g (List.mem_cons_of_mem _ hg))
      (fun g hg => hL g (List.mem_cons_of_mem _ hg))
    cases hd : drawable f with
    | false =>
      rw [hd] at hg
      obtain ⟨s2, h1, h2⟩ := ih2 s
      refine ⟨s2, by simp only [drawFields, hg, h1], ?_⟩
      simp [h2, drawnLayers, hd]
    | true =>
      rw [hd] at hg
      have hr := (ring_of_wellFormed hf hd).1
      have hp := hL f (List.mem_cons_self _ _) hd
      cases hpop : popupText f with
      | ok popup =>
        obtain ⟨s2, h1, h2⟩ := ih2 (addLayer (.polygon (ringOf f) (some popup) (some f)) s)
        refine ⟨s2, by simp only [drawFields, hg, drawField, hr, evalThen, hp, hpop, h1], ?_⟩
        rw [h2]
        simp only [addLayer, Option.map_map]
        congr 1
        funext m
        simp [drawnLayers, hd, drawnPolygon, hpop]
      | error e =>
        obtain ⟨s2, h1, h2⟩ := ih2 (consoleError "Error adding field to map:" e
          (addLayer (.polygon (ringOf f) none none) s))
        refine ⟨s2, by simp only [drawFields, hg, drawField, hr, evalThen, hp, hpop, h1], ?_⟩
        rw [h2]
        simp only [addLayer, consoleError, Option.map_map]
        congr 1
        funext m
        simp [drawnLayers, hd, drawnPolygon, hpop]

/-- Redrawing fields of the data model on a page with a map: the call
completes, and the map then holds its former layers other than polygons,
followed by one polygon per field with geometry. -/
theorem addFieldsToMap_layers (L : Leaflet) (fields : List JSValue) (s : State) (m : LeafletMap)
    (hmap : s.map = some m) (hwf : ∀ f ∈ fields, wellFormedField f = true)
    (hL : ∀ f ∈ fields, L.polygon (ringOf f) = none)
    (hF : ∀ b, allBounds fields = .ok b → L.fitBounds b = none) :
    ∃ s2 m2, addFieldsToMap L (.arr fields) s = .ok s2 ∧ s2.map = some m2 ∧
      m2.layers = m.layers.filter (fun l => !l.isPolygon) ++ drawnLayers fields := by
  obtain ⟨s1, h1, h2⟩ := drawFields_layers L fields hwf (fun f hf _ => hL f hf)
    { s with map := some { m with layers := m.layers.filter (fun l => !l.isPolygon) } }
  obtain ⟨b, hb⟩ := allBounds_ok fields hwf
  have h3 : s1.map = some ⟨m.layers.filter (fun l => !l.isPolygon) ++ drawnLayers fields,
      m.fitted⟩ := h2
  by_cases hlen : fields.length > 0
  · by_cases hbl : b.length > 0
    · refine ⟨{ s1 with map := s1.map.map (fun m => { m with fitted := some b }) },
        { layers := m.layers.filter (fun l => !l.isPolygon) ++ drawnLayers fields,
          fitted := some b }, ?_, ?_, rfl⟩
      · simp only [addFieldsToMap, hmap, JSValue.asArray, evalThen, h1, Res.bind, hlen, hb, hbl,
          if_true, fitBounds, hF b hb]
      · simp only [h3, Option.map]
    · exact ⟨s1, _, by
        simp only [addFieldsToMap, hmap, JSValue.asArray, evalThen, h1, Res.bind, hlen, hb, hbl,
          if_true, if_false], h3, rfl⟩
  · exact ⟨s1, _, by
      simp only [addFieldsToMap, hmap, JSValue.asArray, evalThen, h1, Res.bind, hlen, if_false],
      h3, rfl⟩

/-- The first loop skips a field without geometry coordinates. -/
theorem drawFields_insert (L : Leaflet) (g : JSValue) (hg : hasGeometry g = .ok false)
    (pre post : List JSValue) (s : State) :
    drawFields L (pre ++ g :: post) s = drawFields L (pre ++ post) s := by
  induction pre generalizing s with
  | nil => simp only [List.nil_append, drawFields, hg]
  | cons f rest ih =>
    simp only [List.cons_append, drawFields]
    cases hasGeometry f with
    | error e => rfl
    | ok b =>
      cases b with
      | false => exact ih s
      | true =>
        cases drawField L f s with
        | ok s1 => exact ih s1
        | throw e s1 => exact ih _

/-- The second loop skips a field without geometry coordinates. -/
theorem allBounds_insert (g : JSValue) (hg : hasGeometry g = .ok false)
    (pre post : List JSValue) :
    allBounds (pre ++ g :: post) = allBounds (pre ++ post) := by
  induction pre with
  | nil =>
    simp only [List.nil_append, allBounds, fieldBounds_of_not_drawable hg, bind, Except.bind,
      pure, Except.pure, List.nil_append]
    cases allBounds post <;> rfl
  | cons f rest ih =>
    simp only [List.cons_append, allBounds, List.append_eq, ih]

/-- Inserting a field without geometry coordinates anywhere in the list leaves
the outcome of `addFieldsToMap` as it is, whatever the other fields are. -/
theorem addFieldsToMap_insert (L : Leaflet) (g : JSValue) (hg : hasGeometry g = .ok false)
    (pre post : List JSValue) (s : State) :
    addFieldsToMap L (.arr (pre ++ g :: post)) s = addFieldsToMap L (.arr (pre ++ post)) s := by
  cases hmap : s.map with
  | none => simp only [addFieldsToMap, hmap]
  | some m =>
    simp only [addFieldsToMap, hmap, JSValue.asArray, evalThen, drawFields_insert L g hg,
      allBounds_insert g hg]
    cases drawFields L (pre ++ post)
        { s with map := some { m with layers := m.layers.filter (fun l => !l.isPolygon) } } with
    | throw e s1 => rfl
    | ok s1 =>
      simp only [Res.bind]
      by_cases hlen : (pre ++ post).length > 0
      · have hlen2 : (pre ++ g :: post).length > 0 := by simp
        simp only [hlen, hlen2, if_true]
      · have hnil : pre ++ post = [] := by
          cases hpp : pre ++ post with
          | nil => rfl
          | cons x xs => rw [hpp] at hlen; simp at hlen
        have hlen2 : (pre ++ g :: post).length > 0 := by simp
        simp only [hlen, hlen2, if_true, if_false, hnil, allBounds, evalThen]
        simp

/-- The layers that are not polygons have no vertices. -/
theorem filterMap_ring_nonPolygon (ls : List Layer) :
    (ls.filter (fun l => !l.isPolygon)).filterMap Layer.ring = [] := by
  induction ls with
  | nil => rfl
  | cons l rest ih =>
    cases l with
    | tile u => simpa [List.filter, Layer.isPolygon, Layer.ring] using ih
    | polygon a b c => simpa [List.filter, Layer.isPolygon] using ih

/-- The vertices of the drawn polygons are the rings of the fields with geometry. -/
theorem filterMap_ring_drawnLayers (fields : List JSValue) :
    (drawnLayers fields).filterMap Layer.ring = (fields.filter drawable).map ringOf := by
  unfold drawnLayers
  induction fields.filter drawable with
  | nil => rfl
  | cons f rest ih =>
    have h : Layer.ring (drawnPolygon f) = some (ringOf f) := by
      unfold drawnPolygon
      cases popupText f <;> rfl
    simp [List.filterMap_cons, h, ih]

/-- No polygon is left among the layers that are not polygons. -/
theorem filter_polygon_nonPolygon (ls : List Layer) :
    (ls.filter (fun l => !l.isPolygon)).filter Layer.isPolygon = [] := by
  simp [List.filter_filter]

/-- Every drawn layer is a polygon. -/
theorem drawnLayers_polygons (fields : List JSValue) :
    ∀ l ∈ drawnLayers fields, l.isPolygon = true := by
  intro l hl
  simp only [drawnLayers, List.mem_map] at hl
  obtain ⟨f, _, rfl⟩ := hl
  unfold drawnPolygon
  cases popupText f <;> rfl

end Dashboard

/-! ## The field list -/

/-- Joining a list of strings that starts with `a`. -/
theorem join_cons_eq (a : String) (l : List String) :
    String.join (a :: l) = a ++ String.join l := by
  have h : ∀ (l : List String) (acc : String),
      l.foldl (fun r s => r ++ s) acc = acc ++ l.foldl (fun r s => r ++ s) "" := by
    intro l
    induction l with
    | nil => intro acc; simp
    | cons x rest ih =>
      intro acc
      rw [List.foldl_cons, List.foldl_cons, ih (acc ++ x), ih ("" ++ x)]
      simp [String.append_assoc]
  simp only [String.join, List.foldl_cons]
  rw [h l ("" ++ a)]
  simp

/-- The first character of a string is the first character of what it starts with. -/
theorem head_append {x y : String} {c : Char} (h : x.data.head? = some c) :
    (x ++ y).data.head? = some c := by
  rw [String.data_append]
  cases hx : x.data with
  | nil => rw [hx] at h; cases h
  | cons a rest => rw [hx] at h; simpa using h

namespace Dashboard

/-- A card is built without an exception for a field of the expected shape, and
its markup starts with a line break. -/
theorem fieldCard_of_cardField {f : JSValue} (h : cardField f = true) :
    fieldCard f = .ok (cardOf f) ∧ (cardOf f).data.head? = some '\n' := by
  cases f with
  | obj props =>
    have hg : ∀ k, (JSValue.obj props).get k = .ok (JSValue.lookup k props) := fun _ => rfl
    have ha : ∃ a, areaText (JSValue.lookup "area_hectares" props) = .ok a := by
      simp only [cardField, Bool.or_eq_true, Bool.not_eq_true'] at h
      unfold areaText
      rcases h with h | h
      · exact ⟨"Unknown", by simp [h]⟩
      · cases hv : JSValue.lookup "area_hectares" props with
        | num n =>
          by_cases ht : (JSValue.num n).truthy = true
          · exact ⟨n.toFixed 2 ++ " ha", by simp [ht, JSValue.callToFixed, Except.map]⟩
          · exact ⟨"Unknown", by simp [ht]⟩
        | _ => simp [hv, JSValue.isNumber] at h
    obtain ⟨a, ha⟩ := ha
    cases hc : fieldCard (.obj props) with
    | error e =>
      unfold fieldCard at hc
      simp only [hg] at hc
      simp only [bind, Except.bind] at hc
      simp only [ha, pure, Except.pure] at hc
      cases hc
    | ok c =>
      refine ⟨by simp only [cardOf, hc], ?_⟩
      simp only [cardOf, hc]
      unfold fieldCard at hc
      simp only [hg] at hc
      simp only [bind, Except.bind] at hc
      simp only [ha, pure, Except.pure, Except.ok.injEq] at hc
      rw [← hc]
      repeat apply head_append
      rfl
  | _ => simp [cardField] at h

/-- The loop of `displayFields` builds the cards of the fields, in order. -/
theorem fieldCards_of_cardField (fields : List JSValue)
    (hwf : ∀ f ∈ fields, cardField f = true) :
    fieldCards fields = .ok (String.join (fields.map cardOf)) := by
  induction fields with
  | nil => rfl
  | cons f rest ih =>
    have h1 := (fieldCard_of_cardField (hwf f (List.mem_cons_self _ _))).1
    have h2 := ih (fun g hg => hwf g (List.mem_cons_of_mem _ hg))
    simp only [fieldCards, h1, h2, bind, Except.bind, pure, Except.pure, List.map_cons,
      join_cons_eq]

/-- The area line of a card, for an area that is absent or a number. -/
theorem areaText_of_cardField {f : JSValue} (h : cardField f = true) :
    areaText (propOf f "area_hectares") = .ok (areaLabel (propOf f "area_hectares")) := by
  cases f with
  | obj props =>
    simp only [cardField, Bool.or_eq_true, Bool.not_eq_true'] at h
    simp only [propOf]
    cases hv : JSValue.lookup "area_hectares" props with
    | num n =>
      by_cases hz : n.isZero = true
      · simp [areaText, areaLabel, JSValue.truthy, hz]
      · simp [areaText, areaLabel, JSValue.truthy, hz, JSValue.callToFixed, Except.map]
    | undefined => simp [areaText, areaLabel, JSValue.truthy]
    | null => simp [areaText, areaLabel, JSValue.truthy]
    | bool b =>
      rw [hv] at h
      cases b <;> simp [areaText, areaLabel, JSValue.truthy, JSValue.isNumber] at h ⊢
    | str t =>
      rw [hv] at h
      by_cases ht : t = ""
      · simp [areaText, areaLabel, JSValue.truthy, ht]
      · simp [JSValue.truthy, JSValue.isNumber, ht] at h
    | arr items =>
      rw [hv] at h
      simp [JSValue.truthy, JSValue.isNumber] at h
    | obj ps =>
      rw [hv] at h
      simp [JSValue.truthy, JSValue.isNumber] at h
  | _ => simp [cardField] at h

/-- The text of `v || "Unknown"` is the label of `v`. -/
theorem orElse_toStr (v : JSValue) : (v.orElse "Unknown").toStr = labelOf v "" := by
  unfold JSValue.orElse labelOf
  split <;> simp [JSValue.toStr]

/-- C16: on a page with the list element, `displayFields` applied to the empty
list writes the empty-state message "No fields found"; applied to a non-empty
list of fields whose area is absent or a number it writes one card per field,
in the order of the list, each card carrying the identifier, the name, the
area, the crop and the soil of its field and a "View Details" button with the
identifier; this markup is neither empty nor the empty-state message.  Without
the list element it returns without writing. -/
theorem displayFields_rendering (fields : List JSValue) (s : State)
    (hwf : ∀ f ∈ fields, cardField f = true) :
    (s.dom "fields-list" = none → displayFields (.arr fields) s = .ok s) ∧
    (∀ el, s.dom "fields-list" = some el →
      displayFields (.arr []) s = .ok (putHtml "fields-list" el
        "<div class=\"alert alert-info\">No fields found</div>" s) ∧
      (fields ≠ [] → ∃ cards : List String,
        displayFields (.arr fields) s = .ok (putHtml "fields-list" el (String.join cards) s) ∧
        cards.length = fields.length ∧
        cards = fields.map (fun f =>
          "\n" ++ "            <div class=\"card mb-3 field-card\" data-field-id=\"" ++
          (propOf f "field_id").toStr ++
          "\">\n" ++ "                <div class=\"card-body\">\n" ++
          "                    <h5 class=\"card-title\">" ++ (propOf f "name").toStr ++ "</h5>\n" ++
          "                    <p class=\"card-text\">\n" ++
          "                        <strong>Area:</strong> " ++ areaLabel (propOf f "area_hectares") ++
          "<br>\n" ++
          "                        <strong>Crop:</strong> " ++ labelOf (propOf f "crop_type") "" ++
          "<br>\n" ++
          "                        <strong>Soil:</strong> " ++ labelOf (propOf f "soil_type") "" ++
          "\n" ++
          "                    </p>\n" ++
          "                    <button class=\"btn btn-primary btn-sm view-field-btn\" data-field-id=\"" ++
          (propOf f "field_id").toStr ++ "\">\n" ++ "                        View Details\n" ++
          "                    </button>\n" ++ "                </div>\n" ++ "            </div>\n" ++
          "        ") ∧
        String.join cards ≠ "<div class=\"alert alert-info\">No fields found</div>" ∧
        String.join cards ≠ "")) := by
  refine ⟨fun hn => by simp only [displayFields, hn], fun el hel => ⟨?_, fun hne => ?_⟩⟩
  · simp only [displayFields, hel, JSValue.get, evalThen]
    rfl
  · cases fields with
    | nil => exact absurd rfl hne
    | cons f rest =>
      have ht := (fieldCard_of_cardField (hwf f (List.mem_cons_self _ _))).2
      have hh := head_append (y := String.join (rest.map cardOf)) ht
      refine ⟨(f :: rest).map cardOf, ?_, by simp, ?_, ?_, ?_⟩
      · have hlen : isNumberZero (.num ⟨false, (f :: rest).length, 0⟩) = false := by
          simp [isNumberZero, isZero_succ]
        simp only [displayFields, hel, JSValue.get, evalThen, if_true, hlen, JSValue.asArray,
          fieldCards_of_cardField (f :: rest) hwf, Bool.false_eq_true, if_false]
      · apply List.map_congr_left
        intro g hg
        have hc := hwf g hg
        have ha := areaText_of_cardField hc
        cases g with
        | obj props =>
          have hget : ∀ k, (JSValue.obj props).get k = .ok (JSValue.lookup k props) := fun _ => rfl
          simp only [propOf] at ha ⊢
          unfold cardOf fieldCard
          simp only [hget]
          simp only [bind, Except.bind]
          simp only [ha, pure, Except.pure, orElse_toStr]
        | _ => simp [cardField] at hc
      · intro heq
        rw [List.map_cons, join_cons_eq] at heq
        rw [heq] at hh
        exact absurd hh (by decide)
      · intro heq
        rw [List.map_cons, join_cons_eq] at heq
        rw [heq] at hh
        exact absurd hh (by decide)

/-- C16, witness: the empty list, and the list of f1 (with an area of 12.5
hectares) and f2 on the sample page. -/
theorem displayFields_rendering_witness :
    displayFields (.arr []) sampleState = .ok (putHtml "fields-list" blankElement
      "<div class=\"alert alert-info\">No fields found</div>" sampleState) ∧
    ∃ cards : List String,
      displayFields (.arr [fieldF1, fieldF2]) sampleState =
        .ok (putHtml "fields-list" blankElement (String.join cards) sampleState) ∧
      cards.length = 2 ∧
      cards =
        ["\n            <div class=\"card mb-3 field-card\" data-field-id=\"f1\">\n" ++
         "                <div class=\"card-body\">\n" ++
         "                    <h5 class=\"card-title\">North Plot</h5>\n" ++
         "                    <p class=\"card-text\">\n" ++
         "                        <strong>Area:</strong> 12.50 ha<br>\n" ++
         "                        <strong>Crop:</strong> Unknown<br>\n" ++
         "                        <strong>Soil:</strong> Unknown\n" ++
         "                    </p>\n" ++
         "                    <button class=\"btn btn-primary btn-sm view-field-btn\" data-field-id=\"f1\">\n" ++
         "                        View Details\n" ++
         "                    </button>\n" ++ "                </div>\n" ++
         "            </div>\n" ++ "        ",
         "\n            <div class=\"card mb-3 field-card\" data-field-id=\"f2\">\n" ++
         "                <div class=\"card-body\">\n" ++
         "                    <h5 class=\"card-title\">South Plot</h5>\n" ++
         "                    <p class=\"card-text\">\n" ++
         "                        <strong>Area:</strong> Unknown<br>\n" ++
         "                        <strong>Crop:</strong> Unknown<br>\n" ++
         "                        <strong>Soil:</strong> Unknown\n" ++
         "                    </p>\n" ++
         "                    <button class=\"btn btn-primary btn-sm view-field-btn\" data-field-id=\"f2\">\n" ++
         "                        View Details\n" ++
         "                    </button>\n" ++ "                </div>\n" ++
         "            </div>\n" ++ "        "] := by
  obtain ⟨cards, h1, h2, h3, _, _⟩ :=
    ((displayFields_rendering [fieldF1, fieldF2] sampleState (by decide)).2 blankElement rfl).2
      (by simp)
  exact ⟨((displayFields_rendering [fieldF1, fieldF2] sampleState (by decide)).2 blankElement
    rfl).1, cards, h1, h2, h3.trans (by decide)⟩

end Dashboard

/-! ## The credential on backend requests -/

namespace Dashboard

theorem SameSession.unchangedSession (s : State) : SameSession s s := ⟨rfl, rfl, rfl, rfl⟩

theorem SameSession.andThenSession {s1 s2 s3 : State} (h12 : SameSession s1 s2)
    (h23 : SameSession s2 s3) : SameSession s1 s3 :=
  ⟨h23.1.trans h12.1, h23.2.1.trans h12.2.1, h23.2.2.1.trans h12.2.2.1,
    h23.2.2.2.trans h12.2.2.2⟩

theorem sameSession_of_onlyDom {s1 s2 : State} (h : OnlyDom s1 s2) : SameSession s1 s2 := by
  unfold OnlyDom at h
  rw [h]
  exact ⟨rfl, rfl, rfl, rfl⟩

theorem sameSession_bind {s : State} {r : Res State} {k : State → Res State}
    (hr : SameSession s r.state) (hk : ∀ s1, SameSession s1 (k s1).state) :
    SameSession s (r.bind k).state := by
  cases r with
  | ok s1 => exact hr.andThenSession (hk s1)
  | throw e s1 => exact hr

theorem sameSession_evalThen {α : Type} (e : Except JSError α) (k : α → State → Res State)
    (s : State) (hk : ∀ a s1, SameSession s1 (k a s1).state) :
    SameSession s (evalThen e k s).state := by
  cases e with
  | ok a => exact hk a s
  | error err => exact SameSession.unchangedSession s

theorem sameSession_setInnerHTML (id m : String) (s : State) :
    SameSession s (setInnerHTML id m s).state := by
  unfold setInnerHTML
  cases s.dom id <;> exact ⟨rfl, rfl, rfl, rfl⟩

theorem sameSession_renderInto (id : String) (m : Except JSError String) (s : State) :
    SameSession s (renderInto id m s).state := by
  unfold renderInto
  cases s.dom id with
  | none => exact SameSession.unchangedSession s
  | some el => cases m <;> exact ⟨rfl, rfl, rfl, rfl⟩

theorem sameSession_settle (r : Res State) : SameSession r.state (settle r) := by
  cases r <;> exact ⟨rfl, rfl, rfl, rfl⟩

theorem sameSession_displayFields (fields : JSValue) (s : State) :
    SameSession s (displayFields fields s).state := by
  unfold displayFields
  cases s.dom "fields-list" with
  | none => exact SameSession.unchangedSession s
  | some el =>
    refine sameSession_evalThen _ _ _ (fun len s1 => ?_)
    split
    · exact ⟨rfl, rfl, rfl, rfl⟩
    · refine sameSession_evalThen _ _ _ (fun items s2 => ?_)
      exact sameSession_evalThen _ _ _ (fun html s3 => ⟨rfl, rfl, rfl, rfl⟩)

theorem sameSession_drawField (L : Leaflet) (field : JSValue) (s : State) :
    SameSession s (drawField L field s).state := by
  unfold drawField
  refine sameSession_evalThen _ _ _ (fun latLngs s1 => ?_)
  cases L.polygon latLngs with
  | some e => exact SameSession.unchangedSession s1
  | none => cases popupText field <;> exact ⟨rfl, rfl, rfl, rfl⟩

theorem sameSession_drawFields (L : Leaflet) (fields : List JSValue) (s : State) :
    SameSession s (drawFields L fields s).state := by
  induction fields generalizing s with
  | nil => exact SameSession.unchangedSession s
  | cons f rest ih =>
    unfold drawFields
    cases hasGeometry f with
    | error e => exact SameSession.unchangedSession s
    | ok b =>
      cases b with
      | false => exact ih s
      | true =>
        have hd := sameSession_drawField L f s
        cases hdf : drawField L f s with
        | ok s1 => rw [hdf] at hd; exact hd.andThenSession (ih s1)
        | throw e s1 =>
          rw [hdf] at hd
          have hc : SameSession s1 (consoleError "Error adding field to map:" e s1) :=
            ⟨rfl, rfl, rfl, rfl⟩
          exact (hd.andThenSession hc).andThenSession (ih _)

theorem sameSession_addFieldsToMap (L : Leaflet) (fields : JSValue) (s : State) :
    SameSession s (addFieldsToMap L fields s).state := by
  unfold addFieldsToMap
  cases hm : s.map with
  | none => exact SameSession.unchangedSession s
  | some m =>
    have h0 : SameSession s
        { s with map := some { m with layers := m.layers.filter (fun l => !l.isPolygon) } } :=
      ⟨rfl, rfl, rfl, rfl⟩
    refine h0.andThenSession (sameSession_evalThen _ _ _ (fun items s1 => ?_))
    refine sameSession_bind (sameSession_drawFields L items s1) (fun s2 => ?_)
    split
    · refine sameSession_evalThen _ _ _ (fun bounds s3 => ?_)
      split
      · unfold fitBounds
        cases L.fitBounds bounds <;> exact ⟨rfl, rfl, rfl, rfl⟩
      · exact SameSession.unchangedSession s3
    · exact SameSession.unchangedSession s2

theorem sameSession_updateAnalysisUI (a : JSValue) (s : State) :
    SameSession s (updateAnalysisUI a s).state := by
  unfold updateAnalysisUI
  exact sameSession_bind (sameSession_bind (sameSession_bind (sameSession_renderInto _ _ _)
    (fun s1 => sameSession_renderInto _ _ _)) (fun s1 => sameSession_renderInto _ _ _))
    (fun s1 => sameSession_renderInto _ _ _)

theorem sameSession_awaitJson (notOk : Response → String) (o : Outcome)
    (k : JSValue → State → Res State) (s : State)
    (hk : ∀ a s1, SameSession s1 (k a s1).state) :
    SameSession s (awaitJson notOk o k s).state := by
  unfold awaitJson
  cases o with
  | rejected m => exact SameSession.unchangedSession s
  | resolved r =>
    dsimp only
    split
    · exact SameSession.unchangedSession s
    · cases r.json with
      | error m => exact SameSession.unchangedSession s
      | ok data => exact hk data s

/-- The continuation of `loadFields` issues no request and keeps the credential. -/
theorem sameSession_resumeLoadFields (L : Leaflet) (o : Outcome) (s : State) :
    SameSession s (resumeLoadFields L o s) := by
  unfold resumeLoadFields
  have h := sameSession_awaitJson (fun _ => "Failed to load fields") o
    (fun fields s => (displayFields fields s).bind (addFieldsToMap L fields)) s
    (fun a s1 => sameSession_bind (sameSession_displayFields a s1)
      (fun s2 => sameSession_addFieldsToMap L a s2))
  cases hr : awaitJson (fun _ => "Failed to load fields") o
      (fun fields s => (displayFields fields s).bind (addFieldsToMap L fields)) s with
  | ok s1 => rw [hr] at h; exact h
  | throw e s1 =>
    rw [hr] at h
    refine (h.andThenSession ?_).andThenSession (sameSession_settle _)
    unfold catchLoadFields
    have hc : SameSession s1 (consoleError "Error loading fields:" e s1) := ⟨rfl, rfl, rfl, rfl⟩
    exact hc.andThenSession (sameSession_setInnerHTML _ _ _)

theorem sameSession_resumeLoadFieldAnalysis (o : Outcome) (s : State) :
    SameSession s (resumeLoadFieldAnalysis o s) := by
  unfold resumeLoadFieldAnalysis
  have h := sameSession_awaitJson (fun _ => "Failed to analyze field") o updateAnalysisUI s
    (fun a s1 => sameSession_updateAnalysisUI a s1)
  cases hr : awaitJson (fun _ => "Failed to analyze field") o updateAnalysisUI s with
  | ok s1 => rw [hr] at h; exact h
  | throw e s1 =>
    rw [hr] at h
    refine (h.andThenSession ?_).andThenSession (sameSession_settle _)
    unfold catchLoadFieldAnalysis
    have hc : SameSession s1 (consoleError "Error analyzing field:" e s1) := ⟨rfl, rfl, rfl, rfl⟩
    exact hc.andThenSession (sameSession_setInnerHTML _ _ _)

/-- One event of `dashboard.js` keeps the credential, and every request it adds
carries the credential as bearer. -/
theorem extends_step (L : Leaflet) (s : State) (ev : Event) :
    (step L s ev).token = s.token ∧
    ∃ new, (step L s ev).requests = s.requests ++ new ∧ ∀ r ∈ new, carriesBearer s.token r := by
  have hfetch : ∀ url c (s0 : State), (fetchWithToken url c s0).token = s0.token ∧
      ∃ new, (fetchWithToken url c s0).requests = s0.requests ++ new ∧
        ∀ r ∈ new, carriesBearer s0.token r := by
    intro url c s0
    refine ⟨rfl, _, rfl, ?_⟩
    intro r hr
    simp only [List.mem_singleton] at hr
    rw [hr]
    rfl
  have hsame : ∀ s1 s2 : State, SameSession s1 s2 → s2.token = s1.token ∧
      ∃ new, s2.requests = s1.requests ++ new ∧ ∀ r ∈ new, carriesBearer s1.token r := by
    intro s1 s2 h
    exact ⟨h.2.2.1, [], by simp [h.1], by simp⟩
  cases ev with
  | loadFields => exact hfetch _ _ s
  | loadFieldDetails fieldId => exact hfetch _ _ s
  | backToList =>
    apply hsame
    unfold step backToList
    dsimp only
    split <;> exact ⟨rfl, rfl, rfl, rfl⟩
  | filterSatelliteProvider provider =>
    simp only [step, filterSatelliteProvider]
    split
    · cases hg : s.selectedField.get "field_id" with
      | error e => exact hsame _ _ ⟨rfl, rfl, rfl, rfl⟩
      | ok id => exact hfetch _ _ s
    · exact hsame _ _ ⟨rfl, rfl, rfl, rfl⟩
  | respond k o =>
    simp only [step]
    cases s.pending.find? (fun p => p.1 == k) with
    | none => exact hsame _ _ (SameSession.unchangedSession s)
    | some p =>
      dsimp only
      have h0 : ∀ s2 : State,
          (s2.token = ({ s with pending := s.pending.filter (fun p => p.1 != k) } : State).token ∧
          ∃ new, s2.requests =
            ({ s with pending := s.pending.filter (fun p => p.1 != k) } : State).requests ++ new ∧
            ∀ r ∈ new, carriesBearer
              ({ s with pending := s.pending.filter (fun p => p.1 != k) } : State).token r) →
          s2.token = s.token ∧
            ∃ new, s2.requests = s.requests ++ new ∧ ∀ r ∈ new, carriesBearer s.token r :=
        fun s2 h => h
      apply h0
      generalize ({ s with pending := s.pending.filter (fun p => p.1 != k) } : State) = s0
      cases p.2 with
      | loadFields => exact hsame _ _ (sameSession_resumeLoadFields L o s0)
      | loadFieldAnalysis => exact hsame _ _ (sameSession_resumeLoadFieldAnalysis o s0)
      | loadFieldDetails fieldId =>
        cases o with
        | rejected m => exact hsame s0 _ ⟨rfl, rfl, rfl, rfl⟩
        | resolved r =>
          obtain ⟨status, ok, statusText, json⟩ := r
          cases ok with
          | false => exact hsame s0 _ ⟨rfl, rfl, rfl, rfl⟩
          | true =>
            cases json with
            | error m => exact hsame s0 _ ⟨rfl, rfl, rfl, rfl⟩
            | ok field =>
              have hd := sameSession_of_onlyDom
                (onlyDom_displayFieldDetails field { s0 with selectedField := field })
              have hres : resume L (.loadFieldDetails fieldId)
                  (.resolved ⟨status, true, statusText, .ok field⟩) s0 =
                  match (displayFieldDetails field { s0 with selectedField := field }).bind
                    (fun s => .ok (showFieldDetails (loadFieldAnalysis fieldId .null s))) with
                  | .ok s1 => s1
                  | .throw e s1 => catchLoadFieldDetails e s1 := rfl
              rw [hres]
              cases hdf : displayFieldDetails field { s0 with selectedField := field } with
              | throw e s1 =>
                rw [hdf] at hd
                have h1 : SameSession s0 { s0 with selectedField := field } :=
                  ⟨rfl, rfl, rfl, rfl⟩
                have h2 : SameSession s1 (catchLoadFieldDetails e s1) := ⟨rfl, rfl, rfl, rfl⟩
                exact hsame s0 _ ((h1.andThenSession hd).andThenSession h2)
              | ok s1 =>
                rw [hdf] at hd
                have hd1 : s1.requests = s0.requests := hd.1
                have hd2 : s1.token = s0.token := hd.2.2.1
                have hsh := onlyDom_showFieldDetails (loadFieldAnalysis fieldId .null s1)
                refine ⟨?_, [getRequest (analyzeUrl fieldId .null) s0], ?_, ?_⟩
                · simp only [Res.bind]
                  rw [hsh.token_eq]
                  exact hd2
                · simp only [Res.bind]
                  rw [hsh.requests_eq]
                  simp only [loadFieldAnalysis, fetchWithToken, getRequest, hd1, hd2]
                · intro r hr
                  simp only [List.mem_singleton] at hr
                  rw [hr]
                  rfl

/-- C17 (amended): in every run of `dashboard.js` (field list, single field and
analysis requests, from any state and for any responses) the module variable
`token` stays what it was, and every request that the run adds carries the
header `Authorization: Bearer <token>` with that credential and no other header. -/
theorem dashboard_requests_carry_bearer (L : Leaflet) (s : State) (events : List Event) :
    (run L s events).token = s.token ∧
    ∃ new, (run L s events).requests = s.requests ++ new ∧
      ∀ r ∈ new, carriesBearer s.token r := by
  unfold run
  induction events generalizing s with
  | nil => exact ⟨rfl, [], by simp, by simp⟩
  | cons ev rest ih =>
    obtain ⟨ht, new1, hr1, hb1⟩ := extends_step L s ev
    obtain ⟨ht2, new2, hr2, hb2⟩ := ih (step L s ev)
    refine ⟨by rw [List.foldl_cons, ht2, ht], new1 ++ new2, ?_, ?_⟩
    · rw [List.foldl_cons, hr2, hr1, List.append_assoc]
    · intro r hr
      rcases List.mem_append.1 hr with h | h
      · exact hb1 r h
      · rw [← ht]; exact hb2 r h

end Dashboard

namespace FieldMonitor

/-- C17, counterexample: the single-field, analysis and trend requests that
`field-monitor.js` issues when field f1 is loaded carry no header at all. -/
theorem field_monitor_requests_carry_no_header :
    (run sampleState [.loadField (.str "f1"), .respond 0 (okResponse fieldF1),
      .respond 1 (okResponse fullAnalysis)]).requests =
      [⟨"GET", "/api/fields/f1", [], none⟩,
       ⟨"GET", "/api/fields/f1/analyze?start_date=2024-01-01&end_date=2024-03-31", [], none⟩,
       ⟨"GET", "/api/fields/f1/trend?start_date=2024-01-01&end_date=2024-03-31", [], none⟩] := by
  decide

end FieldMonitor

/-! ## Responses that are not a success -/

namespace Dashboard

/-- Writing the markup of an element changes no `display`. -/
theorem displayOf_setInnerHTML (id m : String) (s : State) (j : String) :
    displayOf (setInnerHTML id m s).state j = displayOf s j := by
  unfold setInnerHTML
  cases h : s.dom id with
  | none => rfl
  | some el =>
    by_cases hj : j = id
    · subst hj; simp [displayOf, Res.state, Dom.set, h]
    · simp [displayOf, Res.state, Dom.set, hj]

/-- C18 (amended): a response that is not a success, a 401 included, makes the
waiting call (`loadFields`, `loadFieldDetails` or `loadFieldAnalysis`) run its
`catch` block with the generic error of that call, exactly as for every other
status.  The credential in memory and in storage is kept, no `display` changes
(the login form is not shown), and no request is issued. -/
theorem unauthorized_is_plain_failure (L : Leaflet) (s : State) (c : Continuation)
    (r : Response) (h : r.ok = false) :
    resume L c (.resolved r) s =
      (match c with
        | .loadFields => settle (catchLoadFields (.error "Failed to load fields") s)
        | .loadFieldDetails _ => catchLoadFieldDetails (.error "Failed to load field details") s
        | .loadFieldAnalysis =>
          settle (catchLoadFieldAnalysis (.error "Failed to analyze field") s)) ∧
    (resume L c (.resolved r) s).token = s.token ∧
    (resume L c (.resolved r) s).localStorage = s.localStorage ∧
    (resume L c (.resolved r) s).requests = s.requests ∧
    ∀ id, displayOf (resume L c (.resolved r) s) id = displayOf s id := by
  have hset : ∀ (r : Res State), displayOf (settle r) = displayOf r.state := by
    intro r; cases r <;> rfl
  cases c with
  | loadFields =>
    have e : resume L .loadFields (.resolved r) s =
        settle (catchLoadFields (.error "Failed to load fields") s) := by
      simp [resume, resumeLoadFields, awaitJson, h]
    have hs := (sameSession_setInnerHTML "fields-list"
      ("<div class=\"alert alert-danger\">Failed to load fields: " ++ "Failed to load fields"
        ++ "</div>") (consoleError "Error loading fields:" (.error "Failed to load fields") s)
      ).andThenSession (sameSession_settle _)
    rw [e]
    refine ⟨rfl, hs.2.2.1, hs.2.2.2, hs.1, fun id => ?_⟩
    rw [hset]
    exact displayOf_setInnerHTML _ _ _ _
  | loadFieldDetails fieldId =>
    have e : resume L (.loadFieldDetails fieldId) (.resolved r) s =
        catchLoadFieldDetails (.error "Failed to load field details") s := by
      simp [resume, resumeLoadFieldDetails, awaitJson, h]
    rw [e]
    exact ⟨rfl, rfl, rfl, rfl, fun _ => rfl⟩
  | loadFieldAnalysis =>
    have e : resume L .loadFieldAnalysis (.resolved r) s =
        settle (catchLoadFieldAnalysis (.error "Failed to analyze field") s) := by
      simp [resume, resumeLoadFieldAnalysis, awaitJson, h]
    have hs := (sameSession_setInnerHTML "analysis-container"
      ("<div class=\"alert alert-danger\">Analysis failed: " ++ "Failed to analyze field"
        ++ "</div>") (consoleError "Error analyzing field:" (.error "Failed to analyze field") s)
      ).andThenSession (sameSession_settle _)
    rw [e]
    refine ⟨rfl, hs.2.2.1, hs.2.2.2, hs.1, fun id => ?_⟩
    rw [hset]
    exact displayOf_setInnerHTML _ _ _ _

/-- C18, witness: the field list request answered with 401 on the page with the login form. -/
theorem unauthorized_is_plain_failure_witness :
    (resume Leaflet.lenient .loadFields (failResponse 401 "Unauthorized") signedInState).token
      = signedInState.token ∧
    displayOf (resume Leaflet.lenient .loadFields (failResponse 401 "Unauthorized")
      signedInState) "login-form" = displayOf signedInState "login-form" :=
  ⟨(unauthorized_is_plain_failure Leaflet.lenient signedInState .loadFields
      ⟨401, false, "Unauthorized", .ok .null⟩ rfl).2.1,
   (unauthorized_is_plain_failure Leaflet.lenient signedInState .loadFields
      ⟨401, false, "Unauthorized", .ok .null⟩ rfl).2.2.2.2 "login-form"⟩

/-- C18, counterexample: the field list request is answered with 401 while the
user is signed in with credential "tok".  The login form stays hidden and the
main content stays shown, the credential stays in the variable and in storage,
and the list shows the generic failure; `logout()` is what shows the login form. -/
theorem unauthorized_does_not_show_login_form :
    displayOf (run Leaflet.lenient signedInState
      [.loadFields, .respond 0 (failResponse 401 "Unauthorized")]) "login-form" = some "none" ∧
    displayOf (run Leaflet.lenient signedInState
      [.loadFields, .respond 0 (failResponse 401 "Unauthorized")]) "main-content"
      = some "block" ∧
    (run Leaflet.lenient signedInState
      [.loadFields, .respond 0 (failResponse 401 "Unauthorized")]).token.toStr = "tok" ∧
    (run Leaflet.lenient signedInState
      [.loadFields, .respond 0 (failResponse 401 "Unauthorized")]).localStorage "token"
      = some "tok" ∧
    ((run Leaflet.lenient signedInState
      [.loadFields, .respond 0 (failResponse 401 "Unauthorized")]).dom "fields-list").map
      (fun el => el.content) = some (.html (loadFieldsAlert "Failed to load fields")) ∧
    displayOf (logout signedInState) "login-form" = some "block" := by
  decide

end Dashboard

/-! ## The stored credential -/

namespace Dashboard

/-- One event of the page keeps the browser storage. -/
theorem storage_step (L : Leaflet) (s : State) (ev : Event) :
    (step L s ev).localStorage = s.localStorage := by
  cases ev with
  | loadFields => rfl
  | loadFieldDetails fieldId => rfl
  | backToList =>
    unfold step backToList
    dsimp only
    split <;> rfl
  | filterSatelliteProvider provider =>
    simp only [step, filterSatelliteProvider]
    split
    · cases hg : s.selectedField.get "field_id" <;> rfl
    · rfl
  | respond k o =>
    simp only [step]
    cases s.pending.find? (fun p => p.1 == k) with
    | none => rfl
    | some p =>
      dsimp only
      have h0 : ∀ s2 : State,
          s2.localStorage =
            ({ s with pending := s.pending.filter (fun p => p.1 != k) } : State).localStorage →
          s2.localStorage = s.localStorage :=
        fun s2 h => h
      apply h0
      generalize ({ s with pending := s.pending.filter (fun p => p.1 != k) } : State) = s0
      cases p.2 with
      | loadFields => exact (sameSession_resumeLoadFields L o s0).2.2.2
      | loadFieldAnalysis => exact (sameSession_resumeLoadFieldAnalysis o s0).2.2.2
      | loadFieldDetails fieldId =>
        cases o with
        | rejected m => rfl
        | resolved r =>
          obtain ⟨status, ok, statusText, json⟩ := r
          cases ok with
          | false => rfl
          | true =>
            cases json with
            | error m => rfl
            | ok field =>
              have hd := sameSession_of_onlyDom
                (onlyDom_displayFieldDetails field { s0 with selectedField := field })
              have hres : resume L (.loadFieldDetails fieldId)
                  (.resolved ⟨status, true, statusText, .ok field⟩) s0 =
                  match (displayFieldDetails field { s0 with selectedField := field }).bind
                    (fun s => .ok (showFieldDetails (loadFieldAnalysis fieldId .null s))) with
                  | .ok s1 => s1
                  | .throw e s1 => catchLoadFieldDetails e s1 := rfl
              rw [hres]
              cases hdf : displayFieldDetails field { s0 with selectedField := field } with
              | throw e s1 =>
                rw [hdf] at hd
                exact hd.2.2.2
              | ok s1 =>
                rw [hdf] at hd
                have hsh := sameSession_of_onlyDom
                  (onlyDom_showFieldDetails (loadFieldAnalysis fieldId .null s1))
                simp only [Res.bind]
                rw [hsh.2.2.2]
                exact hd.2.2.2

/-- The events of the page keep the browser storage. -/
theorem storage_run (L : Leaflet) (s : State) (events : List Event) :
    (run L s events).localStorage = s.localStorage := by
  unfold run
  induction events generalizing s with
  | nil => rfl
  | cons ev rest ih => rw [List.foldl_cons, ih, storage_step]

/-- What `checkAuth` does, by what is stored under the key `token`. -/
theorem checkAuth_of_stored (s : State) :
    (∀ c, s.localStorage "token" = some c → c ≠ "" →
      checkAuth s = .ok { s with token := .str c }) ∧
    (s.localStorage "token" = none →
      checkAuth s = .throw (.error "Not authenticated") { s with token := .null }) := by
  constructor
  · intro c hc hne
    simp [checkAuth, getItem, hc, JSValue.truthy, hne]
  · intro hn
    simp [checkAuth, getItem, hn, JSValue.truthy]

/-- The components that start after a login keep the credential and the storage. -/
theorem session_startComponents (s : State) :
    (startComponents s).token = s.token ∧ (startComponents s).localStorage = s.localStorage := by
  unfold startComponents initMap
  split <;> exact ⟨rfl, rfl⟩

/-- Showing or hiding an element keeps the credential and the storage. -/
theorem session_setDisplayIfPresent (id v : String) (s : State) :
    (setDisplayIfPresent id v s).token = s.token ∧
      (setDisplayIfPresent id v s).localStorage = s.localStorage := by
  unfold setDisplayIfPresent
  cases s.dom id <;> exact ⟨rfl, rfl⟩

/-- A successful login stores the access token and holds it in memory. -/
theorem resumeLogin_stores (s : State) (data : JSValue) (c : String)
    (hd : data.get "access_token" = .ok (.str c)) :
    (resumeLogin (okResponse data) s).localStorage "token" = some c ∧
    (resumeLogin (okResponse data) s).token = .str c := by
  have e : resumeLogin (okResponse data) s =
      startComponents (setDisplayIfPresent "main-content" "block"
        (setDisplayIfPresent "login-form" "none"
          { setItem "token" (.str c) s with token := .str c })) := by
    simp [resumeLogin, okResponse, awaitJson, storeLoginToken, hd, evalThen]
  rw [e, (session_startComponents _).1, (session_startComponents _).2,
    (session_setDisplayIfPresent _ _ _).1, (session_setDisplayIfPresent _ _ _).2,
    (session_setDisplayIfPresent _ _ _).1, (session_setDisplayIfPresent _ _ _).2]
  exact ⟨by simp [setItem, JSValue.toStr], rfl⟩

/-- After `logout` nothing is stored under the key and the variable is `null`. -/
theorem logout_clears (s : State) :
    (logout s).localStorage "token" = none ∧ (logout s).token = .null := by
  unfold logout showLoginForm
  rw [(session_setDisplayIfPresent _ _ _).1, (session_setDisplayIfPresent _ _ _).2,
    (session_setDisplayIfPresent _ _ _).1, (session_setDisplayIfPresent _ _ _).2]
  exact ⟨by simp [removeItem], rfl⟩

/-- C19: after a successful login whose response carries the non-empty access
token `c`, the key `token` of the browser storage holds `c`, the variable holds
`c`, and a later `checkAuth`, after any events of the page, succeeds with
credential `c`.  After `logout` the key is absent and the variable is `null`,
and a later `checkAuth`, after any events of the page, fails with
"Not authenticated". -/
theorem session_round_trip (L : Leaflet) (s : State) (data : JSValue) (c : String)
    (events : List Event) (hd : data.get "access_token" = .ok (.str c)) (hc : c ≠ "") :
    (resumeLogin (okResponse data) s).localStorage "token" = some c ∧
    (resumeLogin (okResponse data) s).token = .str c ∧
    (∃ s3, checkAuth (run L (resumeLogin (okResponse data) s) events) = .ok s3 ∧
      s3.token = .str c) ∧
    (logout s).localStorage "token" = none ∧
    (logout s).token = .null ∧
    (∃ s3, checkAuth (run L (logout s) events) = .throw (.error "Not authenticated") s3 ∧
      s3.token = .null) := by
  obtain ⟨h1, h2⟩ := resumeLogin_stores s data c hd
  obtain ⟨k1, k2⟩ := logout_clears s
  refine ⟨h1, h2, ⟨_, (checkAuth_of_stored _).1 c ?_ hc, rfl⟩, k1, k2,
    ⟨_, (checkAuth_of_stored _).2 ?_, rfl⟩⟩
  · rw [storage_run]; exact h1
  · rw [storage_run]; exact k1

/-- C19, witness: a login on the fresh page that returns "abc", then a refresh of
the list and its answer, then `checkAuth`; and the same after `logout`. -/
theorem session_round_trip_witness :
    (resumeLogin (tokenResponse "abc") freshState).localStorage "token" = some "abc" ∧
    (resumeLogin (tokenResponse "abc") freshState).token = .str "abc" ∧
    (∃ s3, checkAuth (run Leaflet.lenient (resumeLogin (tokenResponse "abc") freshState)
        [.loadFields, .respond 1 (okResponse (.arr [fieldF1]))]) = .ok s3 ∧
      s3.token = .str "abc") ∧
    (logout freshState).localStorage "token" = none ∧
    (logout freshState).token = .null ∧
    (∃ s3, checkAuth (run Leaflet.lenient (logout freshState)
        [.loadFields, .respond 1 (okResponse (.arr [fieldF1]))])
        = .throw (.error "Not authenticated") s3 ∧ s3.token = .null) :=
  session_round_trip Leaflet.lenient freshState
    (.obj [("access_token", .str "abc"), ("token_type", .str "bearer")]) "abc"
    [.loadFields, .respond 1 (okResponse (.arr [fieldF1]))] rfl (by decide)

end Dashboard

/-! ## The loading state of the analysis -/

namespace FieldMonitor

/-- C20 (amended): in `field-monitor.js`, for every prior display state of a page
that has the two date inputs and the health status element, `loadFieldAnalysis`
first writes the loading indicator into the health status, with the request log
still as it was, and then issues its request; whatever the health status showed
before, a displayed failure included, is replaced.  In `dashboard.js`
`loadFieldAnalysis` issues its request and leaves the document as it is: it has
no loading state. -/
theorem analysis_start_shows_loading (fieldId : JSValue) (awaitedBy : Option JSValue)
    (s : State) (sd ed hs : Element) (provider : JSValue) (d : Dashboard.State)
    (hsd : s.dom "start-date" = some sd) (hed : s.dom "end-date" = some ed)
    (hhs : s.dom "health-status" = some hs) :
    (∃ s1, setInnerHTML "health-status" loadingHtml s = .ok s1 ∧
      s1.requests = s.requests ∧
      shown s1 "health-status" = some (.html loadingHtml) ∧
      loadFieldAnalysis fieldId awaitedBy s = .waiting (fetchPlain
        ("/api/fields/" ++ fieldId.toStr ++ "/analyze?" ++ queryString sd.value ed.value)
        (.loadFieldAnalysis awaitedBy) s1) ∧
      shown (fetchPlain
        ("/api/fields/" ++ fieldId.toStr ++ "/analyze?" ++ queryString sd.value ed.value)
        (.loadFieldAnalysis awaitedBy) s1) "health-status" = some (.html loadingHtml) ∧
      (fetchPlain
        ("/api/fields/" ++ fieldId.toStr ++ "/analyze?" ++ queryString sd.value ed.value)
        (.loadFieldAnalysis awaitedBy) s1).requests = s.requests ++ [plainRequest
          ("/api/fields/" ++ fieldId.toStr ++ "/analyze?" ++ queryString sd.value ed.value)]) ∧
    (Dashboard.loadFieldAnalysis fieldId provider d).dom = d.dom := by
  refine ⟨⟨{ s with dom := s.dom.set "health-status" { hs with content := .html loadingHtml } },
    by simp [setInnerHTML, hhs], rfl, by simp [shown, Dom.set], ?_,
    by simp [shown, fetchPlain, Dom.set], by simp [fetchPlain, plainRequest]⟩, rfl⟩
  simp [loadFieldAnalysis, inputValue, hsd, hed, setInnerHTML, hhs]

/-- C20, witness: the analysis starts on a page that shows "Analysis failed". -/
theorem analysis_start_shows_loading_witness :
    shown (resumeLoadFieldAnalysis none (failResponse 500 "Internal Server Error") sampleState)
      "health-status" = some (.html failedHtml) ∧
    ∃ s1, setInnerHTML "health-status" loadingHtml
        (resumeLoadFieldAnalysis none (failResponse 500 "Internal Server Error") sampleState)
        = .ok s1 ∧
      s1.requests =
        (resumeLoadFieldAnalysis none (failResponse 500 "Internal Server Error")
          sampleState).requests ∧
      shown s1 "health-status" = some (.html loadingHtml) :=
  ⟨by decide,
    (analysis_start_shows_loading (.str "f1") none
      (resumeLoadFieldAnalysis none (failResponse 500 "Internal Server Error") sampleState)
      { blankElement with value := "2024-01-01" } { blankElement with value := "2024-03-31" }
      { blankElement with content := .html failedHtml } .null Dashboard.sampleState
      rfl rfl rfl).1.imp (fun _ h => ⟨h.1, h.2.1, h.2.2.1⟩)⟩

end FieldMonitor

namespace Dashboard

/-- C20, counterexample: in `dashboard.js` the analysis of f1 fails and the
analysis container shows the failure.  Then f2 is selected and its details
arrive, so the analysis request for f2 is issued: the container still shows the
failure of f1 and the health status shows no loading state. -/
theorem failed_display_survives_selection :
    ((run Leaflet.lenient sampleState
      [.loadFieldDetails (.str "f1"), .respond 0 (okResponse detailF1),
       .respond 1 (failResponse 500 "Internal Server Error"),
       .loadFieldDetails (.str "f2"), .respond 2 (okResponse fieldF2)]).dom
        "analysis-container").map (fun el => el.content)
      = some (.html (analysisAlert "Failed to analyze field")) ∧
    ((run Leaflet.lenient sampleState
      [.loadFieldDetails (.str "f1"), .respond 0 (okResponse detailF1),
       .respond 1 (failResponse 500 "Internal Server Error"),
       .loadFieldDetails (.str "f2"), .respond 2 (okResponse fieldF2)]).dom
        "health-status").map (fun el => el.content) = some (.html "") ∧
    (run Leaflet.lenient sampleState
      [.loadFieldDetails (.str "f1"), .respond 0 (okResponse detailF1),
       .respond 1 (failResponse 500 "Internal Server Error"),
       .loadFieldDetails (.str "f2"), .respond 2 (okResponse fieldF2)]).requests.map
        (fun r => r.url)
      = ["/api/fields/f1", "/api/fields/f1/analyze", "/api/fields/f2",
         "/api/fields/f2/analyze"] := by
  decide

end Dashboard

/-! ## Selecting a field and the map -/

namespace Dashboard

/-- The continuation of `loadFieldDetails` leaves the map as it is. -/
theorem map_resumeLoadFieldDetails (fieldId : JSValue) (o : Outcome) (s : State) :
    (resumeLoadFieldDetails fieldId o s).map = s.map := by
  cases o with
  | rejected m => rfl
  | resolved r =>
    obtain ⟨status, ok, statusText, json⟩ := r
    cases ok with
    | false => rfl
    | true =>
      cases json with
      | error m => rfl
      | ok field =>
        have hd := onlyDom_displayFieldDetails field { s with selectedField := field }
        have hres : resumeLoadFieldDetails fieldId
            (.resolved ⟨status, true, statusText, .ok field⟩) s =
            match (displayFieldDetails field { s with selectedField := field }).bind
              (fun s => .ok (showFieldDetails (loadFieldAnalysis fieldId .null s))) with
            | .ok s1 => s1
            | .throw e s1 => catchLoadFieldDetails e s1 := rfl
        rw [hres]
        cases hdf : displayFieldDetails field { s with selectedField := field } with
        | throw e s1 =>
          rw [hdf] at hd
          exact hd.map_eq
        | ok s1 =>
          rw [hdf] at hd
          have hsh := onlyDom_showFieldDetails (loadFieldAnalysis fieldId .null s1)
          simp only [Res.bind]
          rw [hsh.map_eq]
          exact hd.map_eq

end Dashboard

namespace ReactDashboard

/-- C21 (defect): in `Dashboard.jsx` the mount effect stores the map in
`mapRef.current`, and the effect on the selected field tests and uses
`mapInstance.current`, which is never assigned.  After the mount, selecting the
first field of the sidebar, which has coordinates, leaves the map at zoom 5 with
no marker.  Had the effect been given the map, it would have centred it on the
field at zoom 13 and added one marker. -/
theorem selection_effect_misses_the_map :
    (mountEffect initialRefs).mapRef.map MapView.summary = some (5, "20.5937,78.9629", 0) ∧
    (mountEffect initialRefs).mapInstance.isNone = true ∧
    sidebarField.truthy = true ∧
    (sidebarField.get "coordinates").toOption.map JSValue.toStr = some "20.5937,78.9629" ∧
    (selectedFieldEffect sidebarField (mountEffect initialRefs)).toOption.map
        (fun r => (r.mapRef.map MapView.summary, r.mapInstance.isNone))
      = some (some (5, "20.5937,78.9629", 0), true) ∧
    (selectedFieldEffect fieldNearNagpur (mountEffect initialRefs)).toOption.map
        (fun r => (r.mapRef.map MapView.summary, r.mapInstance.isNone))
      = some (some (5, "20.5937,78.9629", 0), true) ∧
    (selectedFieldEffect fieldNearNagpur ⟨none, some createdMap⟩).toOption.map
        (fun r => r.mapInstance.map MapView.summary)
      = some (some (13, "21.15,79.09", 1)) := by
  decide

end ReactDashboard

/-! ## The single map instance -/

namespace Dashboard

theorem SameMapPresence.sameMap (s : State) : SameMapPresence s s := rfl

theorem SameMapPresence.thenMap {s1 s2 s3 : State} (h12 : SameMapPresence s1 s2)
    (h23 : SameMapPresence s2 s3) : SameMapPresence s1 s3 :=
  Eq.trans h23 h12

theorem mapKept_of_onlyDom {s1 s2 : State} (h : OnlyDom s1 s2) : SameMapPresence s1 s2 := by
  unfold SameMapPresence
  rw [h.map_eq]

theorem mapKept_bind {s : State} {r : Res State} {k : State → Res State}
    (hr : SameMapPresence s r.state) (hk : ∀ s1, SameMapPresence s1 (k s1).state) :
    SameMapPresence s (r.bind k).state := by
  cases r with
  | ok s1 => exact hr.thenMap (hk s1)
  | throw e s1 => exact hr

theorem mapKept_evalThen {α : Type} (e : Except JSError α) (k : α → State → Res State)
    (s : State) (hk : ∀ a s1, SameMapPresence s1 (k a s1).state) :
    SameMapPresence s (evalThen e k s).state := by
  cases e with
  | ok a => exact hk a s
  | error err => exact SameMapPresence.sameMap s

theorem mapKept_setInnerHTML (id m : String) (s : State) :
    SameMapPresence s (setInnerHTML id m s).state := by
  unfold setInnerHTML
  cases s.dom id <;> rfl

theorem mapKept_renderInto (id : String) (m : Except JSError String) (s : State) :
    SameMapPresence s (renderInto id m s).state := by
  unfold renderInto
  cases s.dom id with
  | none => rfl
  | some el => cases m <;> rfl

theorem mapKept_settle (r : Res State) : SameMapPresence r.state (settle r) := by
  cases r <;> rfl

theorem mapKept_displayFields (fields : JSValue) (s : State) :
    SameMapPresence s (displayFields fields s).state := by
  unfold displayFields
  cases s.dom "fields-list" with
  | none => rfl
  | some el =>
    refine mapKept_evalThen _ _ _ (fun len s1 => ?_)
    split
    · rfl
    · refine mapKept_evalThen _ _ _ (fun items s2 => ?_)
      exact mapKept_evalThen _ _ _ (fun html s3 => rfl)

theorem mapKept_addLayer (l : Layer) (s : State) : SameMapPresence s (addLayer l s) := by
  unfold SameMapPresence addLayer
  cases s.map <;> rfl

theorem mapKept_drawField (L : Leaflet) (field : JSValue) (s : State) :
    SameMapPresence s (drawField L field s).state := by
  unfold drawField
  refine mapKept_evalThen _ _ _ (fun latLngs s1 => ?_)
  cases L.polygon latLngs with
  | some e => rfl
  | none => cases popupText field <;> exact mapKept_addLayer _ _

theorem mapKept_drawFields (L : Leaflet) (fields : List JSValue) (s : State) :
    SameMapPresence s (drawFields L fields s).state := by
  induction fields generalizing s with
  | nil => rfl
  | cons f rest ih =>
    unfold drawFields
    cases hasGeometry f with
    | error e => rfl
    | ok b =>
      cases b with
      | false => exact ih s
      | true =>
        have hd := mapKept_drawField L f s
        cases hdf : drawField L f s with
        | ok s1 => rw [hdf] at hd; exact hd.thenMap (ih s1)
        | throw e s1 =>
          rw [hdf] at hd
          have hc : SameMapPresence s1 (consoleError "Error adding field to map:" e s1) := rfl
          exact (hd.thenMap hc).thenMap (ih _)

theorem mapKept_addFieldsToMap (L : Leaflet) (fields : JSValue) (s : State) :
    SameMapPresence s (addFieldsToMap L fields s).state := by
  unfold addFieldsToMap
  cases hm : s.map with
  | none => unfold SameMapPresence; simp only [Res.state, hm]
  | some m =>
    have h0 : SameMapPresence s
        { s with map := some { m with layers := m.layers.filter (fun l => !l.isPolygon) } } := by
      unfold SameMapPresence; rw [hm]; rfl
    refine h0.thenMap (mapKept_evalThen _ _ _ (fun items s1 => ?_))
    refine mapKept_bind (mapKept_drawFields L items s1) (fun s2 => ?_)
    split
    · refine mapKept_evalThen _ _ _ (fun bounds s3 => ?_)
      split
      · unfold fitBounds
        cases L.fitBounds bounds with
        | some e => rfl
        | none => unfold SameMapPresence; cases s3.map <;> rfl
      · rfl
    · rfl

theorem mapKept_updateAnalysisUI (a : JSValue) (s : State) :
    SameMapPresence s (updateAnalysisUI a s).state := by
  unfold updateAnalysisUI
  exact mapKept_bind (mapKept_bind (mapKept_bind (mapKept_renderInto _ _ _)
    (fun s1 => mapKept_renderInto _ _ _)) (fun s1 => mapKept_renderInto _ _ _))
    (fun s1 => mapKept_renderInto _ _ _)

theorem mapKept_awaitJson (notOk : Response → String) (o : Outcome)
    (k : JSValue → State → Res State) (s : State)
    (hk : ∀ a s1, SameMapPresence s1 (k a s1).state) :
    SameMapPresence s (awaitJson notOk o k s).state := by
  unfold awaitJson
  cases o with
  | rejected m => rfl
  | resolved r =>
    dsimp only
    split
    · rfl
    · cases r.json with
      | error m => rfl
      | ok data => exact hk data s

theorem mapKept_resumeLoadFields (L : Leaflet) (o : Outcome) (s : State) :
    SameMapPresence s (resumeLoadFields L o s) := by
  unfold resumeLoadFields
  have h := mapKept_awaitJson (fun _ => "Failed to load fields") o
    (fun fields s => (displayFields fields s).bind (addFieldsToMap L fields)) s
    (fun a s1 => mapKept_bind (mapKept_displayFields a s1)
      (fun s2 => mapKept_addFieldsToMap L a s2))
  cases hr : awaitJson (fun _ => "Failed to load fields") o
      (fun fields s => (displayFields fields s).bind (addFieldsToMap L fields)) s with
  | ok s1 => rw [hr] at h; exact h
  | throw e s1 =>
    rw [hr] at h
    refine (h.thenMap ?_).thenMap (mapKept_settle _)
    unfold catchLoadFields
    have hc : SameMapPresence s1 (consoleError "Error loading fields:" e s1) := rfl
    exact hc.thenMap (mapKept_setInnerHTML _ _ _)

theorem mapKept_resumeLoadFieldAnalysis (o : Outcome) (s : State) :
    SameMapPresence s (resumeLoadFieldAnalysis o s) := by
  unfold resumeLoadFieldAnalysis
  have h := mapKept_awaitJson (fun _ => "Failed to analyze field") o updateAnalysisUI s
    (fun a s1 => mapKept_updateAnalysisUI a s1)
  cases hr : awaitJson (fun _ => "Failed to analyze field") o updateAnalysisUI s with
  | ok s1 => rw [hr] at h; exact h
  | throw e s1 =>
    rw [hr] at h
    refine (h.thenMap ?_).thenMap (mapKept_settle _)
    unfold catchLoadFieldAnalysis
    have hc : SameMapPresence s1 (consoleError "Error analyzing field:" e s1) := rfl
    exact hc.thenMap (mapKept_setInnerHTML _ _ _)

/-- One event of the page keeps the presence of the map. -/
theorem mapKept_step (L : Leaflet) (s : State) (ev : Event) :
    SameMapPresence s (step L s ev) := by
  cases ev with
  | loadFields => rfl
  | loadFieldDetails fieldId => rfl
  | backToList =>
    unfold step backToList
    dsimp only
    split <;> rfl
  | filterSatelliteProvider provider =>
    simp only [step, filterSatelliteProvider]
    split
    · cases hg : s.selectedField.get "field_id" <;> rfl
    · rfl
  | respond k o =>
    simp only [step]
    cases s.pending.find? (fun p => p.1 == k) with
    | none => rfl
    | some p =>
      dsimp only
      have h0 : SameMapPresence s
          { s with pending := s.pending.filter (fun p => p.1 != k) } := rfl
      refine h0.thenMap ?_
      generalize ({ s with pending := s.pending.filter (fun p => p.1 != k) } : State) = s0
      cases p.2 with
      | loadFields => exact mapKept_resumeLoadFields L o s0
      | loadFieldAnalysis => exact mapKept_resumeLoadFieldAnalysis o s0
      | loadFieldDetails fieldId =>
        unfold SameMapPresence
        rw [show resume L (.loadFieldDetails fieldId) o s0 = resumeLoadFieldDetails fieldId o s0
          from rfl, map_resumeLoadFieldDetails]

/-- The function `initMap` as a case distinction. -/
theorem initMap_cases (s : State) :
    (∀ m, s.map = some m → initMap s = s) ∧
    (s.dom "map" = none → initMap s = s) ∧
    (s.map = none → ∀ el, s.dom "map" = some el →
      initMap s = { s with map := some { layers := [.tile baseTileUrl], fitted := none } }) := by
  refine ⟨fun m hm => by simp [initMap, hm], fun hn => by simp [initMap, hn],
    fun hm el hel => by simp [initMap, hm, hel]⟩

/-- A map that exists stays: no session event empties the variable `map`. -/
theorem map_stays (L : Leaflet) (s : State) (ev : SessionEvent)
    (h : s.map.isSome = true) : (sessionStep L s ev).map.isSome = true := by
  have hinit : ∀ s0 : State, s0.map.isSome = true → (initMap s0).map.isSome = true := by
    intro s0 h0
    unfold initMap
    split
    · rfl
    · exact h0
  have hdisp : ∀ id v (s0 : State), (setDisplayIfPresent id v s0).map = s0.map := by
    intro id v s0
    unfold setDisplayIfPresent
    cases s0.dom id <;> rfl
  cases ev with
  | initApp =>
    have hca : (checkAuth s).state.map = s.map := by
      unfold checkAuth
      dsimp only
      split <;> rfl
    simp only [sessionStep, initApp]
    cases hc : checkAuth s with
    | ok s1 =>
      rw [hc] at hca
      exact hinit s1 (by rw [show s1.map = s.map from hca]; exact h)
    | throw e s1 =>
      rw [hc] at hca
      exact (congrArg Option.isSome (show s1.map = s.map from hca)).trans h
  | demoTokenResponse o =>
    have hk : (resumeGetDemoToken o s).map = s.map := by
      have ha := mapKept_awaitJson (fun _ => "Failed to get demo token") o storeDemoToken s
      unfold resumeGetDemoToken
      cases o with
      | rejected m => rfl
      | resolved r =>
        obtain ⟨status, ok, statusText, json⟩ := r
        cases ok with
        | false => rfl
        | true =>
          cases json with
          | error m => rfl
          | ok data =>
            cases hg : data.get "access_token" with
            | error e => simp [awaitJson, storeDemoToken, hg, evalThen, catchGetDemoToken, alert,
                consoleError]
            | ok t => simp [awaitJson, storeDemoToken, hg, evalThen, setItem]
    exact hinit _ (by rw [hk]; exact h)
  | login =>
    have hl : (settle (login s)).map = s.map := by
      unfold login
      cases inputValue "username" s with
      | error e => rfl
      | ok u =>
        simp only [evalThen]
        cases inputValue "password" s with
        | error e => rfl
        | ok p => rfl
    exact (congrArg Option.isSome hl).trans h
  | loginResponse o =>
    simp only [sessionStep, resumeLogin]
    cases o with
    | rejected m => exact h
    | resolved r =>
      obtain ⟨status, ok, statusText, json⟩ := r
      cases ok with
      | false => exact h
      | true =>
        cases json with
        | error m => exact h
        | ok data =>
          cases hg : data.get "access_token" with
          | error e =>
            simp only [awaitJson, storeLoginToken, hg, evalThen]
            exact h
          | ok t =>
            simp only [awaitJson, storeLoginToken, hg, evalThen, Bool.not_true,
              Bool.false_eq_true, if_false]
            exact hinit _ (by rw [hdisp, hdisp]; exact h)
  | logout =>
    simp only [sessionStep, logout, showLoginForm]
    rw [hdisp, hdisp]
    exact h
  | initMap => exact hinit s h
  | page ev => exact (mapKept_step L s ev).trans h

/-- C22: in every sequence of session events (the start of the page with its
demo credential path, logins and their responses, logouts, further calls of
`initMap`, and the events of the page), from every state, at most one map
instance is created, and none when a map exists at the start.  `initMap` leaves
the state as it is when a map exists, and creates the map with its base tile
layer when none exists and the page has the map element. -/
theorem at_most_one_map (L : Leaflet) (s : State) (events : List SessionEvent) :
    mapCreations L s events ≤ 1 ∧
    (s.map.isSome = true → mapCreations L s events = 0) ∧
    (∀ m, s.map = some m → initMap s = s) ∧
    (s.map = none → ∀ el, s.dom "map" = some el →
      initMap s = { s with map := some { layers := [.tile baseTileUrl], fitted := none } }) := by
  have hzero : ∀ (events : List SessionEvent) (s : State), s.map.isSome = true →
      mapCreations L s events = 0 := by
    intro events
    induction events with
    | nil => intro s _; rfl
    | cons ev rest ih =>
      intro s h
      have hn : s.map.isNone = false := by
        cases hm : s.map with
        | none => rw [hm] at h; cases h
        | some m => rfl
      simp only [mapCreations, createsMap, hn, Bool.false_and, Bool.false_eq_true, if_false,
        Nat.zero_add]
      exact ih _ (map_stays L s ev h)
  have hle : ∀ (events : List SessionEvent) (s : State), mapCreations L s events ≤ 1 := by
    intro events
    induction events with
    | nil => intro s; exact Nat.zero_le 1
    | cons ev rest ih =>
      intro s
      unfold mapCreations
      by_cases hc : createsMap s (sessionStep L s ev) = true
      · have hs : (sessionStep L s ev).map.isSome = true := by
          simp only [createsMap, Bool.and_eq_true] at hc
          exact hc.2
        rw [if_pos hc, hzero rest _ hs]
      · rw [if_neg hc, Nat.zero_add]
        exact ih _
  exact ⟨hle events s, hzero events s, (initMap_cases s).1, (initMap_cases s).2.2⟩

/-- C22, witness: the fresh page starts without a stored credential, gets the
demo credential, a login follows, and `initMap` is called twice more: exactly
one map is created.  On the signed-in page, which has a map, `initMap` changes nothing. -/
theorem at_most_one_map_witness :
    mapCreations Leaflet.lenient freshState
      [.initApp, .initMap, .demoTokenResponse (tokenResponse "abc"), .login,
       .loginResponse (tokenResponse "xyz"), .initMap] ≤ 1 ∧
    mapCreations Leaflet.lenient freshState
      [.initApp, .initMap, .demoTokenResponse (tokenResponse "abc"), .login,
       .loginResponse (tokenResponse "xyz"), .initMap] = 1 ∧
    initMap signedInState = signedInState :=
  ⟨(at_most_one_map Leaflet.lenient freshState
      [.initApp, .initMap, .demoTokenResponse (tokenResponse "abc"), .login,
       .loginResponse (tokenResponse "xyz"), .initMap]).1,
    by decide,
    (at_most_one_map Leaflet.lenient signedInState []).2.2.1 _ rfl⟩

end Dashboard

/-! ## The trend chart -/

namespace FieldMonitor

/-- The chart that `displayTrendChart` constructs, for a series whose three
properties can be read. -/
theorem displayTrendChart_of (data dates ndvi precipitation : JSValue) (s : State)
    (el : Element) (hd : data.get "dates" = .ok dates) (hn : data.get "ndvi" = .ok ndvi)
    (hp : data.get "precipitation" = .ok precipitation)
    (hel : s.dom "trend-chart" = some el) :
    ∃ config s2, chartConfig data = .ok config ∧ displayTrendChart data s = .ok s2 ∧
      s2.charts = s.charts ++ [config] ∧ config.labels = dates ∧
      config.datasets.map (fun d => d.data) = [ndvi, precipitation] ∧
      config.datasets.map (fun d => (d.label, d.yAxisID, d.chartType))
        = [("NDVI", "y", none), ("Precipitation (mm)", "y1", some "bar")] ∧
      config.scales.map (fun a => (a.1, a.2.beginAtZero, a.2.max, a.2.position))
        = [("y", true, some 1, none), ("y1", true, none, some "right")] := by
  have hc : ∃ config, chartConfig data = .ok config ∧ config.labels = dates ∧
      config.datasets.map (fun d => d.data) = [ndvi, precipitation] ∧
      config.datasets.map (fun d => (d.label, d.yAxisID, d.chartType))
        = [("NDVI", "y", none), ("Precipitation (mm)", "y1", some "bar")] ∧
      config.scales.map (fun a => (a.1, a.2.beginAtZero, a.2.max, a.2.position))
        = [("y", true, some 1, none), ("y1", true, none, some "right")] := by
    simp only [chartConfig, hd, hn, hp, bind, Except.bind, pure, Except.pure]
    exact ⟨_, rfl, rfl, rfl, rfl, rfl⟩
  obtain ⟨config, h1, h2, h3, h4, h5⟩ := hc
  have hs : ∃ s2, displayTrendChart data s = .ok s2 ∧ s2.charts = s.charts ++ [config] := by
    simp only [displayTrendChart, setInnerHTML, hel, Res.bind, h1, evalThen]
    exact ⟨_, rfl, rfl⟩
  obtain ⟨s2, hs1, hs2⟩ := hs
  exact ⟨config, s2, h1, hs1, hs2, h2, h3, h4, h5⟩

/-- C23 (amended): for every trend series whose dates, ndvi and precipitation can
be read, on a page with the chart container, `displayTrendChart` constructs one
chart whose labels are the dates, whose first dataset is the ndvi sequence on
the axis `y`, and whose second dataset is the precipitation sequence on the axis
`y1` on the right.  The axis `y` has the options begin-at-zero and maximum 1 and
no minimum; the axis `y1` has the option begin-at-zero and neither a minimum nor
a maximum.  The three sequences are passed through unchanged, and the chart
depends on nothing but the series: arrays of equal length give series of that
same length. -/
theorem trend_chart_projection (data dates ndvi precipitation : JSValue) (s : State)
    (el : Element) (hd : data.get "dates" = .ok dates) (hn : data.get "ndvi" = .ok ndvi)
    (hp : data.get "precipitation" = .ok precipitation)
    (hel : s.dom "trend-chart" = some el) :
    ∃ config s2, chartConfig data = .ok config ∧ displayTrendChart data s = .ok s2 ∧
      s2.charts = s.charts ++ [config] ∧ config.labels = dates ∧
      config.datasets.map (fun d => d.data) = [ndvi, precipitation] ∧
      config.datasets.map (fun d => (d.label, d.yAxisID, d.chartType))
        = [("NDVI", "y", none), ("Precipitation (mm)", "y1", some "bar")] ∧
      config.scales.map (fun a => (a.1, a.2.beginAtZero, a.2.min, a.2.max, a.2.position))
        = [("y", true, none, some 1, none), ("y1", true, none, none, some "right")] ∧
      (∀ n, dates.arrayLength = n → ndvi.arrayLength = n → precipitation.arrayLength = n →
        seriesLengths config = [n, n, n]) := by
  obtain ⟨config, s2, h1, h2, h3, h4, h5, h6, _⟩ :=
    displayTrendChart_of data dates ndvi precipitation s el hd hn hp hel
  have h7 : config.scales.map (fun a => (a.1, a.2.beginAtZero, a.2.min, a.2.max, a.2.position))
      = [("y", true, none, some 1, none), ("y1", true, none, none, some "right")] := by
    simp only [chartConfig, hd, hn, hp, bind, Except.bind, pure, Except.pure,
      Except.ok.injEq] at h1
    rw [← h1]
    rfl
  refine ⟨config, s2, h1, h2, h3, h4, h5, h6, h7, fun n a b c => ?_⟩
  have hl : config.datasets.map (fun d => d.data.arrayLength)
      = [ndvi.arrayLength, precipitation.arrayLength] := by
    have := congrArg (List.map JSValue.arrayLength) h5
    simpa [List.map_map, Function.comp] using this
  simp only [seriesLengths, h4, hl, a, b, c]

/-- C23, witness: the series of three days on the sample page. -/
theorem trend_chart_projection_witness :
    ∃ config s2, chartConfig sampleTrend = .ok config ∧
      displayTrendChart sampleTrend sampleState = .ok s2 ∧
      s2.charts = sampleState.charts ++ [config] ∧
      config.scales.map (fun a => (a.1, a.2.beginAtZero, a.2.min, a.2.max, a.2.position))
        = [("y", true, none, some 1, none), ("y1", true, none, none, some "right")] ∧
      dataTexts config = ["0.41,0.45,0.52", "0,12.5,3"] ∧
      seriesLengths config = [3, 3, 3] := by
  obtain ⟨config, s2, h1, h2, h3, _, h5, _, h7, h8⟩ := trend_chart_projection sampleTrend
    (.arr [.str "2024-01-01", .str "2024-01-02", .str "2024-01-03"])
    (.arr [decimal 41 2, decimal 45 2, decimal 52 2])
    (.arr [decimal 0 0, decimal 125 1, decimal 3 0]) sampleState blankElement rfl rfl rfl rfl
  refine ⟨config, s2, h1, h2, h3, h7, ?_, h8 3 rfl rfl rfl⟩
  have := congrArg (List.map JSValue.toStr) h5
  simp only [List.map_map] at this
  exact this.trans (by decide)

/-- C23, counterexample: for a series with an NDVI of -0.12 the chart is given
that value unchanged, on the axis `y`, whose options are begin-at-zero and
maximum 1: the configuration sets no minimum, so the lower end of the primary
axis is not fixed at 0. -/
theorem primary_axis_has_no_minimum :
    (chartConfig winterTrend).toOption.map dataTexts = some ["-0.12,0.05", "4,0"] ∧
    (chartConfig winterTrend).toOption.map
        (fun c => c.datasets.map (fun d => (d.label, d.yAxisID)))
      = some [("NDVI", "y"), ("Precipitation (mm)", "y1")] ∧
    (chartConfig winterTrend).toOption.map
        (fun c => c.scales.map (fun a => (a.1, a.2.beginAtZero, a.2.min, a.2.max)))
      = some [("y", true, none, some 1), ("y1", true, none, none)] ∧
    (chartConfig winterTrend).toOption.map
        (fun c => c.scales.map (fun a => decide (a.2.min = some 0)))
      = some [false, false] := by
  decide

/-- C24: for every trend series whose dates, ndvi and precipitation are empty
sequences, on a page with the chart container, `displayTrendChart` completes
without an exception and constructs a chart with no labels and two datasets
without data. -/
theorem empty_trend_renders (data : JSValue) (s : State) (el : Element)
    (hd : data.get "dates" = .ok (.arr [])) (hn : data.get "ndvi" = .ok (.arr []))
    (hp : data.get "precipitation" = .ok (.arr []))
    (hel : s.dom "trend-chart" = some el) :
    ∃ config s2, displayTrendChart data s = .ok s2 ∧ s2.charts = s.charts ++ [config] ∧
      config.labels = .arr [] ∧
      config.datasets.map (fun d => d.data) = [.arr [], .arr []] ∧
      config.datasets.length = 2 ∧ seriesLengths config = [0, 0, 0] ∧
      shown s2 "trend-chart" = some (.html "<canvas id=\"trend-canvas\"></canvas>") := by
  obtain ⟨config, s2, h1, h2, h3, h4, h5, h6, h7⟩ :=
    displayTrendChart_of data (.arr []) (.arr []) (.arr []) s el hd hn hp hel
  have hl : config.datasets.map (fun d => d.data.arrayLength) = [0, 0] := by
    have := congrArg (List.map JSValue.arrayLength) h5
    simpa [List.map_map, Function.comp, JSValue.arrayLength] using this
  have hlen : config.datasets.length = 2 := by
    have := congrArg List.length h5
    simpa using this
  refine ⟨config, s2, h2, h3, h4, h5, hlen, ?_, ?_⟩
  · rw [seriesLengths, h4, hl]
    rfl
  · simp only [displayTrendChart, setInnerHTML, hel, Res.bind, h1, evalThen,
      Res.ok.injEq] at h2
    rw [← h2]
    simp [shown, Dom.set]

/-- C24, witness: the empty series on the sample page. -/
theorem empty_trend_renders_witness :
    ∃ config s2, displayTrendChart emptyTrend sampleState = .ok s2 ∧
      s2.charts = sampleState.charts ++ [config] ∧
      config.labels = .arr [] ∧
      config.datasets.map (fun d => d.data) = [.arr [], .arr []] ∧
      config.datasets.length = 2 ∧ seriesLengths config = [0, 0, 0] ∧
      shown s2 "trend-chart" = some (.html "<canvas id=\"trend-canvas\"></canvas>") :=
  empty_trend_renders emptyTrend sampleState blankElement rfl rfl rfl rfl

end FieldMonitor

/-! ## The satellite image placeholder -/

namespace Dashboard

/-- The three labels of the placeholder, for an analysis result that is an object. -/
theorem imageLabels_of (analysis metadata : JSValue)
    (hm : analysis.get "metadata" = .ok metadata) :
    ∃ labels, imageLabels analysis = .ok labels ∧
      (metadata.truthy = false → labels = ("Unknown", "Unknown", "Unknown")) ∧
      (∀ image, metadata.truthy = true → metadata.get "image" = .ok image →
        image.truthy = false → labels = ("Unknown", "Unknown", "Unknown")) ∧
      (∀ image provider resolution date, metadata.truthy = true →
        metadata.get "image" = .ok image → image.truthy = true →
        image.get "provider" = .ok provider → image.get "resolution" = .ok resolution →
        image.get "acquisition_date" = .ok date →
        labels = (labelOf provider "", labelOf resolution "m", labelOf date "")) := by
  have hget : ∀ (v : JSValue) (k : String), v.truthy = true → ∃ x, v.get k = .ok x := by
    intro v k hv
    cases v <;> simp [JSValue.truthy, JSValue.get] at hv ⊢
  have hor : ∀ v : JSValue, (v.orElse "Unknown").toStr = labelOf v "" := by
    intro v
    unfold JSValue.orElse labelOf
    split <;> simp [JSValue.toStr]
  cases ht : metadata.truthy with
  | false =>
    refine ⟨("Unknown", "Unknown", "Unknown"), ?_, fun _ => rfl, ?_, ?_⟩
    · simp only [imageLabels, hm, bind, Except.bind, ht, Bool.false_eq_true, if_false, pure,
        Except.pure]
    · intro _ h
      cases h
    · intro _ _ _ _ h
      cases h
  | true =>
    obtain ⟨image, hi⟩ := hget metadata "image" ht
    cases hit : image.truthy with
    | false =>
      refine ⟨("Unknown", "Unknown", "Unknown"), ?_, fun _ => rfl, fun _ _ _ _ => rfl, ?_⟩
      · simp only [imageLabels, hm, bind, Except.bind, ht, if_true, hi, hit, Bool.false_eq_true,
          if_false, pure, Except.pure]
      · intro image2 _ _ _ _ hi2 hit2
        rw [hi] at hi2
        cases hi2
        rw [hit] at hit2
        cases hit2
    | true =>
      obtain ⟨provider, hp⟩ := hget image "provider" hit
      obtain ⟨resolution, hr⟩ := hget image "resolution" hit
      obtain ⟨date, hd⟩ := hget image "acquisition_date" hit
      refine ⟨(labelOf provider "", labelOf resolution "m", labelOf date ""), ?_,
        fun h => (by cases h), ?_, ?_⟩
      · simp only [imageLabels, hm, bind, Except.bind, ht, if_true, hi, hit, hp, hr, hd, pure,
          Except.pure, hor]
        rfl
      · intro image2 _ hi2 hit2
        rw [hi] at hi2
        cases hi2
        rw [hit] at hit2
        cases hit2
      · intro image2 p2 r2 d2 _ hi2 _ hp2 hr2 hd2
        rw [hi] at hi2
        cases hi2
        rw [hp] at hp2
        rw [hr] at hr2
        rw [hd] at hd2
        cases hp2
        cases hr2
        cases hd2
        rfl

/-- On a value of the data model the label that the code computes is replaced
by "Unknown" exactly when the value is absent. -/
theorem labelOf_of_labelValue (v : JSValue) (unit : String) (h : labelValue v = true) :
    labelOf v unit = labelText v unit := by
  cases v with
  | undefined => rfl
  | null => rfl
  | str t =>
    have ht : t ≠ "" := by simpa [labelValue] using h
    simp [labelOf, labelText, isAbsent, JSValue.truthy, ht]
  | num n =>
    have hz : n.isZero = false := by simpa [labelValue] using h
    simp [labelOf, labelText, isAbsent, JSValue.truthy, hz]
  | bool b => simp [labelValue] at h
  | arr items => simp [labelValue] at h
  | obj props => simp [labelValue] at h

/-- C25: for every analysis result that is an object, with or without metadata,
image metadata or any of its three values, `updateSatelliteImage` completes
without an exception and writes the labelled placeholder, "Satellite Image
Visualization" with the lines "Provider:", "Resolution:" and "Date:", into the
image container (and returns at once when the page has no such container).
The three labels are "Unknown" when there is no metadata or no image metadata;
otherwise each is the label of its value, and for values of the data model
(absent, a non-empty string or a number other than zero) that is the provider,
the resolution followed by "m" and the acquisition date, each replaced by
"Unknown" exactly when the value is absent. -/
theorem satellite_placeholder (analysis metadata : JSValue) (s : State)
    (hm : analysis.get "metadata" = .ok metadata) :
    ∃ provider resolution date : String,
      (∀ el, s.dom "satellite-image" = some el → updateSatelliteImage analysis s =
        .ok (putHtml "satellite-image" el
          ("\n" ++ "        <div class=\"card\">\n" ++ "            <div class=\"card-body\">\n" ++
          "                <h5 class=\"card-title\">Satellite Image</h5>\n" ++
          "                <div class=\"placeholder-image\" style=\"height: 200px; background-color: #e9ecef; display: flex; align-items: center; justify-content: center;\">\n" ++
          "                    <div class=\"text-center\">\n" ++
          "                        <div><i class=\"fas fa-satellite fa-3x mb-3\"></i></div>\n" ++
          "                        <div>Satellite Image Visualization</div>\n" ++
          "                    </div>\n" ++ "                </div>\n" ++
          "                <div class=\"mt-3\">\n" ++
          "                    <small class=\"text-muted\">\n" ++
          "                        <strong>Provider:</strong> " ++ provider ++ "<br>\n" ++
          "                        <strong>Resolution:</strong> " ++ resolution ++ "<br>\n" ++
          "                        <strong>Date:</strong> " ++ date ++ "\n" ++
          "                    </small>\n" ++ "                </div>\n" ++ "            </div>\n" ++
          "        </div>\n" ++ "    ") s)) ∧
      (s.dom "satellite-image" = none → updateSatelliteImage analysis s = .ok s) ∧
      (metadata.truthy = false →
        provider = "Unknown" ∧ resolution = "Unknown" ∧ date = "Unknown") ∧
      (∀ image, metadata.truthy = true → metadata.get "image" = .ok image →
        image.truthy = false →
        provider = "Unknown" ∧ resolution = "Unknown" ∧ date = "Unknown") ∧
      (∀ image p r d, metadata.truthy = true →
        metadata.get "image" = .ok image → image.truthy = true →
        image.get "provider" = .ok p → image.get "resolution" = .ok r →
        image.get "acquisition_date" = .ok d →
        (labelValue p = true → provider = labelText p "") ∧
        (labelValue r = true → resolution = labelText r "m") ∧
        (labelValue d = true → date = labelText d "") ∧
        provider = labelOf p "" ∧ resolution = labelOf r "m" ∧ date = labelOf d "") := by
  obtain ⟨labels, h1, h2, h3, h4⟩ := imageLabels_of analysis metadata hm
  refine ⟨labels.1, labels.2.1, labels.2.2, fun el hel => ?_, fun hn => ?_, fun hf => ?_,
    fun image ht hi hit => ?_, fun image p r d ht hi hit hp hr hd => ?_⟩
  · simp only [updateSatelliteImage, renderInto, hel, h1, Except.map, evalThen]
    rfl
  · simp only [updateSatelliteImage, renderInto, hn]
  · rw [h2 hf]
    exact ⟨rfl, rfl, rfl⟩
  · rw [h3 image ht hi hit]
    exact ⟨rfl, rfl, rfl⟩
  · rw [h4 image p r d ht hi hit hp hr hd]
    exact ⟨fun h => labelOf_of_labelValue p "" h, fun h => labelOf_of_labelValue r "m" h,
      fun h => labelOf_of_labelValue d "" h, rfl, rfl, rfl⟩

/-- C25, witness: image metadata with a provider and a resolution of 5.8 but no
date gives the placeholder with "liss_iv", "5.8m" and "Unknown"; an analysis
result without metadata gives "Unknown" three times. -/
theorem satellite_placeholder_witness :
    (∃ provider resolution date : String,
      (provider = labelText (.str "liss_iv") "" ∧ resolution = labelText (decimal 58 1) "m" ∧
        date = labelText .undefined "") ∧
      provider = "liss_iv" ∧ resolution = "5.8m" ∧ date = "Unknown") ∧
    ((updateSatelliteImage partialImageAnalysis sampleState).state.dom "satellite-image").map
        (fun el => el.content) = some (.html
      ("\n        <div class=\"card\">\n            <div class=\"card-body\">\n" ++
       "                <h5 class=\"card-title\">Satellite Image</h5>\n" ++
       "                <div class=\"placeholder-image\" style=\"height: 200px; background-color: #e9ecef; display: flex; align-items: center; justify-content: center;\">\n" ++
       "                    <div class=\"text-center\">\n" ++
       "                        <div><i class=\"fas fa-satellite fa-3x mb-3\"></i></div>\n" ++
       "                        <div>Satellite Image Visualization</div>\n" ++
       "                    </div>\n                </div>\n" ++
       "                <div class=\"mt-3\">\n" ++
       "                    <small class=\"text-muted\">\n" ++
       "                        <strong>Provider:</strong> liss_iv<br>\n" ++
       "                        <strong>Resolution:</strong> 5.8m<br>\n" ++
       "                        <strong>Date:</strong> Unknown\n" ++
       "                    </small>\n                </div>\n            </div>\n" ++
       "        </div>\n    ")) ∧
    occursIn ("<strong>Provider:</strong> Unknown<br>\n" ++
        "                        <strong>Resolution:</strong> Unknown<br>\n" ++
        "                        <strong>Date:</strong> Unknown\n")
      (match (updateSatelliteImage exampleAnalysis sampleState).state.dom "satellite-image" with
        | some ⟨.html markup, _, _, _⟩ => markup
        | _ => "") = true := by
  obtain ⟨provider, resolution, date, _, _, _, _, h5⟩ := satellite_placeholder
    partialImageAnalysis
    (.obj [("image", .obj [("provider", .str "liss_iv"), ("resolution", decimal 58 1)])])
    sampleState rfl
  obtain ⟨k1, k2, k3, _, _, _⟩ := h5 _ _ _ _ rfl rfl rfl rfl rfl rfl
  have e1 := k1 (by decide)
  have e2 := k2 (by decide)
  have e3 := k3 (by decide)
  exact ⟨⟨provider, resolution, date, ⟨e1, e2, e3⟩, e1.trans (by decide), e2.trans (by decide),
    e3.trans (by decide)⟩, by decide, by decide⟩

end Dashboard

/-! ## A failed field detail request -/

namespace Dashboard

/-- C26: when the field detail request of `loadFieldDetails` does not return
success (the request is rejected, or the response is not ok), the selected
field, the request log, the waiting continuations and the whole document are
left as they were, so no analysis request is issued and the details view is
not shown, and the failure is reported in an alert.  For every outcome, the
selected field changes only when the response is ok and its body can be read,
and then it becomes that body; starting the request does not change it. -/
theorem failed_detail_request_changes_nothing (fieldId : JSValue) (o : Outcome) (s : State) :
    (∀ msg, o.failure "Failed to load field details" = some msg →
      (resumeLoadFieldDetails fieldId o s).selectedField = s.selectedField ∧
      (resumeLoadFieldDetails fieldId o s).requests = s.requests ∧
      (resumeLoadFieldDetails fieldId o s).pending = s.pending ∧
      (resumeLoadFieldDetails fieldId o s).dom = s.dom ∧
      (resumeLoadFieldDetails fieldId o s).alerts =
        s.alerts ++ ["Failed to load field details: " ++ msg]) ∧
    ((resumeLoadFieldDetails fieldId o s).selectedField ≠ s.selectedField →
      ∃ r field, o = .resolved r ∧ r.ok = true ∧ r.json = .ok field ∧
        (resumeLoadFieldDetails fieldId o s).selectedField = field) ∧
    (loadFieldDetails fieldId s).selectedField = s.selectedField := by
  refine ⟨fun msg hfail => ?_, fun hne => ?_, rfl⟩
  · cases o with
    | rejected m =>
      simp only [Outcome.failure, Option.some.injEq] at hfail
      subst hfail
      exact ⟨rfl, rfl, rfl, rfl, rfl⟩
    | resolved r =>
      obtain ⟨status, ok, statusText, json⟩ := r
      cases ok with
      | true => simp [Outcome.failure] at hfail
      | false =>
        simp only [Outcome.failure, Bool.false_eq_true, if_false, Option.some.injEq] at hfail
        subst hfail
        exact ⟨rfl, rfl, rfl, rfl, rfl⟩
  · cases o with
    | rejected m => exact absurd rfl hne
    | resolved r =>
      obtain ⟨status, ok, statusText, json⟩ := r
      cases ok with
      | false => exact absurd rfl hne
      | true =>
        cases json with
        | error m => exact absurd rfl hne
        | ok field =>
          refine ⟨_, field, rfl, rfl, rfl, ?_⟩
          have hk := onlyDom_displayFieldDetails field { s with selectedField := field }
          have hres : resumeLoadFieldDetails fieldId
              (.resolved ⟨status, true, statusText, .ok field⟩) s =
              match (displayFieldDetails field { s with selectedField := field }).bind
                (fun s => .ok (showFieldDetails (loadFieldAnalysis fieldId .null s))) with
              | .ok s1 => s1
              | .throw e s1 => catchLoadFieldDetails e s1 := rfl
          rw [hres]
          cases hd : displayFieldDetails field { s with selectedField := field } with
          | throw e s1 =>
            rw [hd] at hk
            exact hk.selectedField_eq
          | ok s1 =>
            rw [hd] at hk
            simp only [Res.bind]
            rw [(onlyDom_showFieldDetails _).selectedField_eq]
            exact hk.selectedField_eq

/-- C26, witness: field f1 is selected and the request for f9 is answered with 404. -/
theorem failed_detail_request_changes_nothing_witness :
    (resumeLoadFieldDetails (.str "f9") (failResponse 404 "Not Found")
        sampleState).selectedField = sampleState.selectedField ∧
    (resumeLoadFieldDetails (.str "f9") (failResponse 404 "Not Found") sampleState).requests
      = sampleState.requests ∧
    (resumeLoadFieldDetails (.str "f9") (failResponse 404 "Not Found") sampleState).pending
      = sampleState.pending ∧
    (resumeLoadFieldDetails (.str "f9") (failResponse 404 "Not Found") sampleState).dom
      = sampleState.dom ∧
    (resumeLoadFieldDetails (.str "f9") (failResponse 404 "Not Found") sampleState).alerts
      = sampleState.alerts ++
        ["Failed to load field details: " ++ "Failed to load field details"] :=
  (failed_detail_request_changes_nothing (.str "f9") (failResponse 404 "Not Found")
    sampleState).1 "Failed to load field details" rfl

end Dashboard

/-! ## Consistency of the credential -/

namespace Dashboard

/-- Consistency depends on the credential and the storage only. -/
theorem consistent_of_eq {s1 s2 : State} (h1 : s2.token = s1.token)
    (h2 : s2.localStorage = s1.localStorage) (h : Consistent s1) : Consistent s2 := by
  unfold Consistent getItem at *
  rw [h1, h2]
  exact h

/-- After `checkAuth` the variable holds what is stored. -/
theorem consistent_checkAuth (s : State) : Consistent (checkAuth s).state := by
  unfold checkAuth
  dsimp only
  split <;> rfl

/-- After `logout` nothing is stored and the variable is `null`. -/
theorem consistent_logout (s : State) : Consistent (logout s) := by
  obtain ⟨h1, h2⟩ := logout_clears s
  unfold Consistent getItem
  rw [h1, h2]

/-- Storing a string token keeps the variable and the storage in step. -/
theorem consistent_store (c : String) (s : State) :
    Consistent (setItem "token" (.str c) { s with token := .str c }) ∧
    Consistent { setItem "token" (.str c) s with token := .str c } := by
  constructor <;> simp [Consistent, getItem, setItem, JSValue.toStr]

/-- The components that start keep consistency. -/
theorem consistent_startComponents {s : State} (h : Consistent s) :
    Consistent (startComponents s) :=
  consistent_of_eq (session_startComponents s).1 (session_startComponents s).2 h

/-- The end of `getDemoToken` keeps consistency for a string token, and
establishes it on success. -/
theorem consistent_resumeGetDemoToken (o : Outcome) (s : State) (ht : stringToken o = true) :
    (Consistent s → Consistent (resumeGetDemoToken o s)) ∧
    (∀ r data c, o = .resolved r → r.ok = true → r.json = .ok data →
      data.get "access_token" = .ok (.str c) → Consistent (resumeGetDemoToken o s)) := by
  cases o with
  | rejected m => exact ⟨fun h => consistent_of_eq rfl rfl h, fun _ _ _ h => by cases h⟩
  | resolved r =>
    obtain ⟨status, ok, statusText, json⟩ := r
    cases ok with
    | false =>
      exact ⟨fun h => consistent_of_eq rfl rfl h, fun _ _ _ h hok => by cases h; cases hok⟩
    | true =>
      cases json with
      | error m =>
        exact ⟨fun h => consistent_of_eq rfl rfl h, fun _ _ _ h _ hj => by cases h; cases hj⟩
      | ok data =>
        cases hg : data.get "access_token" with
        | error e =>
          have e1 : resumeGetDemoToken (.resolved ⟨status, true, statusText, .ok data⟩) s =
              catchGetDemoToken e s := by
            simp [resumeGetDemoToken, awaitJson, storeDemoToken, hg, evalThen]
          rw [e1]
          refine ⟨fun h => consistent_of_eq rfl rfl h, fun _ d c h _ hj hc => ?_⟩
          cases h
          cases hj
          rw [hg] at hc
          cases hc
        | ok t =>
          have e1 : resumeGetDemoToken (.resolved ⟨status, true, statusText, .ok data⟩) s =
              setItem "token" t { s with token := t } := by
            simp [resumeGetDemoToken, awaitJson, storeDemoToken, hg, evalThen]
          rw [e1]
          cases t with
          | str c => exact ⟨fun _ => (consistent_store c s).1, fun _ _ _ _ _ _ _ =>
              (consistent_store c s).1⟩
          | _ => simp [stringToken, hg] at ht

/-- The end of `login` keeps consistency for a string token, and establishes it
on success. -/
theorem consistent_resumeLogin (o : Outcome) (s : State) (ht : stringToken o = true) :
    (Consistent s → Consistent (resumeLogin o s)) ∧
    (∀ r data c, o = .resolved r → r.ok = true → r.json = .ok data →
      data.get "access_token" = .ok (.str c) → Consistent (resumeLogin o s)) := by
  cases o with
  | rejected m => exact ⟨fun h => consistent_of_eq rfl rfl h, fun _ _ _ h => by cases h⟩
  | resolved r =>
    obtain ⟨status, ok, statusText, json⟩ := r
    cases ok with
    | false =>
      exact ⟨fun h => consistent_of_eq rfl rfl h, fun _ _ _ h hok => by cases h; cases hok⟩
    | true =>
      cases json with
      | error m =>
        exact ⟨fun h => consistent_of_eq rfl rfl h, fun _ _ _ h _ hj => by cases h; cases hj⟩
      | ok data =>
        cases hg : data.get "access_token" with
        | error e =>
          have e1 : resumeLogin (.resolved ⟨status, true, statusText, .ok data⟩) s =
              catchLogin e s := by
            simp [resumeLogin, awaitJson, storeLoginToken, hg, evalThen]
          rw [e1]
          refine ⟨fun h => consistent_of_eq rfl rfl h, fun _ d c h _ hj hc => ?_⟩
          cases h
          cases hj
          rw [hg] at hc
          cases hc
        | ok t =>
          have e1 : resumeLogin (.resolved ⟨status, true, statusText, .ok data⟩) s =
              startComponents (setDisplayIfPresent "main-content" "block"
                (setDisplayIfPresent "login-form" "none"
                  { setItem "token" t s with token := t })) := by
            simp [resumeLogin, awaitJson, storeLoginToken, hg, evalThen]
          rw [e1]
          cases t with
          | str c =>
            have hc : Consistent (startComponents (setDisplayIfPresent "main-content" "block"
                (setDisplayIfPresent "login-form" "none"
                  { setItem "token" (.str c) s with token := .str c }))) :=
              consistent_startComponents
                (consistent_of_eq (session_setDisplayIfPresent _ _ _).1
                  (session_setDisplayIfPresent _ _ _).2
                  (consistent_of_eq (session_setDisplayIfPresent _ _ _).1
                    (session_setDisplayIfPresent _ _ _).2 (consistent_store c s).2))
            exact ⟨fun _ => hc, fun _ _ _ _ _ _ _ => hc⟩
          | _ => simp [stringToken, hg] at ht

/-- After `initApp` has started, from any state, the variable holds what is stored. -/
theorem consistent_initApp (s : State) : Consistent (initApp s) := by
  have h := consistent_checkAuth s
  unfold initApp
  cases hc : checkAuth s with
  | ok s1 =>
    rw [hc] at h
    exact consistent_startComponents h
  | throw e s1 =>
    rw [hc] at h
    exact consistent_of_eq rfl rfl h

/-- One session event keeps consistency. -/
theorem consistent_sessionStep (L : Leaflet) (s : State) (ev : SessionEvent)
    (ht : ev.typed = true) (h : Consistent s) : Consistent (sessionStep L s ev) := by
  cases ev with
  | initApp => exact consistent_initApp s
  | demoTokenResponse o =>
    exact consistent_startComponents ((consistent_resumeGetDemoToken o s ht).1 h)
  | login =>
    have hl : (settle (login s)).token = s.token ∧
        (settle (login s)).localStorage = s.localStorage := by
      unfold login
      cases inputValue "username" s with
      | error e => exact ⟨rfl, rfl⟩
      | ok u =>
        simp only [evalThen]
        cases inputValue "password" s with
        | error e => exact ⟨rfl, rfl⟩
        | ok p => exact ⟨rfl, rfl⟩
    exact consistent_of_eq hl.1 hl.2 h
  | loginResponse o => exact (consistent_resumeLogin o s ht).1 h
  | logout => exact consistent_logout s
  | initMap =>
    have hi : (initMap s).token = s.token ∧ (initMap s).localStorage = s.localStorage := by
      unfold initMap
      split <;> exact ⟨rfl, rfl⟩
    exact consistent_of_eq hi.1 hi.2 h
  | page ev => exact consistent_of_eq (extends_step L s ev).1 (storage_step L s ev) h

/-- C27: the in-memory credential equals what is stored under the key `token`
(`null` when nothing is stored) after `checkAuth` and after `logout` (both
empty then), from any state; after a successful credential response of `login`
or `getDemoToken` whose access token is a string, from any state; and after
every sequence of session and page events whose credential responses carry
string tokens, successful or not, when the sequence starts with `initApp` or
from a state in which the two already agree. -/
theorem credential_consistency (L : Leaflet) (s : State) (events : List SessionEvent)
    (ht : ∀ ev ∈ events, ev.typed = true) :
    Consistent (checkAuth s).state ∧
    (Consistent (logout s) ∧ (logout s).token = .null ∧
      (logout s).localStorage "token" = none) ∧
    (∀ data c, data.get "access_token" = .ok (.str c) →
      Consistent (resumeLogin (okResponse data) s) ∧
      Consistent (resumeGetDemoToken (okResponse data) s)) ∧
    (Consistent s → Consistent (sessionRun L s events)) ∧
    Consistent (sessionRun L s (.initApp :: events)) := by
  have hrun : ∀ (events : List SessionEvent) (s : State), (∀ ev ∈ events, ev.typed = true) →
      Consistent s → Consistent (sessionRun L s events) := by
    intro events
    induction events with
    | nil => intro s _ h; exact h
    | cons ev rest ih =>
      intro s ht h
      exact ih (sessionStep L s ev) (fun e he => ht e (List.mem_cons_of_mem _ he))
        (consistent_sessionStep L s ev (ht ev (List.mem_cons_self _ _)) h)
  refine ⟨consistent_checkAuth s, ⟨consistent_logout s, (logout_clears s).2,
    (logout_clears s).1⟩, fun data c hd => ?_, hrun events s ht, ?_⟩
  · have hs : stringToken (okResponse data) = true := by
      simp [stringToken, okResponse, hd]
    exact ⟨(consistent_resumeLogin _ s hs).2 _ data c rfl rfl rfl hd,
      (consistent_resumeGetDemoToken _ s hs).2 _ data c rfl rfl rfl hd⟩
  · exact hrun events (initApp s) ht (consistent_initApp s)

/-- C27, witness: the fresh page starts, the demo credential request fails, a
login succeeds with "abc", the list is refreshed, and the user logs out. -/
theorem credential_consistency_witness :
    Consistent (sessionRun Leaflet.lenient freshState
      [.initApp, .demoTokenResponse (failResponse 503 "Service Unavailable"), .login,
       .loginResponse (tokenResponse "abc"), .page .loadFields, .logout]) :=
  (credential_consistency Leaflet.lenient freshState
    [.demoTokenResponse (failResponse 503 "Service Unavailable"), .login,
     .loginResponse (tokenResponse "abc"), .page .loadFields, .logout]
    (by decide)).2.2.2.2

end Dashboard

/-! ## Vertices and bounds -/

namespace Dashboard

/-- Swapping the vertices of a ring is the map of `swapPair`. -/
theorem swapCoords_eq_map (coords : List JSValue) (h : coords.all isCoord = true) :
    swapCoords coords = .ok (coords.map swapPair) := by
  induction coords with
  | nil => rfl
  | cons c rest ih =>
    simp only [List.all_cons, Bool.and_eq_true] at h
    cases c with
    | arr items =>
      simp only [swapCoords, swapCoord, JSValue.index, bind, Except.bind, pure, Except.pure,
        ih h.2, List.map_cons, swapPair]
    | _ => simp [isCoord] at h

/-- The first ring of a field of the data model with geometry coordinates, and
the vertices made of it. -/
theorem firstRing_of_wellFormed {f : JSValue} (h : wellFormedField f = true)
    (hd : drawable f = true) :
    ∃ coords, firstRing f = .ok (.arr coords) ∧ ringOf f = coords.map swapPair := by
  have hg := hasGeometry_of_wellFormed h
  rw [hd] at hg
  cases f with
  | obj props =>
    have hget : (JSValue.obj props).get "geometry" = .ok (JSValue.lookup "geometry" props) := rfl
    simp only [wellFormedField, Bool.or_eq_true, Bool.not_eq_true'] at h
    simp only [hasGeometry, hget, bind, Except.bind, pure, Except.pure] at hg
    cases ht : (JSValue.lookup "geometry" props).truthy with
    | false => simp [ht] at hg
    | true =>
      simp only [ht, if_true, Bool.true_eq_false, false_or] at h hg
      cases hc : (JSValue.lookup "geometry" props).get "coordinates" with
      | error e => simp [hc] at h
      | ok coordinates =>
        simp only [hc, Except.ok.injEq] at h hg
        simp only [hg, Bool.not_true, Bool.false_or] at h
        cases hi : coordinates.index 0 with
        | error e => simp [hi] at h
        | ok ring =>
          simp only [hi] at h
          cases ring with
          | arr coords =>
            have hr := swapCoords_eq_map coords h
            have h0 : firstRing (.obj props) = .ok (.arr coords) := by
              simp only [firstRing, hget, bind, Except.bind, hc, hi]
            have h1 : ringLatLngs (.obj props) = .ok (coords.map swapPair) := by
              simp only [ringLatLngs, h0, bind, Except.bind, JSValue.asArray, hr]
            exact ⟨coords, h0, by simp only [ringOf, h1]⟩
          | _ => simp [isRing] at h
  | _ => simp [wellFormedField] at h

/-- The bounds of a list of fields of the data model are the vertices of the
fields with geometry coordinates, in order. -/
theorem allBounds_eq (fields : List JSValue) (hwf : ∀ f ∈ fields, wellFormedField f = true) :
    allBounds fields = .ok (boundsOf fields) := by
  induction fields with
  | nil => rfl
  | cons f rest ih =>
    have hb := ih (fun g hg => hwf g (List.mem_cons_of_mem _ hg))
    have hf := hwf f (List.mem_cons_self _ _)
    have hg := hasGeometry_of_wellFormed hf
    cases hd : drawable f with
    | true =>
      simp only [allBounds, (ring_of_wellFormed hf hd).2, hb, bind, Except.bind, pure,
        Except.pure]
      simp [boundsOf, hd, List.flatMap_cons]
    | false =>
      rw [hd] at hg
      simp only [allBounds, fieldBounds_of_not_drawable hg, hb, bind, Except.bind, pure,
        Except.pure]
      simp [boundsOf, hd]

/-- Redrawing fields of the data model on a page with a map: the view is fitted
to the bounds when there is at least one vertex, and left as it is otherwise. -/
theorem addFieldsToMap_fitted (L : Leaflet) (fields : List JSValue) (s : State) (m : LeafletMap)
    (hmap : s.map = some m) (hwf : ∀ f ∈ fields, wellFormedField f = true)
    (hL : ∀ f ∈ fields, L.polygon (ringOf f) = none)
    (hF : ∀ b, allBounds fields = .ok b → L.fitBounds b = none) :
    ∃ s2 m2, addFieldsToMap L (.arr fields) s = .ok s2 ∧ s2.map = some m2 ∧
      m2.layers = m.layers.filter (fun l => !l.isPolygon) ++ drawnLayers fields ∧
      m2.fitted = if (boundsOf fields).length > 0 then some (boundsOf fields) else m.fitted := by
  obtain ⟨s1, h1, h2⟩ := drawFields_layers L fields hwf (fun f hf _ => hL f hf)
    { s with map := some { m with layers := m.layers.filter (fun l => !l.isPolygon) } }
  have hb := allBounds_eq fields hwf
  have h3 : s1.map = some ⟨m.layers.filter (fun l => !l.isPolygon) ++ drawnLayers fields,
      m.fitted⟩ := h2
  by_cases hlen : fields.length > 0
  · by_cases hbl : (boundsOf fields).length > 0
    · refine ⟨{ s1 with map := s1.map.map (fun m => { m with fitted := some (boundsOf fields) }) },
        ⟨m.layers.filter (fun l => !l.isPolygon) ++ drawnLayers fields, some (boundsOf fields)⟩,
        ?_, ?_, rfl, by simp only [hbl, if_true]⟩
      · simp only [addFieldsToMap, hmap, JSValue.asArray, evalThen, h1, Res.bind, hlen, hb, hbl,
          if_true, fitBounds, hF _ hb]
      · simp only [h3, Option.map]
    · exact ⟨s1, _, by
        simp only [addFieldsToMap, hmap, JSValue.asArray, evalThen, h1, Res.bind, hlen, hb, hbl,
          if_true, if_false], h3, rfl, by simp only [hbl, if_false]⟩
  · have hnil : fields = [] := by
      cases fields with
      | nil => rfl
      | cons x xs => simp at hlen
    have hbl : ¬ (boundsOf fields).length > 0 := by rw [hnil]; simp [boundsOf]
    exact ⟨s1, _, by
      simp only [addFieldsToMap, hmap, JSValue.asArray, evalThen, h1, Res.bind, hlen, if_false],
      h3, rfl, by simp only [hbl, if_false]⟩

/-- A field of the data model passes the shape test of the redraw lemmas, the
geometry test of the code holds for it exactly when it has a boundary, and the
vertices that the code computes for it are the swapped vertices of the boundary. -/
theorem model_field_facts {f : JSValue} (h : modelField f = true) :
    wellFormedField f = true ∧ drawable f = (boundary f).isSome ∧
      (∀ vs, vertices f = some vs → ringOf f = vs) := by
  cases f with
  | obj props =>
    have hget : (JSValue.obj props).get "geometry" = .ok (JSValue.lookup "geometry" props) := rfl
    cases hg : JSValue.lookup "geometry" props with
    | obj g =>
      have hgc : (JSValue.obj g).get "coordinates" = .ok (JSValue.lookup "coordinates" g) := rfl
      cases hc : JSValue.lookup "coordinates" g with
      | arr items =>
        cases items with
        | nil => simp [modelField, hg, hc] at h
        | cons first rest =>
          cases first with
          | arr ring =>
            simp only [modelField, hg, hc] at h
            have hsw := swapCoords_eq_map ring h
            refine ⟨?_, ?_, ?_⟩
            · simp [wellFormedField, hg, hgc, hc, JSValue.truthy, JSValue.index, isRing, h]
            · simp [drawable, hasGeometry, hget, hg, hgc, hc, bind, Except.bind, pure,
                Except.pure, JSValue.truthy, boundary]
            · intro vs hv
              simp only [vertices, boundary, hg, hc, Option.map_some', Option.some.injEq] at hv
              subst hv
              simp only [ringOf, ringLatLngs, firstRing, hget, hg, hgc, hc, bind, Except.bind,
                JSValue.index, List.getD_cons_zero, JSValue.asArray, hsw]
          | _ => simp [modelField, hg, hc] at h
      | undefined =>
        refine ⟨?_, ?_, ?_⟩
        · simp [wellFormedField, hg, hgc, hc, JSValue.truthy]
        · simp [drawable, hasGeometry, hget, hg, hgc, hc, bind, Except.bind, pure,
            Except.pure, JSValue.truthy, boundary]
        · intro vs hv
          simp [vertices, boundary, hg, hc] at hv
      | null =>
        refine ⟨?_, ?_, ?_⟩
        · simp [wellFormedField, hg, hgc, hc, JSValue.truthy]
        · simp [drawable, hasGeometry, hget, hg, hgc, hc, bind, Except.bind, pure,
            Except.pure, JSValue.truthy, boundary]
        · intro vs hv
          simp [vertices, boundary, hg, hc] at hv
      | _ => simp [modelField, hg, hc] at h
    | undefined =>
      refine ⟨?_, ?_, ?_⟩
      · simp [wellFormedField, hg, JSValue.truthy]
      · simp [drawable, hasGeometry, hget, hg, bind, Except.bind, pure, Except.pure,
          JSValue.truthy, boundary]
      · intro vs hv
        simp [vertices, boundary, hg] at hv
    | null =>
      refine ⟨?_, ?_, ?_⟩
      · simp [wellFormedField, hg, JSValue.truthy]
      · simp [drawable, hasGeometry, hget, hg, bind, Except.bind, pure, Except.pure,
          JSValue.truthy, boundary]
      · intro vs hv
        simp [vertices, boundary, hg] at hv
    | _ => simp [modelField, hg] at h
  | _ => simp [modelField] at h

/-- The fields that the code draws and their vertices are the fields with a
boundary and the swapped vertices of the boundary. -/
theorem drawn_rings_of_model (fields : List JSValue)
    (hwf : ∀ f ∈ fields, modelField f = true) :
    (fields.filter drawable).map ringOf = fields.filterMap vertices ∧
    (fields.filter drawable).length = (fields.filter (fun f => (boundary f).isSome)).length := by
  induction fields with
  | nil => exact ⟨rfl, rfl⟩
  | cons f rest ih =>
    obtain ⟨ih1, ih2⟩ := ih (fun g hg => hwf g (List.mem_cons_of_mem _ hg))
    obtain ⟨_, hd, hv⟩ := model_field_facts (hwf f (List.mem_cons_self _ _))
    cases hb : vertices f with
    | none =>
      have hn : (boundary f).isSome = false := by
        unfold vertices at hb
        cases hbb : boundary f with
        | none => rfl
        | some r => rw [hbb] at hb; cases hb
      rw [hn] at hd
      simp [List.filter_cons, hd, hn, List.filterMap_cons, hb, ih1, ih2]
    | some vs =>
      have hn : (boundary f).isSome = true := by
        unfold vertices at hb
        cases hbb : boundary f with
        | none => rw [hbb] at hb; cases hb
        | some r => rfl
      rw [hn] at hd
      simp [List.filter_cons, hd, hn, List.filterMap_cons, hb, ih1, ih2, hv vs hb]

/-- Redrawing fields on a page with a map, whether or not fitting the view
throws: the map then holds its former layers other than polygons, followed by
one polygon per field that the code draws. -/
theorem redrawn_layers (L : Leaflet) (fields : List JSValue) (s : State) (m : LeafletMap)
    (hmap : s.map = some m) (hwf : ∀ f ∈ fields, wellFormedField f = true)
    (hL : ∀ f ∈ fields, drawable f = true → L.polygon (ringOf f) = none) :
    ∃ m2, (redrawn L fields s).map = some m2 ∧
      m2.layers = m.layers.filter (fun l => !l.isPolygon) ++ drawnLayers fields := by
  obtain ⟨s1, h1, h2⟩ := drawFields_layers L fields hwf hL
    { s with map := some { m with layers := m.layers.filter (fun l => !l.isPolygon) } }
  obtain ⟨b, hb⟩ := allBounds_ok fields hwf
  have h3 : s1.map = some ⟨m.layers.filter (fun l => !l.isPolygon) ++ drawnLayers fields,
      m.fitted⟩ := h2
  unfold redrawn
  by_cases hlen : fields.length > 0
  · by_cases hbl : b.length > 0
    · cases hf : L.fitBounds b with
      | none =>
        refine ⟨⟨m.layers.filter (fun l => !l.isPolygon) ++ drawnLayers fields, some b⟩, ?_, rfl⟩
        simp only [addFieldsToMap, hmap, JSValue.asArray, evalThen, h1, Res.bind, hlen, hb, hbl,
          if_true, fitBounds, hf, Res.state, h3, Option.map]
      | some e =>
        refine ⟨⟨m.layers.filter (fun l => !l.isPolygon) ++ drawnLayers fields, m.fitted⟩, ?_, rfl⟩
        simp only [addFieldsToMap, hmap, JSValue.asArray, evalThen, h1, Res.bind, hlen, hb, hbl,
          if_true, fitBounds, hf, Res.state, h3]
    · refine ⟨⟨m.layers.filter (fun l => !l.isPolygon) ++ drawnLayers fields, m.fitted⟩, ?_, rfl⟩
      simp only [addFieldsToMap, hmap, JSValue.asArray, evalThen, h1, Res.bind, hlen, hb, hbl,
        if_true, if_false, Res.state, h3]
  · refine ⟨⟨m.layers.filter (fun l => !l.isPolygon) ++ drawnLayers fields, m.fitted⟩, ?_, rfl⟩
    simp only [addFieldsToMap, hmap, JSValue.asArray, evalThen, h1, Res.bind, hlen, if_false,
      Res.state, h3]

/-- C15: on a page with a map, for every prior set of layers and every list of
fields of the data model whose polygons the map library accepts, after
`addFieldsToMap` (whether or not fitting the view then throws) the polygons on
the map are exactly one per field that has a boundary, in the order of the
list, each with the swapped vertices of that boundary: none survives from
before.  The layers that are not polygons are the same as before, in the same
order, and calling it a second time with the same list leaves the layers as
they are after the first call. -/
theorem addFieldsToMap_redraws (L : Leaflet) (fields : List JSValue) (s : State)
    (m : LeafletMap) (hmap : s.map = some m) (hwf : ∀ f ∈ fields, modelField f = true)
    (hL : ∀ f ∈ fields, ∀ vs, vertices f = some vs → L.polygon vs = none) :
    polygonRings (redrawn L fields s) = fields.filterMap vertices ∧
    polygonCount (redrawn L fields s) =
      (fields.filter (fun f => (boundary f).isSome)).length ∧
    (layersOf (redrawn L fields s)).filter (fun l => !l.isPolygon) =
      m.layers.filter (fun l => !l.isPolygon) ∧
    layersOf (redrawn L fields (redrawn L fields s)) = layersOf (redrawn L fields s) := by
  have hw : ∀ f ∈ fields, wellFormedField f = true := fun f hf => (model_field_facts (hwf f hf)).1
  have hL2 : ∀ f ∈ fields, drawable f = true → L.polygon (ringOf f) = none := by
    intro f hf hd
    obtain ⟨_, h2, h3⟩ := model_field_facts (hwf f hf)
    rw [hd] at h2
    cases hv : vertices f with
    | none =>
      unfold vertices at hv
      cases hb : boundary f with
      | none => rw [hb] at h2; cases h2
      | some r => rw [hb] at hv; cases hv
    | some vs =>
      rw [h3 vs hv]
      exact hL f hf vs hv
  obtain ⟨m2, h2, h3⟩ := redrawn_layers L fields s m hmap hw hL2
  obtain ⟨m3, k2, k3⟩ := redrawn_layers L fields (redrawn L fields s) m2 h2 hw hL2
  obtain ⟨d1, d2⟩ := drawn_rings_of_model fields hwf
  have hp : (drawnLayers fields).filter Layer.isPolygon = drawnLayers fields :=
    List.filter_eq_self.mpr (drawnLayers_polygons fields)
  have hn : (drawnLayers fields).filter (fun l => !l.isPolygon) = [] :=
    List.filter_eq_nil_iff.mpr (fun l hl => by simp [drawnLayers_polygons fields l hl])
  refine ⟨?_, ?_, ?_, ?_⟩
  · simp only [polygonRings, layersOf, h2, h3, List.filterMap_append, filterMap_ring_nonPolygon,
      filterMap_ring_drawnLayers, List.nil_append, d1]
  · simp only [polygonCount, h2, h3, List.filter_append, filter_polygon_nonPolygon, hp,
      List.nil_append, ← d2]
    simp [drawnLayers]
  · simp only [layersOf, h2, h3, List.filter_append, hn, List.append_nil, List.filter_filter,
      Bool.and_self]
  · simp only [layersOf, h2, k2, k3, h3, List.filter_append, hn, List.append_nil,
      List.filter_filter, Bool.and_self]

/-- C15, witness: the map shows the base layer and the polygon of a field that
is no longer listed; the list of f2 (with a boundary) and f1 (without) is
drawn.  Afterwards the only polygon is the one of f2, with its three vertices,
and the base layer is still there. -/
theorem addFieldsToMap_redraws_witness :
    ringTexts staleMapState = [[("10", "70"), ("11", "70"), ("11", "71")]] ∧
    ringTexts (redrawn Leaflet.lenient [fieldF2, fieldF1] staleMapState)
      = [[("20", "78"), ("20", "79"), ("21", "79")]] ∧
    tileUrls (redrawn Leaflet.lenient [fieldF2, fieldF1] staleMapState) = ["osm"] ∧
    polygonRings (redrawn Leaflet.lenient [fieldF2, fieldF1] staleMapState)
      = [fieldF2, fieldF1].filterMap vertices ∧
    polygonCount (redrawn Leaflet.lenient [fieldF2, fieldF1] staleMapState) = 1 ∧
    layersOf (redrawn Leaflet.lenient [fieldF2, fieldF1]
        (redrawn Leaflet.lenient [fieldF2, fieldF1] staleMapState))
      = layersOf (redrawn Leaflet.lenient [fieldF2, fieldF1] staleMapState) :=
  ⟨by decide, by decide, by decide,
    (addFieldsToMap_redraws Leaflet.lenient [fieldF2, fieldF1] staleMapState _ rfl (by decide)
      (fun _ _ _ _ => rfl)).1,
    by decide,
    (addFieldsToMap_redraws Leaflet.lenient [fieldF2, fieldF1] staleMapState _ rfl (by decide)
      (fun _ _ _ _ => rfl)).2.2.2⟩

/-- C14 (defect): a listed field whose geometry has an empty `coordinates` array
makes `addFieldsToMap` throw.  The first loop catches the exception of that
field, logs it and goes on, so the polygon of f2 is drawn; the second loop,
which reads the same ring without a `try`, raises the exception, the view is not
fitted, and `loadFields` replaces the list of cards, already rendered, by
"Failed to load fields".  Without that field the same list is drawn, fitted and
shown. -/
theorem addFieldsToMap_throws_on_empty_coordinates :
    (addFieldsToMap Leaflet.lenient (.arr [fieldF2, fieldNoRing]) sampleState).thrown
      = some (.typeError "Cannot read properties of undefined (reading forEach)") ∧
    (redrawn Leaflet.lenient [fieldF2, fieldNoRing] sampleState).console
      = ["Error adding field to map: Cannot read properties of undefined (reading map)"] ∧
    ringTexts (redrawn Leaflet.lenient [fieldF2, fieldNoRing] sampleState)
      = [[("20", "78"), ("20", "79"), ("21", "79")]] ∧
    (redrawn Leaflet.lenient [fieldF2, fieldNoRing] sampleState).map.map
      (fun m => m.fitted.isSome) = some false ∧
    ((resumeLoadFields Leaflet.lenient (okResponse (.arr [fieldF2, fieldNoRing])) sampleState).dom
        "fields-list").map (fun el => el.content) = some (.html
      "<div class=\"alert alert-danger\">Failed to load fields: Cannot read properties of undefined (reading forEach)</div>") ∧
    (addFieldsToMap Leaflet.lenient (.arr [fieldF2]) sampleState).thrown = none ∧
    (redrawn Leaflet.lenient [fieldF2] sampleState).map.map
      (fun m => m.fitted.isSome) = some true := by
  decide

/-- C28: on a page with a map, for every list of fields of the data model that
the map library accepts: the vertices of each field with geometry coordinates
are the items of the first ring of its coordinates, each pair `[lon, lat]`
swapped to `[lat, lon]`, in the same number and order, and they are the
vertices of its polygon; after `addFieldsToMap` the view is fitted to the bounds
exactly when the fields with geometry contribute at least one vertex, otherwise
it is left as it was, and the bounds hold every vertex of every such field. -/
theorem ring_conversion_and_bounds (L : Leaflet) (fields : List JSValue) (s : State)
    (m : LeafletMap) (hmap : s.map = some m) (hwf : ∀ f ∈ fields, wellFormedField f = true)
    (hL : ∀ f ∈ fields, L.polygon (ringOf f) = none)
    (hF : ∀ b, allBounds fields = .ok b → L.fitBounds b = none) :
    (∀ lon lat, swapPair (.arr [lon, lat]) = (lat, lon)) ∧
    (∀ f ∈ fields, drawable f = true →
      ∃ coords, firstRing f = .ok (.arr coords) ∧ ringOf f = coords.map swapPair ∧
        (ringOf f).length = coords.length) ∧
    (∃ s2 m2, addFieldsToMap L (.arr fields) s = .ok s2 ∧ s2.map = some m2 ∧
      polygonRings s2 = (fields.filter drawable).map ringOf ∧
      m2.fitted = if (boundsOf fields).length > 0 then some (boundsOf fields) else m.fitted) ∧
    (∀ f ∈ fields, drawable f = true → ∀ v ∈ ringOf f, v ∈ boundsOf fields) := by
  refine ⟨fun _ _ => rfl, fun f hf hd => ?_, ?_, fun f hf hd v hv => ?_⟩
  · obtain ⟨coords, h1, h2⟩ := firstRing_of_wellFormed (hwf f hf) hd
    exact ⟨coords, h1, h2, by rw [h2, List.length_map]⟩
  · obtain ⟨s2, m2, h1, h2, h3, h4⟩ := addFieldsToMap_fitted L fields s m hmap hwf hL hF
    refine ⟨s2, m2, h1, h2, ?_, h4⟩
    simp only [polygonRings, layersOf, h2, h3, List.filterMap_append, filterMap_ring_nonPolygon,
      filterMap_ring_drawnLayers, List.nil_append]
  · simp only [boundsOf, List.mem_flatMap, List.mem_filter]
    exact ⟨f, ⟨hf, hd⟩, hv⟩

/-- C28, witness: the list of f2 (three vertices) and f1 (no boundary) on a map
whose view has not been fitted. -/
theorem ring_conversion_and_bounds_witness :
    (∃ coords, firstRing fieldF2 = .ok (.arr coords) ∧ ringOf fieldF2 = coords.map swapPair ∧
      (ringOf fieldF2).length = coords.length) ∧
    (ringOf fieldF2).map (fun v => (v.1.toStr, v.2.toStr))
      = [("20", "78"), ("20", "79"), ("21", "79")] ∧
    ∃ s2 m2, addFieldsToMap Leaflet.lenient (.arr [fieldF2, fieldF1]) sampleState = .ok s2 ∧
      s2.map = some m2 ∧
      polygonRings s2 = ([fieldF2, fieldF1].filter drawable).map ringOf ∧
      m2.fitted = if (boundsOf [fieldF2, fieldF1]).length > 0
        then some (boundsOf [fieldF2, fieldF1]) else none :=
  ⟨(ring_conversion_and_bounds Leaflet.lenient [fieldF2, fieldF1] sampleState
      ⟨[.tile "osm"], none⟩ rfl (by decide) (fun _ _ => rfl) (fun _ _ => rfl)).2.1
      fieldF2 (by simp) (by decide),
    by decide,
    (ring_conversion_and_bounds Leaflet.lenient [fieldF2, fieldF1] sampleState
      ⟨[.tile "osm"], none⟩ rfl (by decide) (fun _ _ => rfl) (fun _ _ => rfl)).2.2.1⟩

end Dashboard

/-! ## The filter state of the sidebar -/

namespace Sidebar

/-- Reading the key that was set gives the new value. -/
theorem lookup_setProp_same (key : String) (value : JSValue) (l : List (String × JSValue)) :
    JSValue.lookup key (setProp key value l) = value := by
  induction l with
  | nil => simp [setProp, JSValue.lookup]
  | cons p rest ih =>
    obtain ⟨k, v⟩ := p
    by_cases h : k = key
    · simp [setProp, h, JSValue.lookup]
    · simp [setProp, h, JSValue.lookup, ih]

/-- Reading another key gives what it gave before. -/
theorem lookup_setProp_other (key other : String) (value : JSValue)
    (l : List (String × JSValue)) (hne : other ≠ key) :
    JSValue.lookup other (setProp key value l) = JSValue.lookup other l := by
  induction l with
  | nil =>
    have : key ≠ other := fun h => hne h.symm
    simp [setProp, JSValue.lookup, this]
  | cons p rest ih =>
    obtain ⟨k, v⟩ := p
    by_cases h : k = key
    · have hk : k ≠ other := fun e => hne (e.symm.trans h)
      simp [setProp, h, JSValue.lookup, hk, hne, Ne.symm hne]
    · by_cases h2 : k = other
      · subst h2
        simp [setProp, h, JSValue.lookup]
      · simp [setProp, h, JSValue.lookup, h2, ih]

/-- Setting a key back to the boolean it had restores the object. -/
theorem setProp_restore (key : String) (b : Bool) (value : JSValue)
    (l : List (String × JSValue)) (h : JSValue.lookup key l = .bool b) :
    setProp key (.bool b) (setProp key value l) = l := by
  induction l with
  | nil => simp [JSValue.lookup] at h
  | cons p rest ih =>
    obtain ⟨k, v⟩ := p
    by_cases hk : k = key
    · simp only [JSValue.lookup, hk, if_true] at h
      simp [setProp, hk, h]
    · simp only [JSValue.lookup, hk, if_false] at h
      simp [setProp, hk, ih h]

/-- C29: `handleSatelliteSourceChange(s)` makes the flag of source `s` the negation
of what it was and leaves the flag of every other source as it was; when the
flag of `s` is a boolean, applying it twice for `s` gives back the original
state.  `handleDateChange(type, v)` makes that end of the date range `v` and
leaves every other key as it was. -/
theorem sidebar_updaters (source type : String) (v : JSValue)
    (sources range : List (String × JSValue)) :
    JSValue.lookup source (handleSatelliteSourceChange source sources)
      = .bool (!(JSValue.lookup source sources).truthy) ∧
    (∀ other, other ≠ source →
      JSValue.lookup other (handleSatelliteSourceChange source sources)
        = JSValue.lookup other sources) ∧
    (∀ b, JSValue.lookup source sources = .bool b →
      handleSatelliteSourceChange source (handleSatelliteSourceChange source sources)
        = sources) ∧
    JSValue.lookup type (handleDateChange type v range) = v ∧
    (∀ other, other ≠ type →
      JSValue.lookup other (handleDateChange type v range) = JSValue.lookup other range) := by
  refine ⟨lookup_setProp_same _ _ _, fun other h => lookup_setProp_other _ _ _ _ h,
    fun b hb => ?_, lookup_setProp_same _ _ _, fun other h => lookup_setProp_other _ _ _ _ h⟩
  unfold handleSatelliteSourceChange
  rw [lookup_setProp_same, hb]
  have hbb : (!(JSValue.bool (!(JSValue.bool b).truthy)).truthy) = b := by
    cases b <;> rfl
  rw [hbb]
  exact setProp_restore source b _ sources hb

/-- C29, witness: the source `modis` of the initial state is switched off and on
again, and the other end of the date range keeps its value. -/
theorem sidebar_updaters_witness :
    handleSatelliteSourceChange "modis" (handleSatelliteSourceChange "modis" initialSources)
      = initialSources ∧
    JSValue.lookup "endDate" (handleDateChange "startDate" (.str "2024-01-01")
      initialDateRange) = JSValue.lookup "endDate" initialDateRange :=
  ⟨(sidebar_updaters "modis" "startDate" (.str "2024-01-01") initialSources
      initialDateRange).2.2.1 true rfl,
   (sidebar_updaters "modis" "startDate" (.str "2024-01-01") initialSources
      initialDateRange).2.2.2.2 "endDate" (by decide)⟩

end Sidebar
